import Mathlib

/-!
# Mailbox state synchronisation of the Outlook/Teams mail client

A shallow embedding of `client/src/components/EmailApp.js`: the React state of the
`EmailApp` component is a record, every `setX(prev => ...)` updater is a pure function on
the latest value, and every asynchronous handler is split at its `await` into the part that
runs before the request is sent and the continuations that run when the request resolves
or rejects.  Values a continuation reads from its closure are passed to it explicitly.
-/

namespace EmailApp

/-! ## Data model -/

/-- A message as returned by the mail API.  The two date fields hold the instant denoted by
the ISO date string (milliseconds since the epoch); `none` stands for an absent, `null` or
empty field, which is what the `||` chains of the source test for. -/
structure Email where
  id : String
  subject : Option String
  bodyPreview : Option String
  bodyContent : Option String
  fromName : Option String
  fromAddress : Option String
  receivedDateTime : Option Int
  sentDateTime : Option Int
  isRead : Bool
deriving DecidableEq, Repr

/-- The record kept by `setUndoInfo` after a successful delete. -/
structure UndoInfo where
  emailId : String
  email : Email
  folder : String
  timestamp : Nat
deriving DecidableEq, Repr

/-- The instant `new Date(e.receivedDateTime || e.sentDateTime || 0)` that the comparator of
`checkForNewEmails` computes for a message. -/
def timestamp (e : Email) : Int :=
  match e.receivedDateTime with
  | some t => t
  | none =>
    match e.sentDateTime with
    | some t => t
    | none => 0

/-- The order a list is in when it is sorted by timestamp, newest first. -/
def newestFirst (a b : Email) : Prop := timestamp b ≤ timestamp a

instance : DecidableRel newestFirst := fun a b => Int.decLe (timestamp b) (timestamp a)

/-- The ids of a list of messages, `emails.map(e => e.id)`. -/
def ids (emails : List Email) : List String := emails.map (fun e => e.id)

/-! ## The updaters of `setEmails` -/

/-- The updater of the append branch of `fetchEmails` and of `loadMoreEmails`:
`[...prevEmails, ...newEmails.filter(e => !existingIds.has(e.id))]`. -/
def appendEmails (prevEmails newEmails : List Email) : List Email :=
  let existingIds := ids prevEmails
  let uniqueNewEmails := newEmails.filter (fun e => !existingIds.contains e.id)
  prevEmails ++ uniqueNewEmails

/-- The list `newEmailsList` both reconciliations compute:
`newEmails.filter(e => !existingIds.has(e.id))`. -/
def newEmailsList (prevEmails newEmails : List Email) : List Email :=
  newEmails.filter (fun e => !(ids prevEmails).contains e.id)

/-- The amount the replace branch of `fetchEmails` adds to `newEmailCount`: the diff is only
computed when both lists are non-empty, and the counter is only touched when the diff is
non-empty. -/
def replaceNewCount (prevEmails newEmails : List Email) : Nat :=
  if prevEmails.length > 0 ∧ newEmails.length > 0 then
    if (newEmailsList prevEmails newEmails).length > 0 then
      (newEmailsList prevEmails newEmails).length
    else 0
  else 0

/-- The value the updater of the replace branch of `fetchEmails` returns: `newEmails`. -/
def replaceEmails (_prevEmails newEmails : List Email) : List Email := newEmails

/-- `Map.prototype.set` on a map kept in insertion order: an existing key keeps its place
and takes the new value, a new key goes to the end. -/
def mapSet (m : List (String × Email)) (k : String) (v : Email) : List (String × Email) :=
  match m with
  | [] => [(k, v)]
  | (k', v') :: rest => if k' = k then (k, v) :: rest else (k', v') :: mapSet rest k v

/-- `list.forEach(email => emailMap.set(email.id, email))`. -/
def mapSetAll (m : List (String × Email)) (list : List Email) : List (String × Email) :=
  list.foldl (fun acc email => mapSet acc email.id email) m

/-- The amount `checkForNewEmails` adds to `newEmailCount`. -/
def refreshNewCount (prevEmails newEmails : List Email) : Nat :=
  if prevEmails.length = 0 then 0
  else if (newEmailsList prevEmails newEmails).length > 0 then
    (newEmailsList prevEmails newEmails).length
  else 0

/-- The updater of `checkForNewEmails`: an empty previous list is replaced by the page as
it came; otherwise the kept messages and the page are put in a map by id and the map's
values are sorted (`Array.prototype.sort` is stable) with `dateB - dateA`. -/
def refreshEmails (prevEmails newEmails : List Email) : List Email :=
  if prevEmails.length = 0 then newEmails
  else
    let newEmailIds := ids newEmails
    let filteredEmails := prevEmails.filter (fun e => newEmailIds.contains e.id)
    let emailMap := mapSetAll (mapSetAll [] filteredEmails) newEmails
    List.insertionSort newestFirst (emailMap.map (fun kv => kv.2))

/-! ## Strings -/

/-- The characters `String.prototype.trim` removes: ECMAScript white space and line
terminators. -/
def isJsWhiteSpace (c : Char) : Bool :=
  c.val.toNat ∈ [0x09, 0x0A, 0x0B, 0x0C, 0x0D, 0x20, 0xA0, 0x1680, 0x2028, 0x2029, 0x202F,
    0x205F, 0x3000, 0xFEFF] || (0x2000 ≤ c.val.toNat && c.val.toNat ≤ 0x200A)

/-- The method `String.prototype.trim`. -/
def trim (s : String) : String :=
  ⟨((s.data.dropWhile isJsWhiteSpace).reverse.dropWhile isJsWhiteSpace).reverse⟩

/-- The method `String.prototype.includes`. -/
def includes (s sub : String) : Bool := decide (sub.data <:+: s.data)

/-- Truthiness of a value that is `null` or a string. -/
def truthy (v : Option String) : Bool :=
  match v with
  | some t => t != ""
  | none => false

/-! ## Timers, requests and the component state -/

/-- What a pending `setTimeout` callback does when it fires. -/
inductive TimerAction where
  /-- `() => setUndoInfo(null)` -/
  | clearUndo
  /-- `() => performSearch(query, null, searchAll)`, with the `accessToken` and
  `currentFolder` that `performSearch` closed over when the timer was set -/
  | search (query : String) (searchAll : Bool) (accessToken : Option String)
      (currentFolder : String)
deriving DecidableEq, Repr

/-- A pending timer: the id `setTimeout` returned, its delay in ms and its callback. -/
structure Timer where
  id : Nat
  delay : Nat
  action : TimerAction
deriving DecidableEq, Repr

/-- A call of `graphApi` that reached the network. -/
inductive Request where
  /-- `getFolderEmails(token, folderId, { top, skip })` -/
  | getFolderEmails (folderId : String) (top : Nat) (skip : Int)
  /-- `deleteEmail(token, emailId)` -/
  | deleteEmail (emailId : String)
  /-- `restoreEmail(token, emailId, destinationFolderId)` -/
  | restoreEmail (emailId : String) (destinationFolderId : String)
  /-- `updateEmailReadStatus(token, emailId, isRead)` -/
  | updateEmailReadStatus (emailId : String) (isRead : Bool)
  /-- `sendEmail(token, emailData)`; the composition is no part of the component state -/
  | sendEmail
  /-- `searchEmails(token, searchTerm, folderId, { top })`, `folderId` being `null` for a
  search of all folders -/
  | searchEmails (searchTerm : String) (folderId : Option String) (top : Nat)
deriving DecidableEq, Repr

/-- What runs after the `await fetchEmails(...)` of a caller. -/
inductive AfterFetch where
  /-- `handleRefresh`, `handleFolderChange`, `handleSendEmail`: nothing -/
  | nothing
  /-- `initializeApp`: `setLoading(false)` -/
  | initializeApp
  /-- `handleUndoDelete`: `setUndoInfo(null)` and `clearTimeout` -/
  | handleUndoDelete
deriving DecidableEq, Repr

/-- A handler suspended at an `await`, with the values its continuation reads from its
closure. -/
inductive Pending where
  | fetchEmails (showLoading append : Bool) (after : AfterFetch)
  | checkForNewEmails
  | loadMoreEmails
  | deleteEmail (emailId : String) (emailToDelete : Email) (currentFolder : String)
  | restoreEmail (undoInfo : UndoInfo) (currentFolder : String) (currentSkip : Int)
  | updateEmailReadStatus (email : Email) (emails : List Email)
  | sendEmail (currentFolder : String) (currentSkip : Int)
  | searchEmails (query : String) (folder : Option String) (searchAll : Bool)
      (currentFolder : String)
  | searchFallback (query : String)
  | searchFallbackAll (query : String)
deriving DecidableEq, Repr

/-- The state of the `EmailApp` component: its `useState` cells, its three refs, and the
part of the environment the handlers act on (pending timers, requests sent, handlers
suspended at an `await`, `alert` boxes shown).  The profile in `user` and the desktop
notifications, which no handler reads back, are left out. -/
structure AppState where
  emails : List Email
  selectedEmail : Option Email
  isComposing : Bool
  loading : Bool
  accessToken : Option String
  isRefreshing : Bool
  newEmailCount : Nat
  lastRefreshTime : Option Nat
  isLoadingMore : Bool
  hasMoreEmails : Bool
  currentSkip : Int
  currentFolder : String
  searchQuery : String
  isSearching : Bool
  searchResults : List Email
  searchAllFolders : Bool
  undoInfo : Option UndoInfo
  undoTimeoutRef : Option Nat
  searchTimeoutRef : Option Nat
  isRefreshingRef : Bool
  /-- The value of `searchQuery` the memoised `checkForNewEmails` closed over: its
  `useCallback` lists only `accessToken` and `currentFolder` as dependencies. -/
  memoSearchQuery : String
  timers : List Timer
  nextTimerId : Nat
  requests : List Request
  inflight : List Pending
  alerts : List String
deriving DecidableEq, Repr

/-- The state after the first render: the `useState` and `useRef` defaults. -/
def initialState : AppState where
  emails := []
  selectedEmail := none
  isComposing := false
  loading := true
  accessToken := none
  isRefreshing := false
  newEmailCount := 0
  lastRefreshTime := none
  isLoadingMore := false
  hasMoreEmails := true
  currentSkip := 0
  currentFolder := "inbox"
  searchQuery := ""
  isSearching := false
  searchResults := []
  searchAllFolders := false
  undoInfo := none
  undoTimeoutRef := none
  searchTimeoutRef := none
  isRefreshingRef := false
  memoSearchQuery := ""
  timers := []
  nextTimerId := 1
  requests := []
  inflight := []
  alerts := []

/-- The function `setTimeout(action, delay)`: the new timer's id is returned in
`nextTimerId - 1` of the result. -/
def setTimeout (s : AppState) (action : TimerAction) (delay : Nat) : AppState :=
  { s with timers := s.timers ++ [{ id := s.nextTimerId, delay := delay, action := action }]
           nextTimerId := s.nextTimerId + 1 }

/-- The function `clearTimeout(id)`. -/
def clearTimeout (s : AppState) (id : Nat) : AppState :=
  { s with timers := s.timers.filter (fun t => t.id != id) }

/-- The statement `if (ref.current) clearTimeout(ref.current)`. -/
def clearTimeoutRef (s : AppState) (ref : Option Nat) : AppState :=
  match ref with
  | some id => if id != 0 then clearTimeout s id else s
  | none => s

/-- The pending timers whose callback clears the Undo Record. -/
def undoTimers (s : AppState) : List Timer :=
  s.timers.filter (fun t => t.action == TimerAction.clearUndo)

/-! ## Loading a folder -/

/-- The `switch` of `fetchEmails` and `loadMoreEmails`: the folder whose page is requested;
anything but the three named folders falls to the inbox. -/
def folderEndpoint (folder : String) : String :=
  if folder = "sentitems" then "sentitems"
  else if folder = "drafts" then "drafts"
  else if folder = "deleteditems" then "deleteditems"
  else "inbox"

/-- The function `fetchEmails(token, showLoading, append, folder)` up to its `await`.
`currentSkip` and `currentFolder` are the values the memoised callback closed over; `after`
names the code of the caller that follows the call. -/
def fetchEmails (s : AppState) (currentSkip : Int) (currentFolder : String)
    (showLoading append : Bool) (folder : Option String) (after : AfterFetch) : AppState :=
  let s1 := if showLoading then { s with isRefreshingRef := true, isRefreshing := true } else s
  let folderToUse := if truthy folder then folder.getD "" else currentFolder
  let skip := if append then currentSkip else 0
  { s1 with
    requests := s1.requests ++ [Request.getFolderEmails (folderEndpoint folderToUse) 50 skip]
    inflight := s1.inflight ++ [Pending.fetchEmails showLoading append after] }

/-- The `finally` block of `fetchEmails`. -/
def fetchEmailsFinally (s : AppState) (showLoading : Bool) : AppState :=
  if showLoading then { s with isRefreshingRef := false, isRefreshing := false } else s

/-- The rest of `fetchEmails` once the page request resolved with `{ value }` at time
`now`. -/
def fetchEmailsResolved (s : AppState) (showLoading append : Bool)
    (value : Option (List Email)) (now : Nat) : AppState :=
  let newEmails := value.getD []
  let s1 := { s with hasMoreEmails := decide (newEmails.length = 50) }
  let s2 :=
    if append then
      { s1 with
        emails := appendEmails s1.emails newEmails
        currentSkip := s1.currentSkip + newEmails.length }
    else
      { s1 with
        emails := replaceEmails s1.emails newEmails
        newEmailCount := s1.newEmailCount + replaceNewCount s1.emails newEmails
        currentSkip := newEmails.length }
  fetchEmailsFinally { s2 with lastRefreshTime := some now } showLoading

/-- The rest of `fetchEmails` once the page request rejected: the error is logged. -/
def fetchEmailsRejected (s : AppState) (showLoading : Bool) : AppState :=
  fetchEmailsFinally s showLoading

/-- The function `checkForNewEmails()` up to its `await`.  `accessToken` and
`currentFolder` are current because they are dependencies of the callback; `searchQuery` is
the value the callback closed over; the ref is read live. -/
def checkForNewEmails (s : AppState) : AppState :=
  if !truthy s.accessToken || s.isRefreshingRef || s.currentFolder != "inbox"
      || trim s.memoSearchQuery != "" then s
  else
    { s with
      isRefreshingRef := true
      isRefreshing := true
      requests := s.requests ++ [Request.getFolderEmails "inbox" 50 0]
      inflight := s.inflight ++ [Pending.checkForNewEmails] }

/-- The `finally` block of `checkForNewEmails`. -/
def checkForNewEmailsFinally (s : AppState) : AppState :=
  { s with isRefreshingRef := false, isRefreshing := false }

/-- The rest of `checkForNewEmails` once the page request resolved. -/
def checkForNewEmailsResolved (s : AppState) (value : Option (List Email)) (now : Nat) :
    AppState :=
  let newEmails := value.getD []
  checkForNewEmailsFinally
    { s with
      emails := refreshEmails s.emails newEmails
      newEmailCount := s.newEmailCount + refreshNewCount s.emails newEmails
      lastRefreshTime := some now }

/-- The rest of `checkForNewEmails` once the page request rejected. -/
def checkForNewEmailsRejected (s : AppState) : AppState :=
  checkForNewEmailsFinally s

/-- The function `loadMoreEmails()` up to its `await`. -/
def loadMoreEmails (s : AppState) : AppState :=
  if !truthy s.accessToken || s.isLoadingMore || !s.hasMoreEmails then s
  else
    { s with
      isLoadingMore := true
      requests := s.requests ++
        [Request.getFolderEmails (folderEndpoint s.currentFolder) 50 s.currentSkip]
      inflight := s.inflight ++ [Pending.loadMoreEmails] }

/-- The rest of `loadMoreEmails` once the page request resolved. -/
def loadMoreEmailsResolved (s : AppState) (value : Option (List Email)) : AppState :=
  let newEmails := value.getD []
  { s with
    hasMoreEmails := decide (newEmails.length = 50)
    emails := appendEmails s.emails newEmails
    currentSkip := s.currentSkip + newEmails.length
    isLoadingMore := false }

/-- The rest of `loadMoreEmails` once the page request rejected. -/
def loadMoreEmailsRejected (s : AppState) : AppState :=
  { s with isLoadingMore := false }

/-! ## Search input -/

/-- The function `handleClearSearch()`. -/
def handleClearSearch (s : AppState) : AppState :=
  clearTimeoutRef
    { s with searchQuery := "", searchResults := [], isSearching := false,
             searchAllFolders := false }
    s.searchTimeoutRef

/-- The function `handleSearchChange(query, searchAll)`: the 500 ms debounce. -/
def handleSearchChange (s : AppState) (query : String) (searchAll : Bool) : AppState :=
  let s1 := clearTimeoutRef { s with searchQuery := query, searchAllFolders := searchAll }
    s.searchTimeoutRef
  if query = "" || trim query = "" then
    { s1 with searchResults := [], isSearching := false }
  else
    { setTimeout s1 (TimerAction.search query searchAll s.accessToken s.currentFolder) 500
      with
      searchTimeoutRef := some s1.nextTimerId }

/-! ## Refresh and folder switch -/

/-- The function `handleRefresh()`. -/
def handleRefresh (s : AppState) : AppState :=
  if truthy s.accessToken then
    fetchEmails
      { s with newEmailCount := 0, currentSkip := 0, hasMoreEmails := true,
               selectedEmail := none }
      s.currentSkip s.currentFolder true false (some s.currentFolder) AfterFetch.nothing
  else s

/-- The function `handleFolderChange(folder)`. -/
def handleFolderChange (s : AppState) (folder : String) : AppState :=
  if truthy s.accessToken && folder != s.currentFolder then
    fetchEmails
      (handleClearSearch
        { s with currentFolder := folder, currentSkip := 0, hasMoreEmails := true,
                 selectedEmail := none, newEmailCount := 0 })
      s.currentSkip s.currentFolder true false (some folder) AfterFetch.nothing
  else s

/-! ## Delete with undo -/

/-- The text of the `alert` of `handleDeleteEmail` when there is no access token. -/
def notAuthenticatedMessage : String := "Not authenticated. Please log in again."

/-- The text of the `alert` of `handleDeleteEmail` for a permission failure. -/
def permissionDeniedMessage : String :=
  "Permission denied. Please ensure:\n\n" ++
  "1. Your Azure AD app has \"Mail.ReadWrite\" permission (not just \"Mail.Read\")\n" ++
  "2. Admin consent has been granted\n" ++
  "3. You have logged out and logged back in to refresh your token\n\n" ++
  "See README.md for setup instructions."

/-- The text of the `alert` of `handleDeleteEmail` for any other failure, from the message
of the caught error. -/
def deleteFailedMessage (message : String) : String :=
  "Failed to delete email: " ++ (if message != "" then message else "Unknown error") ++
  ". The email has been restored."

/-- The text of the `alert` of `handleUndoDelete` when the move fails. -/
def restoreFailedMessage : String :=
  "Failed to restore email. It may have been permanently deleted."

/-- The test `error.message && (error.message.includes('403') ||
error.message.includes('Forbidden'))`. -/
def isPermissionError (message : String) : Bool :=
  message != "" && (includes message "403" || includes message "Forbidden")

/-- The function `handleDeleteEmail(emailId)` up to its `await`: the optimistic removal. -/
def handleDeleteEmail (s : AppState) (emailId : String) : AppState :=
  if !truthy s.accessToken then
    { s with alerts := s.alerts ++ [notAuthenticatedMessage] }
  else
    match s.emails.find? (fun e => e.id == emailId) with
    | none => s
    | some emailToDelete =>
      { s with
        emails := s.emails.filter (fun e => e.id != emailId)
        selectedEmail :=
          if s.selectedEmail.map (fun e => e.id) = some emailId then none
          else s.selectedEmail
        currentSkip := max 0 (s.currentSkip - 1)
        requests := s.requests ++ [Request.deleteEmail emailId]
        inflight := s.inflight ++ [Pending.deleteEmail emailId emailToDelete s.currentFolder] }

/-- The rest of `handleDeleteEmail` once the remote delete resolved at time `now`; `emailId`,
`emailToDelete` and `currentFolder` are the values of the call. -/
def handleDeleteEmailResolved (s : AppState) (emailId : String) (emailToDelete : Email)
    (currentFolder : String) (now : Nat) : AppState :=
  let s1 :=
    { s with
      undoInfo := some
        { emailId := emailId, email := emailToDelete, folder := currentFolder,
          timestamp := now } }
  let s2 := clearTimeoutRef s1 s1.undoTimeoutRef
  { setTimeout s2 TimerAction.clearUndo 5000 with undoTimeoutRef := some s2.nextTimerId }

/-- The rest of `handleDeleteEmail` once the remote delete rejected with an error whose
message is `message`. -/
def handleDeleteEmailRejected (s : AppState) (emailId : String) (emailToDelete : Email)
    (message : String) : AppState :=
  { s with
    emails :=
      if s.emails.any (fun e => e.id == emailId) then s.emails
      else emailToDelete :: s.emails
    alerts := s.alerts ++
      [if isPermissionError message then permissionDeniedMessage
       else deleteFailedMessage message] }

/-- The lookup `folderIdMap[folder] || 'inbox'` of `handleUndoDelete`. -/
def destinationFolderId (folder : String) : String :=
  if folder = "inbox" ∨ folder = "sentitems" ∨ folder = "drafts" ∨ folder = "deleteditems"
  then folder else "inbox"

/-- The statements `setUndoInfo(null); if (undoTimeoutRef.current)
clearTimeout(undoTimeoutRef.current)` that end a restore and make up `onDismiss`. -/
def clearUndo (s : AppState) : AppState :=
  clearTimeoutRef { s with undoInfo := none } s.undoTimeoutRef

/-- The function `handleUndoDelete()` up to its `await`. -/
def handleUndoDelete (s : AppState) : AppState :=
  match s.undoInfo with
  | none => s
  | some undoInfo =>
    if !truthy s.accessToken then s
    else
      { s with
        requests := s.requests ++
          [Request.restoreEmail undoInfo.emailId (destinationFolderId undoInfo.folder)]
        inflight := s.inflight ++
          [Pending.restoreEmail undoInfo s.currentFolder s.currentSkip] }

/-- The rest of `handleUndoDelete` once the remote move resolved; `undoInfo` and
`currentFolder` are the values of the render the handler was called in, `currentSkip` the
one its `fetchEmails` closed over. -/
def handleUndoDeleteResolved (s : AppState) (undoInfo : UndoInfo) (currentFolder : String)
    (currentSkip : Int) : AppState :=
  if currentFolder = undoInfo.folder then
    clearUndo
      { s with
        emails :=
          if s.emails.any (fun e => e.id == undoInfo.emailId) then s.emails
          else undoInfo.email :: s.emails }
  else
    fetchEmails s currentSkip currentFolder false false (some undoInfo.folder)
      AfterFetch.handleUndoDelete

/-- The `catch` block of `handleUndoDelete`. -/
def handleUndoDeleteRejected (s : AppState) : AppState :=
  { s with alerts := s.alerts ++ [restoreFailedMessage], undoInfo := none }

/-- The code of the caller that follows `await fetchEmails(...)`. -/
def afterFetch (s : AppState) (after : AfterFetch) : AppState :=
  match after with
  | AfterFetch.nothing => s
  | AfterFetch.initializeApp => { s with loading := false }
  | AfterFetch.handleUndoDelete => clearUndo s

/-- The callback of the undo timer, `() => setUndoInfo(null)`. -/
def undoTimerCallback (s : AppState) : AppState :=
  { s with undoInfo := none }

/-! ## Reading and sending -/

/-- The function `handleEmailSelect(email)` up to its `await`. -/
def handleEmailSelect (s : AppState) (email : Email) : AppState :=
  if !email.isRead && truthy s.accessToken then
    { s with
      selectedEmail := some email
      requests := s.requests ++ [Request.updateEmailReadStatus email.id true]
      inflight := s.inflight ++ [Pending.updateEmailReadStatus email s.emails] }
  else { s with selectedEmail := some email }

/-- The rest of `handleEmailSelect` once the update resolved:
`setEmails(emails.map(e => e.id === email.id ? { ...e, isRead: true } : e))`, where `emails`
is the list of the render the click happened in. -/
def handleEmailSelectResolved (s : AppState) (email : Email) (emails : List Email) :
    AppState :=
  { s with
    emails := emails.map (fun e => if e.id = email.id then { e with isRead := true } else e) }

/-- The text of the `alert` of `handleSendEmail` when sending fails. -/
def sendFailedMessage : String := "Failed to send email. Please try again."

/-- The function `handleSendEmail(emailData)` up to its `await`. -/
def handleSendEmail (s : AppState) : AppState :=
  { s with
    requests := s.requests ++ [Request.sendEmail]
    inflight := s.inflight ++ [Pending.sendEmail s.currentFolder s.currentSkip] }

/-- The rest of `handleSendEmail` once the message was sent: the compose form closes and
the folder of the render of the click is fetched again. -/
def handleSendEmailResolved (s : AppState) (currentFolder : String) (currentSkip : Int) :
    AppState :=
  fetchEmails { s with isComposing := false } currentSkip currentFolder false false
    (some currentFolder) AfterFetch.nothing

/-- The `catch` block of `handleSendEmail`. -/
def handleSendEmailRejected (s : AppState) : AppState :=
  { s with alerts := s.alerts ++ [sendFailedMessage] }

/-! ## Search -/

/-- The simple lowercase mappings of the Unicode Character Database, version 14.0, in runs:
`(first, last, step, target)` stands for the code points `first`, `first + step`, and so
on up to `last`, which become `target`, `target + step`, and so on. -/
def lowerRuns : List (Nat × Nat × Nat × Nat) :=
  [(0x41, 0x5A, 1, 0x61), (0xC0, 0xD6, 1, 0xE0), (0xD8, 0xDE, 1, 0xF8),
   (0x100, 0x12E, 2, 0x101), (0x132, 0x136, 2, 0x133), (0x139, 0x147, 2, 0x13A),
   (0x14A, 0x176, 2, 0x14B), (0x178, 0x178, 1, 0xFF), (0x179, 0x17D, 2, 0x17A),
   (0x181, 0x181, 1, 0x253), (0x182, 0x184, 2, 0x183), (0x186, 0x186, 1, 0x254),
   (0x187, 0x187, 1, 0x188), (0x189, 0x18A, 1, 0x256), (0x18B, 0x18B, 1, 0x18C),
   (0x18E, 0x18E, 1, 0x1DD), (0x18F, 0x18F, 1, 0x259), (0x190, 0x190, 1, 0x25B),
   (0x191, 0x191, 1, 0x192), (0x193, 0x193, 1, 0x260), (0x194, 0x194, 1, 0x263),
   (0x196, 0x196, 1, 0x269), (0x197, 0x197, 1, 0x268), (0x198, 0x198, 1, 0x199),
   (0x19C, 0x19C, 1, 0x26F), (0x19D, 0x19D, 1, 0x272), (0x19F, 0x19F, 1, 0x275),
   (0x1A0, 0x1A4, 2, 0x1A1), (0x1A6, 0x1A6, 1, 0x280), (0x1A7, 0x1A7, 1, 0x1A8),
   (0x1A9, 0x1A9, 1, 0x283), (0x1AC, 0x1AC, 1, 0x1AD), (0x1AE, 0x1AE, 1, 0x288),
   (0x1AF, 0x1AF, 1, 0x1B0), (0x1B1, 0x1B2, 1, 0x28A), (0x1B3, 0x1B5, 2, 0x1B4),
   (0x1B7, 0x1B7, 1, 0x292), (0x1B8, 0x1B8, 1, 0x1B9), (0x1BC, 0x1BC, 1, 0x1BD),
   (0x1C4, 0x1C4, 1, 0x1C6), (0x1C5, 0x1C5, 1, 0x1C6), (0x1C7, 0x1C7, 1, 0x1C9),
   (0x1C8, 0x1C8, 1, 0x1C9), (0x1CA, 0x1CA, 1, 0x1CC), (0x1CB, 0x1DB, 2, 0x1CC),
   (0x1DE, 0x1EE, 2, 0x1DF), (0x1F1, 0x1F1, 1, 0x1F3), (0x1F2, 0x1F4, 2, 0x1F3),
   (0x1F6, 0x1F6, 1, 0x195), (0x1F7, 0x1F7, 1, 0x1BF), (0x1F8, 0x21E, 2, 0x1F9),
   (0x220, 0x220, 1, 0x19E), (0x222, 0x232, 2, 0x223), (0x23A, 0x23A, 1, 0x2C65),
   (0x23B, 0x23B, 1, 0x23C), (0x23D, 0x23D, 1, 0x19A), (0x23E, 0x23E, 1, 0x2C66),
   (0x241, 0x241, 1, 0x242), (0x243, 0x243, 1, 0x180), (0x244, 0x244, 1, 0x289),
   (0x245, 0x245, 1, 0x28C), (0x246, 0x24E, 2, 0x247), (0x370, 0x372, 2, 0x371),
   (0x376, 0x376, 1, 0x377), (0x37F, 0x37F, 1, 0x3F3), (0x386, 0x386, 1, 0x3AC),
   (0x388, 0x38A, 1, 0x3AD), (0x38C, 0x38C, 1, 0x3CC), (0x38E, 0x38F, 1, 0x3CD),
   (0x391, 0x3A1, 1, 0x3B1), (0x3A3, 0x3AB, 1, 0x3C3), (0x3CF, 0x3CF, 1, 0x3D7),
   (0x3D8, 0x3EE, 2, 0x3D9), (0x3F4, 0x3F4, 1, 0x3B8), (0x3F7, 0x3F7, 1, 0x3F8),
   (0x3F9, 0x3F9, 1, 0x3F2), (0x3FA, 0x3FA, 1, 0x3FB), (0x3FD, 0x3FF, 1, 0x37B),
   (0x400, 0x40F, 1, 0x450), (0x410, 0x42F, 1, 0x430), (0x460, 0x480, 2, 0x461),
   (0x48A, 0x4BE, 2, 0x48B), (0x4C0, 0x4C0, 1, 0x4CF), (0x4C1, 0x4CD, 2, 0x4C2),
   (0x4D0, 0x52E, 2, 0x4D1), (0x531, 0x556, 1, 0x561), (0x10A0, 0x10C5, 1, 0x2D00),
   (0x10C7, 0x10C7, 1, 0x2D27), (0x10CD, 0x10CD, 1, 0x2D2D), (0x13A0, 0x13EF, 1, 0xAB70),
   (0x13F0, 0x13F5, 1, 0x13F8), (0x1C90, 0x1CBA, 1, 0x10D0), (0x1CBD, 0x1CBF, 1, 0x10FD),
   (0x1E00, 0x1E94, 2, 0x1E01), (0x1E9E, 0x1E9E, 1, 0xDF), (0x1EA0, 0x1EFE, 2, 0x1EA1),
   (0x1F08, 0x1F0F, 1, 0x1F00), (0x1F18, 0x1F1D, 1, 0x1F10), (0x1F28, 0x1F2F, 1, 0x1F20),
   (0x1F38, 0x1F3F, 1, 0x1F30), (0x1F48, 0x1F4D, 1, 0x1F40), (0x1F59, 0x1F5F, 2, 0x1F51),
   (0x1F68, 0x1F6F, 1, 0x1F60), (0x1F88, 0x1F8F, 1, 0x1F80), (0x1F98, 0x1F9F, 1, 0x1F90),
   (0x1FA8, 0x1FAF, 1, 0x1FA0), (0x1FB8, 0x1FB9, 1, 0x1FB0), (0x1FBA, 0x1FBB, 1, 0x1F70),
   (0x1FBC, 0x1FBC, 1, 0x1FB3), (0x1FC8, 0x1FCB, 1, 0x1F72), (0x1FCC, 0x1FCC, 1, 0x1FC3),
   (0x1FD8, 0x1FD9, 1, 0x1FD0), (0x1FDA, 0x1FDB, 1, 0x1F76), (0x1FE8, 0x1FE9, 1, 0x1FE0),
   (0x1FEA, 0x1FEB, 1, 0x1F7A), (0x1FEC, 0x1FEC, 1, 0x1FE5), (0x1FF8, 0x1FF9, 1, 0x1F78),
   (0x1FFA, 0x1FFB, 1, 0x1F7C), (0x1FFC, 0x1FFC, 1, 0x1FF3), (0x2126, 0x2126, 1, 0x3C9),
   (0x212A, 0x212A, 1, 0x6B), (0x212B, 0x212B, 1, 0xE5), (0x2132, 0x2132, 1, 0x214E),
   (0x2160, 0x216F, 1, 0x2170), (0x2183, 0x2183, 1, 0x2184), (0x24B6, 0x24CF, 1, 0x24D0),
   (0x2C00, 0x2C2F, 1, 0x2C30), (0x2C60, 0x2C60, 1, 0x2C61), (0x2C62, 0x2C62, 1, 0x26B),
   (0x2C63, 0x2C63, 1, 0x1D7D), (0x2C64, 0x2C64, 1, 0x27D), (0x2C67, 0x2C6B, 2, 0x2C68),
   (0x2C6D, 0x2C6D, 1, 0x251), (0x2C6E, 0x2C6E, 1, 0x271), (0x2C6F, 0x2C6F, 1, 0x250),
   (0x2C70, 0x2C70, 1, 0x252), (0x2C72, 0x2C72, 1, 0x2C73), (0x2C75, 0x2C75, 1, 0x2C76),
   (0x2C7E, 0x2C7F, 1, 0x23F), (0x2C80, 0x2CE2, 2, 0x2C81), (0x2CEB, 0x2CED, 2, 0x2CEC),
   (0x2CF2, 0x2CF2, 1, 0x2CF3), (0xA640, 0xA66C, 2, 0xA641), (0xA680, 0xA69A, 2, 0xA681),
   (0xA722, 0xA72E, 2, 0xA723), (0xA732, 0xA76E, 2, 0xA733), (0xA779, 0xA77B, 2, 0xA77A),
   (0xA77D, 0xA77D, 1, 0x1D79), (0xA77E, 0xA786, 2, 0xA77F), (0xA78B, 0xA78B, 1, 0xA78C),
   (0xA78D, 0xA78D, 1, 0x265), (0xA790, 0xA792, 2, 0xA791), (0xA796, 0xA7A8, 2, 0xA797),
   (0xA7AA, 0xA7AA, 1, 0x266), (0xA7AB, 0xA7AB, 1, 0x25C), (0xA7AC, 0xA7AC, 1, 0x261),
   (0xA7AD, 0xA7AD, 1, 0x26C), (0xA7AE, 0xA7AE, 1, 0x26A), (0xA7B0, 0xA7B0, 1, 0x29E),
   (0xA7B1, 0xA7B1, 1, 0x287), (0xA7B2, 0xA7B2, 1, 0x29D), (0xA7B3, 0xA7B3, 1, 0xAB53),
   (0xA7B4, 0xA7C2, 2, 0xA7B5), (0xA7C4, 0xA7C4, 1, 0xA794), (0xA7C5, 0xA7C5, 1, 0x282),
   (0xA7C6, 0xA7C6, 1, 0x1D8E), (0xA7C7, 0xA7C9, 2, 0xA7C8), (0xA7D0, 0xA7D0, 1, 0xA7D1),
   (0xA7D6, 0xA7D8, 2, 0xA7D7), (0xA7F5, 0xA7F5, 1, 0xA7F6), (0xFF21, 0xFF3A, 1, 0xFF41),
   (0x10400, 0x10427, 1, 0x10428), (0x104B0, 0x104D3, 1, 0x104D8),
   (0x10570, 0x1057A, 1, 0x10597), (0x1057C, 0x1058A, 1, 0x105A3),
   (0x1058C, 0x10592, 1, 0x105B3), (0x10594, 0x10595, 1, 0x105BB),
   (0x10C80, 0x10CB2, 1, 0x10CC0), (0x118A0, 0x118BF, 1, 0x118C0),
   (0x16E40, 0x16E5F, 1, 0x16E60), (0x1E900, 0x1E921, 1, 0x1E922)]

/-- The code points with the property `Case_Ignorable`, in ranges `(first, last)`. -/
def caseIgnorableRanges : List (Nat × Nat) :=
  [(0x27, 0x27), (0x2E, 0x2E), (0x3A, 0x3A), (0x5E, 0x5E), (0x60, 0x60), (0xA8, 0xA8),
   (0xAD, 0xAD), (0xAF, 0xAF), (0xB4, 0xB4), (0xB7, 0xB8), (0x2B0, 0x36F), (0x374, 0x375),
   (0x37A, 0x37A), (0x384, 0x385), (0x387, 0x387), (0x483, 0x489), (0x559, 0x559),
   (0x55F, 0x55F), (0x591, 0x5BD), (0x5BF, 0x5BF), (0x5C1, 0x5C2), (0x5C4, 0x5C5),
   (0x5C7, 0x5C7), (0x5F4, 0x5F4), (0x600, 0x605), (0x610, 0x61A), (0x61C, 0x61C),
   (0x640, 0x640), (0x64B, 0x65F), (0x670, 0x670), (0x6D6, 0x6DD), (0x6DF, 0x6E8),
   (0x6EA, 0x6ED), (0x70F, 0x70F), (0x711, 0x711), (0x730, 0x74A), (0x7A6, 0x7B0),
   (0x7EB, 0x7F5), (0x7FA, 0x7FA), (0x7FD, 0x7FD), (0x816, 0x82D), (0x859, 0x85B),
   (0x888, 0x888), (0x890, 0x891), (0x898, 0x89F), (0x8C9, 0x902), (0x93A, 0x93A),
   (0x93C, 0x93C), (0x941, 0x948), (0x94D, 0x94D), (0x951, 0x957), (0x962, 0x963),
   (0x971, 0x971), (0x981, 0x981), (0x9BC, 0x9BC), (0x9C1, 0x9C4), (0x9CD, 0x9CD),
   (0x9E2, 0x9E3), (0x9FE, 0x9FE), (0xA01, 0xA02), (0xA3C, 0xA3C), (0xA41, 0xA42),
   (0xA47, 0xA48), (0xA4B, 0xA4D), (0xA51, 0xA51), (0xA70, 0xA71), (0xA75, 0xA75),
   (0xA81, 0xA82), (0xABC, 0xABC), (0xAC1, 0xAC5), (0xAC7, 0xAC8), (0xACD, 0xACD),
   (0xAE2, 0xAE3), (0xAFA, 0xAFF), (0xB01, 0xB01), (0xB3C, 0xB3C), (0xB3F, 0xB3F),
   (0xB41, 0xB44), (0xB4D, 0xB4D), (0xB55, 0xB56), (0xB62, 0xB63), (0xB82, 0xB82),
   (0xBC0, 0xBC0), (0xBCD, 0xBCD), (0xC00, 0xC00), (0xC04, 0xC04), (0xC3C, 0xC3C),
   (0xC3E, 0xC40), (0xC46, 0xC48), (0xC4A, 0xC4D), (0xC55, 0xC56), (0xC62, 0xC63),
   (0xC81, 0xC81), (0xCBC, 0xCBC), (0xCBF, 0xCBF), (0xCC6, 0xCC6), (0xCCC, 0xCCD),
   (0xCE2, 0xCE3), (0xD00, 0xD01), (0xD3B, 0xD3C), (0xD41, 0xD44), (0xD4D, 0xD4D),
   (0xD62, 0xD63), (0xD81, 0xD81), (0xDCA, 0xDCA), (0xDD2, 0xDD4), (0xDD6, 0xDD6),
   (0xE31, 0xE31), (0xE34, 0xE3A), (0xE46, 0xE4E), (0xEB1, 0xEB1), (0xEB4, 0xEBC),
   (0xEC6, 0xEC6), (0xEC8, 0xECD), (0xF18, 0xF19), (0xF35, 0xF35), (0xF37, 0xF37),
   (0xF39, 0xF39), (0xF71, 0xF7E), (0xF80, 0xF84), (0xF86, 0xF87), (0xF8D, 0xF97),
   (0xF99, 0xFBC), (0xFC6, 0xFC6), (0x102D, 0x1030), (0x1032, 0x1037), (0x1039, 0x103A),
   (0x103D, 0x103E), (0x1058, 0x1059), (0x105E, 0x1060), (0x1071, 0x1074), (0x1082, 0x1082),
   (0x1085, 0x1086), (0x108D, 0x108D), (0x109D, 0x109D), (0x10FC, 0x10FC), (0x135D, 0x135F),
   (0x1712, 0x1714), (0x1732, 0x1733), (0x1752, 0x1753), (0x1772, 0x1773), (0x17B4, 0x17B5),
   (0x17B7, 0x17BD), (0x17C6, 0x17C6), (0x17C9, 0x17D3), (0x17D7, 0x17D7), (0x17DD, 0x17DD),
   (0x180B, 0x180F), (0x1843, 0x1843), (0x1885, 0x1886), (0x18A9, 0x18A9), (0x1920, 0x1922),
   (0x1927, 0x1928), (0x1932, 0x1932), (0x1939, 0x193B), (0x1A17, 0x1A18), (0x1A1B, 0x1A1B),
   (0x1A56, 0x1A56), (0x1A58, 0x1A5E), (0x1A60, 0x1A60), (0x1A62, 0x1A62), (0x1A65, 0x1A6C),
   (0x1A73, 0x1A7C), (0x1A7F, 0x1A7F), (0x1AA7, 0x1AA7), (0x1AB0, 0x1ACE), (0x1B00, 0x1B03),
   (0x1B34, 0x1B34), (0x1B36, 0x1B3A), (0x1B3C, 0x1B3C), (0x1B42, 0x1B42), (0x1B6B, 0x1B73),
   (0x1B80, 0x1B81), (0x1BA2, 0x1BA5), (0x1BA8, 0x1BA9), (0x1BAB, 0x1BAD), (0x1BE6, 0x1BE6),
   (0x1BE8, 0x1BE9), (0x1BED, 0x1BED), (0x1BEF, 0x1BF1), (0x1C2C, 0x1C33), (0x1C36, 0x1C37),
   (0x1C78, 0x1C7D), (0x1CD0, 0x1CD2), (0x1CD4, 0x1CE0), (0x1CE2, 0x1CE8), (0x1CED, 0x1CED),
   (0x1CF4, 0x1CF4), (0x1CF8, 0x1CF9), (0x1D2C, 0x1D6A), (0x1D78, 0x1D78), (0x1D9B, 0x1DFF),
   (0x1FBD, 0x1FBD), (0x1FBF, 0x1FC1), (0x1FCD, 0x1FCF), (0x1FDD, 0x1FDF), (0x1FED, 0x1FEF),
   (0x1FFD, 0x1FFE), (0x200B, 0x200F), (0x2018, 0x2019), (0x2024, 0x2024), (0x2027, 0x2027),
   (0x202A, 0x202E), (0x2060, 0x2064), (0x2066, 0x206F), (0x2071, 0x2071), (0x207F, 0x207F),
   (0x2090, 0x209C), (0x20D0, 0x20F0), (0x2C7C, 0x2C7D), (0x2CEF, 0x2CF1), (0x2D6F, 0x2D6F),
   (0x2D7F, 0x2D7F), (0x2DE0, 0x2DFF), (0x2E2F, 0x2E2F), (0x3005, 0x3005), (0x302A, 0x302D),
   (0x3031, 0x3035), (0x303B, 0x303B), (0x3099, 0x309E), (0x30FC, 0x30FE), (0xA015, 0xA015),
   (0xA4F8, 0xA4FD), (0xA60C, 0xA60C), (0xA66F, 0xA672), (0xA674, 0xA67D), (0xA67F, 0xA67F),
   (0xA69C, 0xA69F), (0xA6F0, 0xA6F1), (0xA700, 0xA721), (0xA770, 0xA770), (0xA788, 0xA78A),
   (0xA7F2, 0xA7F4), (0xA7F8, 0xA7F9), (0xA802, 0xA802), (0xA806, 0xA806), (0xA80B, 0xA80B),
   (0xA825, 0xA826), (0xA82C, 0xA82C), (0xA8C4, 0xA8C5), (0xA8E0, 0xA8F1), (0xA8FF, 0xA8FF),
   (0xA926, 0xA92D), (0xA947, 0xA951), (0xA980, 0xA982), (0xA9B3, 0xA9B3), (0xA9B6, 0xA9B9),
   (0xA9BC, 0xA9BD), (0xA9CF, 0xA9CF), (0xA9E5, 0xA9E6), (0xAA29, 0xAA2E), (0xAA31, 0xAA32),
   (0xAA35, 0xAA36), (0xAA43, 0xAA43), (0xAA4C, 0xAA4C), (0xAA70, 0xAA70), (0xAA7C, 0xAA7C),
   (0xAAB0, 0xAAB0), (0xAAB2, 0xAAB4), (0xAAB7, 0xAAB8), (0xAABE, 0xAABF), (0xAAC1, 0xAAC1),
   (0xAADD, 0xAADD), (0xAAEC, 0xAAED), (0xAAF3, 0xAAF4), (0xAAF6, 0xAAF6), (0xAB5B, 0xAB5F),
   (0xAB69, 0xAB6B), (0xABE5, 0xABE5), (0xABE8, 0xABE8), (0xABED, 0xABED), (0xFB1E, 0xFB1E),
   (0xFBB2, 0xFBC2), (0xFE00, 0xFE0F), (0xFE13, 0xFE13), (0xFE20, 0xFE2F), (0xFE52, 0xFE52),
   (0xFE55, 0xFE55), (0xFEFF, 0xFEFF), (0xFF07, 0xFF07), (0xFF0E, 0xFF0E), (0xFF1A, 0xFF1A),
   (0xFF3E, 0xFF3E), (0xFF40, 0xFF40), (0xFF70, 0xFF70), (0xFF9E, 0xFF9F), (0xFFE3, 0xFFE3),
   (0xFFF9, 0xFFFB), (0x101FD, 0x101FD), (0x102E0, 0x102E0), (0x10376, 0x1037A),
   (0x10780, 0x10785), (0x10787, 0x107B0), (0x107B2, 0x107BA), (0x10A01, 0x10A03),
   (0x10A05, 0x10A06), (0x10A0C, 0x10A0F), (0x10A38, 0x10A3A), (0x10A3F, 0x10A3F),
   (0x10AE5, 0x10AE6), (0x10D24, 0x10D27), (0x10EAB, 0x10EAC), (0x10F46, 0x10F50),
   (0x10F82, 0x10F85), (0x11001, 0x11001), (0x11038, 0x11046), (0x11070, 0x11070),
   (0x11073, 0x11074), (0x1107F, 0x11081), (0x110B3, 0x110B6), (0x110B9, 0x110BA),
   (0x110BD, 0x110BD), (0x110C2, 0x110C2), (0x110CD, 0x110CD), (0x11100, 0x11102),
   (0x11127, 0x1112B), (0x1112D, 0x11134), (0x11173, 0x11173), (0x11180, 0x11181),
   (0x111B6, 0x111BE), (0x111C9, 0x111CC), (0x111CF, 0x111CF), (0x1122F, 0x11231),
   (0x11234, 0x11234), (0x11236, 0x11237), (0x1123E, 0x1123E), (0x112DF, 0x112DF),
   (0x112E3, 0x112EA), (0x11300, 0x11301), (0x1133B, 0x1133C), (0x11340, 0x11340),
   (0x11366, 0x1136C), (0x11370, 0x11374), (0x11438, 0x1143F), (0x11442, 0x11444),
   (0x11446, 0x11446), (0x1145E, 0x1145E), (0x114B3, 0x114B8), (0x114BA, 0x114BA),
   (0x114BF, 0x114C0), (0x114C2, 0x114C3), (0x115B2, 0x115B5), (0x115BC, 0x115BD),
   (0x115BF, 0x115C0), (0x115DC, 0x115DD), (0x11633, 0x1163A), (0x1163D, 0x1163D),
   (0x1163F, 0x11640), (0x116AB, 0x116AB), (0x116AD, 0x116AD), (0x116B0, 0x116B5),
   (0x116B7, 0x116B7), (0x1171D, 0x1171F), (0x11722, 0x11725), (0x11727, 0x1172B),
   (0x1182F, 0x11837), (0x11839, 0x1183A), (0x1193B, 0x1193C), (0x1193E, 0x1193E),
   (0x11943, 0x11943), (0x119D4, 0x119D7), (0x119DA, 0x119DB), (0x119E0, 0x119E0),
   (0x11A01, 0x11A0A), (0x11A33, 0x11A38), (0x11A3B, 0x11A3E), (0x11A47, 0x11A47),
   (0x11A51, 0x11A56), (0x11A59, 0x11A5B), (0x11A8A, 0x11A96), (0x11A98, 0x11A99),
   (0x11C30, 0x11C36), (0x11C38, 0x11C3D), (0x11C3F, 0x11C3F), (0x11C92, 0x11CA7),
   (0x11CAA, 0x11CB0), (0x11CB2, 0x11CB3), (0x11CB5, 0x11CB6), (0x11D31, 0x11D36),
   (0x11D3A, 0x11D3A), (0x11D3C, 0x11D3D), (0x11D3F, 0x11D45), (0x11D47, 0x11D47),
   (0x11D90, 0x11D91), (0x11D95, 0x11D95), (0x11D97, 0x11D97), (0x11EF3, 0x11EF4),
   (0x13430, 0x13438), (0x16AF0, 0x16AF4), (0x16B30, 0x16B36), (0x16B40, 0x16B43),
   (0x16F4F, 0x16F4F), (0x16F8F, 0x16F9F), (0x16FE0, 0x16FE1), (0x16FE3, 0x16FE4),
   (0x1AFF0, 0x1AFF3), (0x1AFF5, 0x1AFFB), (0x1AFFD, 0x1AFFE), (0x1BC9D, 0x1BC9E),
   (0x1BCA0, 0x1BCA3), (0x1CF00, 0x1CF2D), (0x1CF30, 0x1CF46), (0x1D167, 0x1D169),
   (0x1D173, 0x1D182), (0x1D185, 0x1D18B), (0x1D1AA, 0x1D1AD), (0x1D242, 0x1D244),
   (0x1DA00, 0x1DA36), (0x1DA3B, 0x1DA6C), (0x1DA75, 0x1DA75), (0x1DA84, 0x1DA84),
   (0x1DA9B, 0x1DA9F), (0x1DAA1, 0x1DAAF), (0x1E000, 0x1E006), (0x1E008, 0x1E018),
   (0x1E01B, 0x1E021), (0x1E023, 0x1E024), (0x1E026, 0x1E02A), (0x1E130, 0x1E13D),
   (0x1E2AE, 0x1E2AE), (0x1E2EC, 0x1E2EF), (0x1E8D0, 0x1E8D6), (0x1E944, 0x1E94B),
   (0x1F3FB, 0x1F3FF), (0xE0001, 0xE0001), (0xE0020, 0xE007F), (0xE0100, 0xE01EF)]

/-- The code points with the property `Cased`, in ranges `(first, last)`. -/
def casedRanges : List (Nat × Nat) :=
  [(0x41, 0x5A), (0x61, 0x7A), (0xAA, 0xAA), (0xB5, 0xB5), (0xBA, 0xBA), (0xC0, 0xD6),
   (0xD8, 0xF6), (0xF8, 0x1BA), (0x1BC, 0x1BF), (0x1C4, 0x293), (0x295, 0x2B8), (0x2C0, 0x2C1),
   (0x2E0, 0x2E4), (0x345, 0x345), (0x370, 0x373), (0x376, 0x377), (0x37A, 0x37D),
   (0x37F, 0x37F), (0x386, 0x386), (0x388, 0x38A), (0x38C, 0x38C), (0x38E, 0x3A1),
   (0x3A3, 0x3F5), (0x3F7, 0x481), (0x48A, 0x52F), (0x531, 0x556), (0x560, 0x588),
   (0x10A0, 0x10C5), (0x10C7, 0x10C7), (0x10CD, 0x10CD), (0x10D0, 0x10FA), (0x10FD, 0x10FF),
   (0x13A0, 0x13F5), (0x13F8, 0x13FD), (0x1C80, 0x1C88), (0x1C90, 0x1CBA), (0x1CBD, 0x1CBF),
   (0x1D00, 0x1DBF), (0x1E00, 0x1F15), (0x1F18, 0x1F1D), (0x1F20, 0x1F45), (0x1F48, 0x1F4D),
   (0x1F50, 0x1F57), (0x1F59, 0x1F59), (0x1F5B, 0x1F5B), (0x1F5D, 0x1F5D), (0x1F5F, 0x1F7D),
   (0x1F80, 0x1FB4), (0x1FB6, 0x1FBC), (0x1FBE, 0x1FBE), (0x1FC2, 0x1FC4), (0x1FC6, 0x1FCC),
   (0x1FD0, 0x1FD3), (0x1FD6, 0x1FDB), (0x1FE0, 0x1FEC), (0x1FF2, 0x1FF4), (0x1FF6, 0x1FFC),
   (0x2071, 0x2071), (0x207F, 0x207F), (0x2090, 0x209C), (0x2102, 0x2102), (0x2107, 0x2107),
   (0x210A, 0x2113), (0x2115, 0x2115), (0x2119, 0x211D), (0x2124, 0x2124), (0x2126, 0x2126),
   (0x2128, 0x2128), (0x212A, 0x212D), (0x212F, 0x2134), (0x2139, 0x2139), (0x213C, 0x213F),
   (0x2145, 0x2149), (0x214E, 0x214E), (0x2160, 0x217F), (0x2183, 0x2184), (0x24B6, 0x24E9),
   (0x2C00, 0x2CE4), (0x2CEB, 0x2CEE), (0x2CF2, 0x2CF3), (0x2D00, 0x2D25), (0x2D27, 0x2D27),
   (0x2D2D, 0x2D2D), (0xA640, 0xA66D), (0xA680, 0xA69D), (0xA722, 0xA787), (0xA78B, 0xA78E),
   (0xA790, 0xA7CA), (0xA7D0, 0xA7D1), (0xA7D3, 0xA7D3), (0xA7D5, 0xA7D9), (0xA7F5, 0xA7F6),
   (0xA7F8, 0xA7FA), (0xAB30, 0xAB5A), (0xAB5C, 0xAB68), (0xAB70, 0xABBF), (0xFB00, 0xFB06),
   (0xFB13, 0xFB17), (0xFF21, 0xFF3A), (0xFF41, 0xFF5A), (0x10400, 0x1044F), (0x104B0, 0x104D3),
   (0x104D8, 0x104FB), (0x10570, 0x1057A), (0x1057C, 0x1058A), (0x1058C, 0x10592),
   (0x10594, 0x10595), (0x10597, 0x105A1), (0x105A3, 0x105B1), (0x105B3, 0x105B9),
   (0x105BB, 0x105BC), (0x10780, 0x10780), (0x10783, 0x10785), (0x10787, 0x107B0),
   (0x107B2, 0x107BA), (0x10C80, 0x10CB2), (0x10CC0, 0x10CF2), (0x118A0, 0x118DF),
   (0x16E40, 0x16E7F), (0x1D400, 0x1D454), (0x1D456, 0x1D49C), (0x1D49E, 0x1D49F),
   (0x1D4A2, 0x1D4A2), (0x1D4A5, 0x1D4A6), (0x1D4A9, 0x1D4AC), (0x1D4AE, 0x1D4B9),
   (0x1D4BB, 0x1D4BB), (0x1D4BD, 0x1D4C3), (0x1D4C5, 0x1D505), (0x1D507, 0x1D50A),
   (0x1D50D, 0x1D514), (0x1D516, 0x1D51C), (0x1D51E, 0x1D539), (0x1D53B, 0x1D53E),
   (0x1D540, 0x1D544), (0x1D546, 0x1D546), (0x1D54A, 0x1D550), (0x1D552, 0x1D6A5),
   (0x1D6A8, 0x1D6C0), (0x1D6C2, 0x1D6DA), (0x1D6DC, 0x1D6FA), (0x1D6FC, 0x1D714),
   (0x1D716, 0x1D734), (0x1D736, 0x1D74E), (0x1D750, 0x1D76E), (0x1D770, 0x1D788),
   (0x1D78A, 0x1D7A8), (0x1D7AA, 0x1D7C2), (0x1D7C4, 0x1D7CB), (0x1DF00, 0x1DF09),
   (0x1DF0B, 0x1DF1E), (0x1E900, 0x1E943), (0x1F130, 0x1F149), (0x1F150, 0x1F169),
   (0x1F170, 0x1F189)]

/-- The simple lowercase mapping of a character. -/
def simpleLower (c : Char) : Char :=
  match lowerRuns.find?
      (fun r => r.1 ≤ c.toNat && c.toNat ≤ r.2.1 && (c.toNat - r.1) % r.2.2.1 == 0) with
  | some r => Char.ofNat (r.2.2.2 + (c.toNat - r.1))
  | none => c

/-- Whether `c` has the property `Case_Ignorable`. -/
def isCaseIgnorable (c : Char) : Bool :=
  caseIgnorableRanges.any (fun r => r.1 ≤ c.toNat && c.toNat ≤ r.2)

/-- Whether `c` has the property `Cased`. -/
def isCased (c : Char) : Bool :=
  casedRanges.any (fun r => r.1 ≤ c.toNat && c.toNat ≤ r.2)

/-- Whether the characters `cs`, read from a capital sigma outwards, are case-ignorable
characters followed by a cased letter. -/
def reachesCased (cs : List Char) : Bool :=
  match cs.dropWhile isCaseIgnorable with
  | c :: _ => isCased c
  | [] => false

/-- The scan behind `toLowerCase`; `before` holds the characters already read, the last one
first. -/
def toLowerCaseAux (before : List Char) (cs : List Char) : List Char :=
  match cs with
  | [] => []
  | c :: rest =>
    (if c.toNat = 0x3A3 then
      if reachesCased before && !reachesCased rest then [Char.ofNat 0x3C2]
      else [Char.ofNat 0x3C3]
    else if c.toNat = 0x130 then [Char.ofNat 0x69, Char.ofNat 0x307]
    else [simpleLower c]) ++ toLowerCaseAux (c :: before) rest

/-- The method `String.prototype.toLowerCase`: the default case conversion of Unicode, which
lowers every character by its simple mapping, but a capital sigma to a final sigma when
it ends a word (a cased letter comes before it, case-ignorable characters aside, and none
after it) and the capital dotted I to `i` with a combining dot. -/
def toLowerCase (s : String) : String := ⟨toLowerCaseAux [] s.data⟩

/-- The value `a || b` of a field that may be absent and a string. -/
def orElse (a : Option String) (b : String) : String :=
  if truthy a then a.getD "" else b

/-- The predicate of the client-side filter of `performSearch`. -/
def matchesSearch (searchLower : String) (email : Email) : Bool :=
  let subject := toLowerCase (orElse email.subject "")
  let body := toLowerCase (orElse email.bodyPreview (orElse email.bodyContent ""))
  let fromName := toLowerCase (orElse email.fromName "")
  let fromEmail := toLowerCase (orElse email.fromAddress "")
  includes subject searchLower || includes body searchLower ||
    includes fromName searchLower || includes fromEmail searchLower

/-- The client-side filter of `performSearch` over the fetched corpus `allEmails`. -/
def filterEmails (query : String) (allEmails : List Email) : List Email :=
  allEmails.filter (matchesSearch (toLowerCase (trim query)))

/-- The value `searchAll ? null : (folder || currentFolder)`, `none` also standing for a
falsy folder name. -/
def folderToSearch (folder : Option String) (searchAll : Bool) (currentFolder : String) :
    Option String :=
  if searchAll then none
  else if truthy folder then folder
  else if currentFolder != "" then some currentFolder
  else none

/-- The function `performSearch(query, folder, searchAll)` up to its first `await`;
`accessToken` and `currentFolder` are the values the memoised callback closed over. -/
def performSearch (s : AppState) (accessToken : Option String) (currentFolder : String)
    (query : String) (folder : Option String) (searchAll : Bool) : AppState :=
  if !truthy accessToken || query = "" || trim query = "" then
    { s with searchResults := [], isSearching := false }
  else
    { s with
      isSearching := true
      requests := s.requests ++
        [Request.searchEmails (trim query) (folderToSearch folder searchAll currentFolder) 50]
      inflight := s.inflight ++ [Pending.searchEmails query folder searchAll currentFolder] }

/-- The rest of `performSearch` once the server search resolved. -/
def performSearchResolved (s : AppState) (value : Option (List Email)) : AppState :=
  { s with searchResults := value.getD [], isSearching := false }

/-- The text of the `alert` of `performSearch` for a failure that is not a 400. -/
def searchFailedMessage (message : String) : String :=
  "Search failed: " ++ (if message != "" then message else "Unknown error")

/-- The text of the `alert` of `performSearch` when the fallback fails too. -/
def searchUnavailableMessage : String :=
  "Search is not available. Please try refreshing the page or check your permissions."

/-- The `catch` block of `performSearch` up to the `await` of the fallback, for an error
whose message is `message`. -/
def performSearchRejected (s : AppState) (query : String) (folder : Option String)
    (searchAll : Bool) (currentFolder : String) (message : String) : AppState :=
  if message != "" && includes message "400" then
    match folderToSearch folder searchAll currentFolder with
    | some folderId =>
      { s with
        requests := s.requests ++ [Request.getFolderEmails folderId 100 0]
        inflight := s.inflight ++ [Pending.searchFallback query] }
    | none =>
      { s with
        requests := s.requests ++
          [Request.getFolderEmails "inbox" 100 0, Request.getFolderEmails "sentitems" 100 0,
           Request.getFolderEmails "drafts" 100 0]
        inflight := s.inflight ++ [Pending.searchFallbackAll query] }
  else
    { s with
      searchResults := []
      alerts := s.alerts ++ [searchFailedMessage message]
      isSearching := false }

/-- The rest of the fallback once the corpus `allEmails` is fetched. -/
def searchFallbackResolved (s : AppState) (query : String) (allEmails : List Email) :
    AppState :=
  { s with searchResults := filterEmails query allEmails, isSearching := false }

/-- The inner `catch` block of `performSearch`. -/
def searchFallbackRejected (s : AppState) : AppState :=
  { s with
    searchResults := []
    alerts := s.alerts ++ [searchUnavailableMessage]
    isSearching := false }

/-! ## The component as a transition system -/

/-- The list `EmailList` shows: nothing while a search runs, the search results while the
query is not blank, the folder otherwise. -/
def displayed (s : AppState) : List Email :=
  if s.isSearching then []
  else if trim s.searchQuery != "" then s.searchResults
  else s.emails

/-- What can happen to the mounted component: the token arrives; the interval or a focus
event calls `checkForNewEmails`; the user acts on the page; `onDismiss` is called, by the
dismiss button or by the countdown of `UndoNotification`; a timer fires; or a request a
handler is waiting for resolves (with the `value` of the response, at time `now`) or
rejects (with the message of the error). -/
inductive Event where
  | tokenAcquired (token : String)
  | refreshTick
  | clickFolder (folder : String)
  | scrollToEnd
  | typeSearch (query : String)
  | toggleSearchAll (checked : Bool)
  | clearSearch
  | clickEmail (email : Email)
  | clickDelete (emailId : String)
  | clickUndo
  | dismiss
  | clickBadge
  | clickCompose
  | cancelCompose
  | clickSend
  | timerFires (id : Nat)
  | resolved (p : Pending) (value : Option (List Email)) (now : Nat)
  | rejected (p : Pending) (message : String)
  | resolvedAll (p : Pending) (inbox sent drafts : Option (List Email))
deriving DecidableEq, Repr

/-- Whether the handler waits on the `Promise.all` of the all-folders fallback, whose three
requests each turn a failure into `{ value: [] }`, rather than on one request. -/
def Pending.isAll (p : Pending) : Bool :=
  match p with
  | Pending.searchFallbackAll _ => true
  | _ => false

/-- The continuation of a suspended handler when its request resolves. -/
def resume (s : AppState) (p : Pending) (value : Option (List Email)) (now : Nat) :
    AppState :=
  match p with
  | Pending.fetchEmails showLoading append after =>
    afterFetch (fetchEmailsResolved s showLoading append value now) after
  | Pending.checkForNewEmails => checkForNewEmailsResolved s value now
  | Pending.loadMoreEmails => loadMoreEmailsResolved s value
  | Pending.deleteEmail emailId emailToDelete currentFolder =>
    handleDeleteEmailResolved s emailId emailToDelete currentFolder now
  | Pending.restoreEmail undoInfo currentFolder currentSkip =>
    handleUndoDeleteResolved s undoInfo currentFolder currentSkip
  | Pending.updateEmailReadStatus email emails => handleEmailSelectResolved s email emails
  | Pending.sendEmail currentFolder currentSkip =>
    handleSendEmailResolved s currentFolder currentSkip
  | Pending.searchEmails _ _ _ _ => performSearchResolved s value
  | Pending.searchFallback query => searchFallbackResolved s query (value.getD [])
  | Pending.searchFallbackAll _ => s

/-- The continuation of a suspended handler when its request rejects. -/
def fail (s : AppState) (p : Pending) (message : String) : AppState :=
  match p with
  | Pending.fetchEmails showLoading _ after =>
    afterFetch (fetchEmailsRejected s showLoading) after
  | Pending.checkForNewEmails => checkForNewEmailsRejected s
  | Pending.loadMoreEmails => loadMoreEmailsRejected s
  | Pending.deleteEmail emailId emailToDelete _ =>
    handleDeleteEmailRejected s emailId emailToDelete message
  | Pending.restoreEmail _ _ _ => handleUndoDeleteRejected s
  | Pending.updateEmailReadStatus _ _ => s
  | Pending.sendEmail _ _ => handleSendEmailRejected s
  | Pending.searchEmails query folder searchAll currentFolder =>
    performSearchRejected s query folder searchAll currentFolder message
  | Pending.searchFallback _ => searchFallbackRejected s
  | Pending.searchFallbackAll _ => s

/-- The function `handleFolderClick(folder)` of `Sidebar`: the button of the current
folder refreshes and is disabled while `isRefreshing`, the others switch folder. -/
def handleFolderClick (s : AppState) (folder : String) : AppState :=
  if folder = s.currentFolder then
    if s.isRefreshing then s else handleRefresh s
  else handleFolderChange s folder

/-- The `onChange` of the all-folders checkbox of `EmailList`. -/
def handleSearchAllFoldersChange (s : AppState) (checked : Bool) : AppState :=
  if s.searchQuery != "" then
    handleSearchChange { s with searchAllFolders := checked } s.searchQuery checked
  else { s with searchAllFolders := checked }

/-- The callback of a pending timer, run once the timer is taken off the pending list. -/
def timerCallback (s : AppState) (action : TimerAction) : AppState :=
  match action with
  | TimerAction.clearUndo => undoTimerCallback s
  | TimerAction.search query searchAll accessToken currentFolder =>
    performSearch s accessToken currentFolder query none searchAll

/-- The handler an event runs.  The page, and so every user action, exists only once
`loading` is false, and an action needs its control to be on the page; a request can only
complete while its handler is suspended on it; the three requests behind `Promise.all`
complete together, a failed one counting as `{ value: [] }`. -/
def handle (s : AppState) (ev : Event) : AppState :=
  match ev with
  | Event.tokenAcquired token =>
    if s.loading && s.accessToken.isNone then
      if truthy (some token) then
        fetchEmails { s with accessToken := some token } s.currentSkip s.currentFolder
          false false (some "inbox") AfterFetch.initializeApp
      else { s with loading := false }
    else s
  | Event.refreshTick => checkForNewEmails s
  | Event.clickFolder folder =>
    if s.loading || !(["inbox", "sentitems", "drafts", "deleteditems"].contains folder)
    then s else handleFolderClick s folder
  | Event.scrollToEnd =>
    if s.loading || (displayed s).isEmpty then s else loadMoreEmails s
  | Event.typeSearch query =>
    if s.loading then s else handleSearchChange s query s.searchAllFolders
  | Event.toggleSearchAll checked =>
    if s.loading then s else handleSearchAllFoldersChange s checked
  | Event.clearSearch =>
    if s.loading || s.searchQuery == "" then s else handleClearSearch s
  | Event.clickEmail email =>
    if s.loading || !(displayed s).contains email then s else handleEmailSelect s email
  | Event.clickDelete emailId =>
    if s.loading || !(ids (displayed s)).contains emailId then s
    else handleDeleteEmail s emailId
  | Event.clickUndo =>
    if s.loading || s.undoInfo.isNone then s else handleUndoDelete s
  | Event.dismiss => if s.loading || s.undoInfo.isNone then s else clearUndo s
  | Event.clickBadge =>
    if s.loading || s.newEmailCount == 0 then s else { s with newEmailCount := 0 }
  | Event.clickCompose => if s.loading then s else { s with isComposing := true }
  | Event.cancelCompose =>
    if s.loading || !s.isComposing then s else { s with isComposing := false }
  | Event.clickSend => if s.loading || !s.isComposing then s else handleSendEmail s
  | Event.timerFires id =>
    match s.timers.find? (fun t => t.id == id) with
    | some t => timerCallback (clearTimeout s id) t.action
    | none => s
  | Event.resolved p value now =>
    if p ∈ s.inflight && !p.isAll then
      resume { s with inflight := s.inflight.erase p } p value now
    else s
  | Event.rejected p message =>
    if p ∈ s.inflight && !p.isAll then
      fail { s with inflight := s.inflight.erase p } p message
    else s
  | Event.resolvedAll p inbox sent drafts =>
    if p ∈ s.inflight then
      match p with
      | Pending.searchFallbackAll query =>
        searchFallbackResolved { s with inflight := s.inflight.erase p } query
          (inbox.getD [] ++ sent.getD [] ++ drafts.getD [])
      | _ => s
    else s

/-- The render that follows a handler: `useCallback(checkForNewEmails, [accessToken,
currentFolder])` keeps the closure of the earlier render unless one of the two
dependencies changed. -/
def commit (before after : AppState) : AppState :=
  if after.accessToken = before.accessToken ∧ after.currentFolder = before.currentFolder
  then after
  else { after with memoSearchQuery := after.searchQuery }

/-- One event: its handler, then the render. -/
def step (s : AppState) (ev : Event) : AppState := commit s (handle s ev)

/-- A sequence of events, from the left. -/
def run (s : AppState) (evs : List Event) : AppState := evs.foldl step s

/-- A state the mounted component can be in. -/
def Reachable (s : AppState) : Prop := ∃ evs, run initialState evs = s

/-! ## The errors of the mail API -/

/-- The body of a failed response as `response.json()` reads it: not JSON, or a JSON object
with its top-level `message` field, `none` when the object has no such field. -/
inductive ErrorBody where
  | notJson
  | json (message : Option String)
deriving DecidableEq, Repr

/-- The message of the error `graphRequest` throws for a response that is not `ok`:
`error.message || 'Graph API error: ' + response.status`, where `error` is the parsed body,
or `{ message: response.statusText }` when the body does not parse. -/
def graphRequestErrorMessage (status : Nat) (statusText : String) (body : ErrorBody) :
    String :=
  let message :=
    match body with
    | ErrorBody.notJson => some statusText
    | ErrorBody.json message => message
  orElse message ("Graph API error: " ++ toString status)

/-- What `graphRequest` ends with: the value its promise resolves with, or the message of
the `Error` it throws.  `J` is the type of the values `JSON.parse` returns. -/
inductive Outcome (J : Type) where
  /-- `return { success: true }` -/
  | success
  /-- `return JSON.parse(text)` -/
  | parsed (value : J)
  /-- `return { success: true, raw: text }` -/
  | raw (text : String)
  /-- `throw new Error(message)` -/
  | error (message : String)
deriving DecidableEq, Repr

/-- The value `await response.json().catch(() => ({ message: response.statusText }))` for a
response with the body `text`.  `parse` is `JSON.parse`, `none` when it throws; `message`
reads the member `message` of a parsed body, `none` when there is none. -/
def errorBody {J : Type} (parse : String → Option J) (message : J → Option String)
    (text : String) : ErrorBody :=
  match parse text with
  | none => ErrorBody.notJson
  | some value => ErrorBody.json (message value)

/-- The function `graphRequest` from the response on, for a response with the given status,
status text and body text; `response.ok` is true for the statuses 200 to 299. -/
def graphRequest {J : Type} (parse : String → Option J) (message : J → Option String)
    (status : Nat) (statusText text : String) : Outcome J :=
  if !(decide (200 ≤ status) && decide (status ≤ 299)) then
    Outcome.error (graphRequestErrorMessage status statusText (errorBody parse message text))
  else if status = 204 ∨ status = 202 then Outcome.success
  else if text = "" ∨ trim text = "" then Outcome.success
  else
    match parse text with
    | some value => Outcome.parsed value
    | none => Outcome.raw text

/-! ## Markup -/

/-- The scan behind `stripTags`; `inTag` says that a `<` with a later `>` has been met and
its `>` not yet. -/
def stripTagsAux (inTag : Bool) (cs : List Char) : List Char :=
  match cs with
  | [] => []
  | c :: rest =>
    if inTag then
      if c = '>' then stripTagsAux false rest else stripTagsAux true rest
    else if c = '<' ∧ '>' ∈ rest then stripTagsAux true rest
    else c :: stripTagsAux false rest

/-- The replacement `body.replace(/<[^>]*>/g, '')` with which `getPreview` of `EmailList`
removes the tags of a body. -/
def stripTags (s : String) : String := ⟨stripTagsAux false s.data⟩

/-- The match the specification describes for the fallback search: the trimmed query is a
case-insensitive substring of the subject, of the body content with its tags stripped, of
the sender name, or of the sender address. -/
def specMatches (query : String) (email : Email) : Bool :=
  let searchLower := toLowerCase (trim query)
  includes (toLowerCase (orElse email.subject "")) searchLower ||
    includes (toLowerCase (stripTags (orElse email.bodyContent ""))) searchLower ||
    includes (toLowerCase (orElse email.fromName "")) searchLower ||
    includes (toLowerCase (orElse email.fromAddress "")) searchLower

/-- The trimmed query occurs in the text, letter case aside: the lowered query is a run of
consecutive characters of the lowered text. -/
def occursIgnoringCase (query text : String) : Prop :=
  ∃ before after : List Char,
    (toLowerCase text).data = before ++ (toLowerCase (trim query)).data ++ after

/-- Whether the query occurs is what `includes` tests on the lowered strings. -/
instance (query text : String) : Decidable (occursIgnoringCase query text) :=
  decidable_of_iff (includes (toLowerCase text) (toLowerCase (trim query)) = true) (by
    unfold includes occursIgnoringCase
    rw [decide_eq_true_iff]
    exact ⟨fun ⟨b, a, h⟩ => ⟨b, a, h.symm⟩, fun ⟨b, a, h⟩ => ⟨b, a, h.symm⟩⟩)

/-! ## Sample data

Messages and states the concrete statements below are evaluated on. -/

/-- A message with the given id and received time, unread, every other field absent. -/
def mkEmail (id : String) (received : Int) : Email :=
  { id := id, subject := none, bodyPreview := none, bodyContent := none, fromName := none,
    fromAddress := none, receivedDateTime := some received, sentDateTime := none,
    isRead := false }

/-- The state once the token arrived and the first inbox page, `page`, was loaded at time
0. -/
def loadedInbox (page : List Email) : AppState :=
  run initialState
    [Event.tokenAcquired "token",
     Event.resolved (Pending.fetchEmails false false AfterFetch.initializeApp) (some page) 0]

/-- The loaded inbox `[a]` after the user typed `abc` in the search box. -/
def searchingInbox : AppState :=
  step (loadedInbox [mkEmail "a" 1]) (Event.typeSearch "abc")

/-- The state after an empty inbox was loaded and a later background refresh found the
message `a`. -/
def arrivedInEmptyInbox : AppState :=
  run (loadedInbox [])
    [Event.refreshTick, Event.resolved Pending.checkForNewEmails (some [mkEmail "a" 1]) 1]

/-- The loaded inbox `[a, b]` after `a` was deleted and the remote delete resolved at time
5: an Undo Record for `a` is live and its timer is pending. -/
def deletedOne : AppState :=
  run (loadedInbox [mkEmail "a" 2, mkEmail "b" 1])
    [Event.clickDelete "a",
     Event.resolved (Pending.deleteEmail "a" (mkEmail "a" 2) "inbox") none 5]

/-- The loaded inbox `[a, b]` with `a` selected. -/
def selectedInbox : AppState :=
  { loadedInbox [mkEmail "a" 2, mkEmail "b" 1] with selectedEmail := some (mkEmail "a" 2) }

/-- The state `deletedOne` after the user also clicked delete on `b`: the remote delete of
`b` is in flight while the Undo Record of `a` is live. -/
def deletingSecond : AppState := step deletedOne (Event.clickDelete "b")

/-- The Undo Record `deletedOne` holds: the snapshot of `a`, deleted from the inbox at
time 5. -/
def undoOfA : UndoInfo :=
  { emailId := "a", email := mkEmail "a" 2, folder := "inbox", timestamp := 5 }

/-- The state `deletedOne` after the user clicked Undo and the remote move resolved: the
restore in the folder the message came from. -/
def restoredOne : AppState :=
  run deletedOne
    [Event.clickUndo, Event.resolved (Pending.restoreEmail undoOfA "inbox" 1) none 7]

/-- The state `deletedOne` after the user switched to the drafts folder, whose page `[d]`
was loaded, and then clicked Undo: the remote move of `a` back to the inbox is in
flight while the drafts are viewed. -/
def undoFromDrafts : AppState :=
  run deletedOne
    [Event.clickFolder "drafts",
     Event.resolved (Pending.fetchEmails true false AfterFetch.nothing)
       (some [mkEmail "d" 9]) 6,
     Event.clickUndo]

/-- The state `undoFromDrafts` after the remote move resolved and the inbox page
`[a, b]` that the handler then requests arrived. -/
def restoredFromDrafts : AppState :=
  run undoFromDrafts
    [Event.resolved (Pending.restoreEmail undoOfA "drafts" 1) none 7,
     Event.resolved (Pending.fetchEmails false false AfterFetch.handleUndoDelete)
       (some [mkEmail "a" 2, mkEmail "b" 1]) 8]

/-- The loaded inbox `[a, b]` after the user switched to the drafts folder and its page of
three drafts arrived. -/
def switchedToDrafts : AppState :=
  run (loadedInbox [mkEmail "a" 2, mkEmail "b" 1])
    [Event.clickFolder "drafts",
     Event.resolved (Pending.fetchEmails true false AfterFetch.nothing)
       (some [mkEmail "d1" 9, mkEmail "d2" 8, mkEmail "d3" 7]) 6]

/-- The state after `handleDeleteEmail x` found the message `A` in the list of `s` and the
remote delete resolved at time `now`, nothing else happening in between. -/
def deleteConfirmed (s : AppState) (x : String) (A : Email) (now : Nat) : AppState :=
  handleDeleteEmailResolved (handleDeleteEmail s x) x A s.currentFolder now

/-- The loaded inbox `[a, b]` after the unread `a` was clicked and, while the remote update
of its read flag is in flight, a background refresh brought the new message `c`. -/
def refreshedWhileMarking : AppState :=
  run (loadedInbox [mkEmail "a" 2, mkEmail "b" 1])
    [Event.clickEmail (mkEmail "a" 2),
     Event.refreshTick,
     Event.resolved Pending.checkForNewEmails
       (some [mkEmail "c" 3, mkEmail "a" 2, mkEmail "b" 1]) 4]

/-- The order a list is in when its timestamps strictly decrease. -/
def strictlyNewestFirst (a b : Email) : Prop := timestamp b < timestamp a

instance : DecidableRel strictlyNewestFirst :=
  fun a b => Int.decLt (timestamp b) (timestamp a)

/-- A message whose subject is `Hello`. -/
def helloInSubject : Email := { mkEmail "m1" 2 with subject := some "Hello" }

/-- A message whose subject is `Other` and whose preview says `say hello`. -/
def helloInPreview : Email :=
  { mkEmail "m2" 1 with subject := some "Other", bodyPreview := some "say hello" }

/-- A message without a preview whose body content carries markup. -/
def taggedBody : Email :=
  { mkEmail "t" 1 with bodyContent := some "<b>hel</b>lo <div>x</div>" }

/-- The loaded inbox `[a]` after the user typed `hello`, the debounce timer fired and the
server search was sent. -/
def searchSent : AppState :=
  run (loadedInbox [mkEmail "a" 2]) [Event.typeSearch "hello", Event.timerFires 1]

/-- The loaded inbox `[a]` after the search for `abc` in the folder was answered with
`[a]`: no timer is pending and no request is in flight. -/
def searchedInbox : AppState :=
  run (loadedInbox [mkEmail "a" 1])
    [Event.typeSearch "abc", Event.timerFires 1,
     Event.resolved (Pending.searchEmails "abc" none false "inbox") (some [mkEmail "a" 1]) 3]

/-- The loaded inbox `[a, b]` with a background refresh in flight. -/
def refreshingInbox : AppState :=
  step (loadedInbox [mkEmail "a" 2, mkEmail "b" 1]) Event.refreshTick

/-- The body of the mail API's answer for a message that does not exist. -/
def notFoundBody : String :=
  "\x7b\"error\":\x7b\"code\":\"ErrorItemNotFound\"," ++
  "\"message\":\"The specified object was not found in the store.\"\x7d\x7d"

/-- A body with a top-level `message`. -/
def accessDeniedBody : String := "\x7b\"message\":\"Access is denied.\"\x7d"

/-- The body of a page of no messages. -/
def emptyPageBody : String := "\x7b\"value\":[]\x7d"

/-- `JSON.parse` on the bodies of the examples, a parsed object being given by its
top-level members that are strings: the error body of the mail API has none, a body
`{"message": ...}` has one, a page of no messages has none, and any other text of the
examples is not JSON. -/
def sampleParse (text : String) : Option (List (String × String)) :=
  if text = notFoundBody then some []
  else if text = accessDeniedBody then
    some [("message", "Access is denied.")]
  else if text = emptyPageBody then some []
  else none

/-- The member `message` of a parsed object of the examples. -/
def sampleMessage (value : List (String × String)) : Option String :=
  value.lookup "message"

/-- The loaded inbox `[a, b]` after the user clicked delete on `a`: the remote delete is in
flight. -/
def deletingFirst : AppState :=
  step (loadedInbox [mkEmail "a" 2, mkEmail "b" 1]) (Event.clickDelete "a")

/-- The inbox whose first page held the message `a` twice, after `a` was clicked and, while
the remote update of its read flag is in flight, a background refresh brought the page
`[a]`: the list is `[a]`. -/
def twiceInPage : AppState :=
  run (loadedInbox [mkEmail "a" 2, mkEmail "a" 2])
    [Event.clickEmail (mkEmail "a" 2),
     Event.refreshTick,
     Event.resolved Pending.checkForNewEmails (some [mkEmail "a" 2]) 4]

/-- The loaded inbox `[a, b]` after the user clicked the inbox button: the forced refresh
is in flight. -/
def refreshingManually : AppState :=
  step (loadedInbox [mkEmail "a" 2, mkEmail "b" 1]) (Event.clickFolder "inbox")

/-- A message whose subject is `école`. -/
def ecoleInSubject : Email := { mkEmail "m3" 3 with subject := some "école" }

/-- A message whose subject is `ÉCOLE`. -/
def ecoleInCapitals : Email := { mkEmail "m4" 4 with subject := some "ÉCOLE" }

/-- The loaded inbox `[a]` with the fallback of the search for `hello` waiting for its
corpus. -/
def fallbackSent : AppState :=
  step searchSent
    (Event.rejected (Pending.searchEmails "hello" none false "inbox") "Graph API error: 400")

/-! ## Invariants -/

/-- Every pending timer has a non-zero id, and a pending timer that clears the Undo Record
is the one `undoTimeoutRef` holds. -/
def UndoTimerInv (s : AppState) : Prop :=
  0 < s.nextTimerId ∧
  ∀ t ∈ s.timers,
    0 < t.id ∧ (t.action = TimerAction.clearUndo → s.undoTimeoutRef = some t.id)

/-- No timer was added and `undoTimeoutRef` and the id counter are as they were. -/
def TimersKept (s s' : AppState) : Prop :=
  (∀ t ∈ s'.timers, t ∈ s.timers) ∧ s'.undoTimeoutRef = s.undoTimeoutRef ∧
  s'.nextTimerId = s.nextTimerId

/-- The closure of the memoised `checkForNewEmails` holds the empty query, and no query has
been typed while the page does not exist yet. -/
def MemoInv (s : AppState) : Prop :=
  s.memoSearchQuery = "" ∧ (s.loading = true → s.searchQuery = "")

/-- The token, the folder, the query and the query `checkForNewEmails` closed over are as
they were, and `loading` was not set. -/
def Quiet (s s' : AppState) : Prop :=
  s'.accessToken = s.accessToken ∧ s'.currentFolder = s.currentFolder ∧
  s'.memoSearchQuery = s.memoSearchQuery ∧ s'.searchQuery = s.searchQuery ∧
  (s'.loading = true → s.loading = true)

/-- The loaded inbox `[a]` with a background refresh in flight whose in-flight flag was
cleared by two folder loads that started and completed in the meantime. -/
def refreshStillPending : AppState :=
  run (loadedInbox [mkEmail "a" 2])
    [Event.refreshTick,
     Event.clickFolder "drafts",
     Event.resolved (Pending.fetchEmails true false AfterFetch.nothing) (some []) 1,
     Event.clickFolder "inbox",
     Event.resolved (Pending.fetchEmails true false AfterFetch.nothing)
       (some [mkEmail "a" 2]) 2]

/-- The flag `isLoadingMore` and the number of `loadMoreEmails` calls waiting for their
page. -/
def loadingMore (s : AppState) : Bool × Nat :=
  (s.isLoadingMore, s.inflight.count Pending.loadMoreEmails)

/-- The flag `isLoadingMore` is up exactly while one call of `loadMoreEmails` waits for its
page, and no two calls ever wait. -/
def LoadMoreInv (s : AppState) : Prop :=
  s.inflight.count Pending.loadMoreEmails = if s.isLoadingMore then 1 else 0

/-- The snapshot a suspended delete or restore carries is a message of the id it carries. -/
def snapshotOk (p : Pending) : Prop :=
  match p with
  | Pending.deleteEmail emailId emailToDelete _ => emailToDelete.id = emailId
  | Pending.restoreEmail undoInfo _ _ => undoInfo.email.id = undoInfo.emailId
  | _ => True

/-- Every snapshot held, by a suspended handler or by the Undo Record, is a message of the
id held with it. -/
def RecordInv (s : AppState) : Prop :=
  (∀ p ∈ s.inflight, snapshotOk p) ∧ ∀ u, s.undoInfo = some u → u.email.id = u.emailId

/-- Every handler suspended in the second state was suspended in the first or carries a
snapshot of its id, and the Undo Record is the one of the first state or none. -/
def RecordsKept (s s' : AppState) : Prop :=
  (∀ p ∈ s'.inflight, p ∈ s.inflight ∨ snapshotOk p) ∧
  (s'.undoInfo = s.undoInfo ∨ s'.undoInfo = none)

/-! ## Properties of the updaters -/

instance : IsTotal Email newestFirst := ⟨fun a b => Int.le_total (timestamp b) (timestamp a)⟩

instance : IsTrans Email newestFirst := ⟨fun _ _ _ hab hbc => Int.le_trans hbc hab⟩

theorem ids_append (l₁ l₂ : List Email) : ids (l₁ ++ l₂) = ids l₁ ++ ids l₂ := by
  simp [ids]

theorem mem_ids {x : String} {l : List Email} : x ∈ ids l ↔ ∃ e ∈ l, e.id = x := by
  simp [ids]

theorem ids_filter_sublist (p : Email → Bool) (l : List Email) :
    (ids (l.filter p)).Sublist (ids l) :=
  (List.filter_sublist l).map _

/-- One append merge keeps the ids distinct when the page has distinct ids. -/
theorem appendEmails_nodup (prev page : List Email) (hprev : (ids prev).Nodup)
    (hpage : (ids page).Nodup) : (ids (appendEmails prev page)).Nodup := by
  unfold appendEmails
  rw [ids_append, List.nodup_append]
  refine ⟨hprev, hpage.sublist (ids_filter_sublist _ _), ?_⟩
  intro x hx hx'
  obtain ⟨e, he, rfl⟩ := mem_ids.mp hx'
  have := (List.mem_filter.mp he).2
  simp [hx] at this

/-- C1, counterexample: from the empty list, one fetched page that carries the id `"a"`
twice leaves the id twice in the merged list. -/
theorem C1_append_duplicate_in_page :
    (ids []).Nodup ∧
    ¬ (ids (List.foldl appendEmails [] [[mkEmail "a" 2, mkEmail "a" 1]])).Nodup := by
  decide

/-- C1, amended: from a list with distinct ids, appending in turn any sequence of fetched
pages, each of which has distinct ids, yields a list with distinct ids, however the pages
overlap each other and the list. -/
theorem C1_append_pages_nodup (prev : List Email) (pages : List (List Email))
    (hprev : (ids prev).Nodup) (hpages : ∀ page ∈ pages, (ids page).Nodup) :
    (ids (List.foldl appendEmails prev pages)).Nodup := by
  induction pages generalizing prev with
  | nil => simpa using hprev
  | cons page rest ih =>
    simp only [List.foldl_cons]
    apply ih
    · exact appendEmails_nodup prev page hprev (hpages page (List.mem_cons_self _ _))
    · intro q hq
      exact hpages q (List.mem_cons_of_mem _ hq)

/-- C1, witness: two overlapping pages appended to a one-message list. -/
theorem C1_append_pages_nodup_witness :
    (ids [mkEmail "a" 3]).Nodup ∧
    (∀ page ∈ [[mkEmail "a" 3, mkEmail "b" 2], [mkEmail "b" 2, mkEmail "c" 1]],
      (ids page).Nodup) ∧
    (ids (List.foldl appendEmails [mkEmail "a" 3]
      [[mkEmail "a" 3, mkEmail "b" 2], [mkEmail "b" 2, mkEmail "c" 1]])).Nodup :=
  ⟨by decide, by decide,
   C1_append_pages_nodup [mkEmail "a" 3]
     [[mkEmail "a" 3, mkEmail "b" 2], [mkEmail "b" 2, mkEmail "c" 1]]
     (by decide) (by decide)⟩

/-- C2, counterexample: the append merge of a sorted one-message list with a page that
holds a newer message is not sorted newest first. -/
theorem C2_append_not_sorted :
    List.Sorted newestFirst [mkEmail "a" 1] ∧
    ¬ List.Sorted newestFirst (appendEmails [mkEmail "a" 1] [mkEmail "b" 2]) := by
  decide

/-- C2, amended: the background-refresh merge of a non-empty list is sorted newest first
whatever the page; when the fetched page is sorted newest first, so are the
background-refresh merge of any list and the list the initial or forced-refresh
replacement leaves; the append merge is sorted when the list and the page are and no
fetched message is newer than a message already held. -/
theorem C2_reconciliation_sorted (prev page : List Email) :
    (prev ≠ [] → List.Sorted newestFirst (refreshEmails prev page)) ∧
    (List.Sorted newestFirst page →
      List.Sorted newestFirst (refreshEmails prev page) ∧
      List.Sorted newestFirst (replaceEmails prev page)) ∧
    (List.Sorted newestFirst prev → List.Sorted newestFirst page →
      (∀ a ∈ prev, ∀ b ∈ page, newestFirst a b) →
      List.Sorted newestFirst (appendEmails prev page)) := by
  have hmerge : prev ≠ [] → List.Sorted newestFirst (refreshEmails prev page) := by
    intro hne
    have hlen : ¬ prev.length = 0 := fun h => hne (List.length_eq_zero.mp h)
    simp only [refreshEmails, hlen, if_false]
    exact List.sorted_insertionSort newestFirst _
  refine ⟨hmerge, ?_, ?_⟩
  · intro hpage
    refine ⟨?_, hpage⟩
    by_cases hne : prev = []
    · subst hne
      simpa [refreshEmails] using hpage
    · exact hmerge hne
  · intro hprev hpage hcross
    unfold appendEmails
    refine List.pairwise_append.mpr ⟨hprev, List.Pairwise.filter _ hpage, ?_⟩
    intro a ha b hb
    exact hcross a ha b (List.mem_filter.mp hb).1

/-- C2, witness: a two-message list reconciled with an unsorted page, with a sorted page,
and appended with an older page. -/
theorem C2_reconciliation_sorted_witness :
    [mkEmail "a" 10, mkEmail "b" 9] ≠ [] ∧
    List.Sorted newestFirst
      (refreshEmails [mkEmail "a" 10, mkEmail "b" 9] [mkEmail "a" 10, mkEmail "c" 11]) ∧
    List.Sorted newestFirst [mkEmail "c" 11, mkEmail "a" 10] ∧
    List.Sorted newestFirst
      (replaceEmails [mkEmail "a" 10, mkEmail "b" 9] [mkEmail "c" 11, mkEmail "a" 10]) ∧
    List.Sorted newestFirst (appendEmails [mkEmail "c" 11] [mkEmail "a" 10]) :=
  ⟨by decide,
   (C2_reconciliation_sorted [mkEmail "a" 10, mkEmail "b" 9]
      [mkEmail "a" 10, mkEmail "c" 11]).1 (by decide),
   by decide,
   ((C2_reconciliation_sorted [mkEmail "a" 10, mkEmail "b" 9]
      [mkEmail "c" 11, mkEmail "a" 10]).2.1 (by decide)).2,
   (C2_reconciliation_sorted [mkEmail "c" 11] [mkEmail "a" 10]).2.2
      (by decide) (by decide) (by decide)⟩

/-! ## Loading a page: the list, the counter and the cursor -/

theorem newEmailsList_eq (prev page : List Email) :
    newEmailsList prev page = page.filter (fun e => decide (e.id ∉ ids prev)) := by
  unfold newEmailsList
  congr 1
  funext e
  simp

theorem replaceNewCount_eq (prev page : List Email) :
    replaceNewCount prev page =
      if prev = [] then 0 else (page.filter (fun e => decide (e.id ∉ ids prev))).length := by
  unfold replaceNewCount
  rw [newEmailsList_eq]
  cases prev with
  | nil => simp
  | cons a prev =>
    cases page with
    | nil => simp
    | cons b page =>
      generalize ((b :: page).filter (fun e => decide (e.id ∉ ids (a :: prev)))).length = n
      cases n <;> simp

/-- C3, counterexample: with nothing held, a replacement that fetches one message adds
nothing to the counter, although the one fetched message has an id that was not in the
previous list. -/
theorem C3_replace_empty_previous_counts_nothing :
    (loadedInbox []).emails = [] ∧
    ([mkEmail "c" 11].filter (fun e => decide (e.id ∉ ids (loadedInbox []).emails))).length
      = 1 ∧
    (fetchEmailsResolved (loadedInbox []) true false (some [mkEmail "c" 11]) 1).newEmailCount
      = (loadedInbox []).newEmailCount := by
  decide

/-- C3, amended: after a load with `append = false` the list is exactly the fetched page,
so every message held before whose id is absent from the page is gone; the counter grows
by the number of fetched messages whose id was not in the previous list when the previous
list is non-empty, and is left as it was when the previous list is empty. -/
theorem C3_replace_reconciliation (s : AppState) (page : List Email) (showLoading : Bool)
    (now : Nat) :
    (fetchEmailsResolved s showLoading false (some page) now).emails = page ∧
    (∀ e ∈ s.emails, e.id ∉ ids page →
      e ∉ (fetchEmailsResolved s showLoading false (some page) now).emails) ∧
    (fetchEmailsResolved s showLoading false (some page) now).newEmailCount =
      s.newEmailCount +
        (if s.emails = [] then 0
         else (page.filter (fun e => decide (e.id ∉ ids s.emails))).length) := by
  have hlist : (fetchEmailsResolved s showLoading false (some page) now).emails = page := by
    cases showLoading <;> simp [fetchEmailsResolved, fetchEmailsFinally, replaceEmails]
  refine ⟨hlist, ?_, ?_⟩
  · intro e _ hid hmem
    rw [hlist] at hmem
    exact hid (mem_ids.mpr ⟨e, hmem, rfl⟩)
  · rw [← replaceNewCount_eq]
    cases showLoading <;> simp [fetchEmailsResolved, fetchEmailsFinally]

/-- The scenario of the specification: `[A(t=10), B(t=9)]` reconciled with the page
`[C(t=11), A(t=10)]` gives `[C, A]` and one newly arrived message. -/
theorem replace_scenario :
    (fetchEmailsResolved (loadedInbox [mkEmail "A" 10, mkEmail "B" 9]) true false
        (some [mkEmail "C" 11, mkEmail "A" 10]) 1).emails
      = [mkEmail "C" 11, mkEmail "A" 10] ∧
    (fetchEmailsResolved (loadedInbox [mkEmail "A" 10, mkEmail "B" 9]) true false
        (some [mkEmail "C" 11, mkEmail "A" 10]) 1).newEmailCount
      = (loadedInbox [mkEmail "A" 10, mkEmail "B" 9]).newEmailCount + 1 := by
  decide

/-- C5, counterexample: with `[a]` held, appending the page `[a, b]` moves the cursor by
two, while one fetched message is new. -/
theorem C5_append_cursor_counts_duplicates :
    ([mkEmail "a" 2, mkEmail "b" 1].filter
      (fun e => decide (e.id ∉ ids (loadedInbox [mkEmail "a" 2]).emails))).length = 1 ∧
    (loadMoreEmailsResolved (loadedInbox [mkEmail "a" 2])
        (some [mkEmail "a" 2, mkEmail "b" 1])).currentSkip
      = (loadedInbox [mkEmail "a" 2]).currentSkip + 2 := by
  decide

/-- C5, amended: a successful append, by `loadMoreEmails` or by `fetchEmails` with
`append = true`, moves the cursor by exactly the number of fetched messages; that is the
number of new messages exactly when no fetched id is already in the list. -/
theorem C5_append_cursor (s : AppState) (page : List Email) (showLoading : Bool)
    (now : Nat) :
    (loadMoreEmailsResolved s (some page)).currentSkip = s.currentSkip + page.length ∧
    (fetchEmailsResolved s showLoading true (some page) now).currentSkip
      = s.currentSkip + page.length ∧
    ((page.filter (fun e => decide (e.id ∉ ids s.emails))).length = page.length ↔
      ∀ e ∈ page, e.id ∉ ids s.emails) := by
  refine ⟨by simp [loadMoreEmailsResolved], ?_, ?_⟩
  · cases showLoading <;> simp [fetchEmailsResolved, fetchEmailsFinally]
  · rw [(List.filter_sublist page).length_eq, List.filter_eq_self]
    simp

/-! ## The cursor along a run -/

@[simp] theorem commit_currentSkip (before after : AppState) :
    (commit before after).currentSkip = after.currentSkip := by
  unfold commit; split <;> rfl

@[simp] theorem clearTimeoutRef_currentSkip (s : AppState) (ref : Option Nat) :
    (clearTimeoutRef s ref).currentSkip = s.currentSkip := by
  unfold clearTimeoutRef clearTimeout
  split
  · split <;> rfl
  · rfl

@[simp] theorem fetchEmails_currentSkip (s : AppState) (k : Int) (f : String)
    (showLoading append : Bool) (folder : Option String) (after : AfterFetch) :
    (fetchEmails s k f showLoading append folder after).currentSkip = s.currentSkip := by
  cases showLoading <;> simp [fetchEmails]

@[simp] theorem fetchEmailsFinally_currentSkip (s : AppState) (showLoading : Bool) :
    (fetchEmailsFinally s showLoading).currentSkip = s.currentSkip := by
  cases showLoading <;> simp [fetchEmailsFinally]

@[simp] theorem clearUndo_currentSkip (s : AppState) :
    (clearUndo s).currentSkip = s.currentSkip := by
  simp [clearUndo]

@[simp] theorem afterFetch_currentSkip (s : AppState) (after : AfterFetch) :
    (afterFetch s after).currentSkip = s.currentSkip := by
  cases after <;> simp [afterFetch]

theorem checkForNewEmails_currentSkip (s : AppState) :
    (checkForNewEmails s).currentSkip = s.currentSkip := by
  unfold checkForNewEmails; split <;> rfl

theorem loadMoreEmails_currentSkip (s : AppState) :
    (loadMoreEmails s).currentSkip = s.currentSkip := by
  unfold loadMoreEmails; split <;> rfl

theorem handleSearchChange_currentSkip (s : AppState) (query : String) (searchAll : Bool) :
    (handleSearchChange s query searchAll).currentSkip = s.currentSkip := by
  unfold handleSearchChange; split <;> simp [setTimeout]

theorem handleClearSearch_currentSkip (s : AppState) :
    (handleClearSearch s).currentSkip = s.currentSkip := by
  simp [handleClearSearch]

theorem handleUndoDelete_currentSkip (s : AppState) :
    (handleUndoDelete s).currentSkip = s.currentSkip := by
  unfold handleUndoDelete
  split
  · rfl
  · split <;> rfl

theorem handleRefresh_currentSkip (s : AppState) :
    (handleRefresh s).currentSkip = s.currentSkip ∨ (handleRefresh s).currentSkip = 0 := by
  unfold handleRefresh
  split
  · right; simp
  · left; rfl

theorem handleFolderChange_currentSkip (s : AppState) (folder : String) :
    (handleFolderChange s folder).currentSkip = s.currentSkip ∨
    (handleFolderChange s folder).currentSkip = 0 := by
  unfold handleFolderChange
  split
  · right; simp [handleClearSearch]
  · left; rfl

theorem handleDeleteEmail_currentSkip (s : AppState) (emailId : String) :
    (handleDeleteEmail s emailId).currentSkip = s.currentSkip ∨
    (handleDeleteEmail s emailId).currentSkip = max 0 (s.currentSkip - 1) := by
  unfold handleDeleteEmail
  split
  · left; rfl
  · split
    · left; rfl
    · right; rfl

theorem resume_currentSkip (s : AppState) (p : Pending) (value : Option (List Email))
    (now : Nat) :
    (resume s p value now).currentSkip =
      match p with
      | Pending.fetchEmails _ true _ => s.currentSkip + (value.getD []).length
      | Pending.fetchEmails _ false _ => (value.getD []).length
      | Pending.loadMoreEmails => s.currentSkip + (value.getD []).length
      | _ => s.currentSkip := by
  cases p with
  | fetchEmails showLoading append after =>
    cases append <;> simp [resume, fetchEmailsResolved]
  | checkForNewEmails => simp [resume, checkForNewEmailsResolved, checkForNewEmailsFinally]
  | loadMoreEmails => simp [resume, loadMoreEmailsResolved]
  | deleteEmail emailId emailToDelete currentFolder =>
    simp [resume, handleDeleteEmailResolved, setTimeout]
  | restoreEmail undoInfo currentFolder currentSkip =>
    simp only [resume, handleUndoDeleteResolved]
    split <;> simp
  | updateEmailReadStatus email emails => simp [resume, handleEmailSelectResolved]
  | sendEmail currentFolder currentSkip => simp [resume, handleSendEmailResolved]
  | searchEmails query folder searchAll currentFolder => simp [resume, performSearchResolved]
  | searchFallback query => simp [resume, searchFallbackResolved]
  | searchFallbackAll query => simp [resume]

theorem fail_currentSkip (s : AppState) (p : Pending) (message : String) :
    (fail s p message).currentSkip = s.currentSkip := by
  cases p with
  | searchEmails query folder searchAll currentFolder =>
    simp only [fail, performSearchRejected]
    split
    · split <;> rfl
    · rfl
  | _ =>
    simp [fail, fetchEmailsRejected, checkForNewEmailsRejected, checkForNewEmailsFinally,
      loadMoreEmailsRejected, handleDeleteEmailRejected, handleUndoDeleteRejected,
      handleSendEmailRejected, searchFallbackRejected]

theorem handleFolderClick_currentSkip (s : AppState) (folder : String) :
    (handleFolderClick s folder).currentSkip = s.currentSkip ∨
    (handleFolderClick s folder).currentSkip = 0 := by
  unfold handleFolderClick
  split
  · split
    · left; rfl
    · exact handleRefresh_currentSkip s
  · exact handleFolderChange_currentSkip s folder

theorem handleSearchAllFoldersChange_currentSkip (s : AppState) (checked : Bool) :
    (handleSearchAllFoldersChange s checked).currentSkip = s.currentSkip := by
  unfold handleSearchAllFoldersChange
  split
  · rw [handleSearchChange_currentSkip]
  · rfl

theorem handleEmailSelect_currentSkip (s : AppState) (email : Email) :
    (handleEmailSelect s email).currentSkip = s.currentSkip := by
  unfold handleEmailSelect; split <;> rfl

theorem performSearch_currentSkip (s : AppState) (accessToken : Option String)
    (currentFolder query : String) (folder : Option String) (searchAll : Bool) :
    (performSearch s accessToken currentFolder query folder searchAll).currentSkip
      = s.currentSkip := by
  unfold performSearch; split <;> rfl

theorem timerCallback_currentSkip (s : AppState) (action : TimerAction) :
    (timerCallback s action).currentSkip = s.currentSkip := by
  cases action with
  | clearUndo => rfl
  | search query searchAll accessToken currentFolder =>
    exact performSearch_currentSkip s _ _ _ _ _

/-- C4, counterexample: with two messages loaded and the cursor at 2, deleting one of them
lowers the cursor to 1; the event is neither a folder switch nor a forced refresh and the
cursor is not reset to 0. -/
theorem C4_delete_lowers_cursor :
    (loadedInbox [mkEmail "a" 2, mkEmail "b" 1]).currentSkip = 2 ∧
    (step (loadedInbox [mkEmail "a" 2, mkEmail "b" 1]) (Event.clickDelete "a")).currentSkip
      = 1 := by
  decide

/-- C4, amended: every event either leaves the cursor as it was, or is the completion of
an append (`loadMoreEmails`, or `fetchEmails` with `append = true`), which raises it by
the length of the fetched page, or is a click on a folder (a forced refresh or a folder
switch), which resets it to 0, or is a delete, which lowers it by one but not below 0, or
is the completion of a load with `append = false`, which sets it to the length of the
fetched page. -/
theorem C4_cursor_step (s : AppState) (ev : Event) :
    (step s ev).currentSkip = s.currentSkip ∨
    (∃ p value now, ev = Event.resolved p value now ∧
      (p = Pending.loadMoreEmails ∨ ∃ sl af, p = Pending.fetchEmails sl true af) ∧
      (step s ev).currentSkip = s.currentSkip + (value.getD []).length) ∨
    ((∃ folder, ev = Event.clickFolder folder) ∧ (step s ev).currentSkip = 0) ∨
    (∃ emailId, ev = Event.clickDelete emailId ∧
      (step s ev).currentSkip = max 0 (s.currentSkip - 1)) ∨
    (∃ sl af value now, ev = Event.resolved (Pending.fetchEmails sl false af) value now ∧
      (step s ev).currentSkip = (value.getD []).length) := by
  cases ev with
  | tokenAcquired token =>
    left
    simp only [step, commit_currentSkip, handle]
    split
    · split <;> simp
    · rfl
  | refreshTick =>
    left
    simp only [step, commit_currentSkip, handle, checkForNewEmails_currentSkip]
  | clickFolder folder =>
    simp only [step, commit_currentSkip, handle]
    split
    · left; rfl
    · rcases handleFolderClick_currentSkip s folder with h | h
      · left; exact h
      · right; right; left; exact ⟨⟨folder, rfl⟩, h⟩
  | scrollToEnd =>
    left
    simp only [step, commit_currentSkip, handle]
    split
    · rfl
    · exact loadMoreEmails_currentSkip s
  | typeSearch query =>
    left
    simp only [step, commit_currentSkip, handle]
    split
    · rfl
    · exact handleSearchChange_currentSkip s query _
  | toggleSearchAll checked =>
    left
    simp only [step, commit_currentSkip, handle]
    split
    · rfl
    · exact handleSearchAllFoldersChange_currentSkip s checked
  | clearSearch =>
    left
    simp only [step, commit_currentSkip, handle]
    split
    · rfl
    · exact handleClearSearch_currentSkip s
  | clickEmail email =>
    left
    simp only [step, commit_currentSkip, handle]
    split
    · rfl
    · exact handleEmailSelect_currentSkip s email
  | clickDelete emailId =>
    simp only [step, commit_currentSkip, handle]
    split
    · left; rfl
    · rcases handleDeleteEmail_currentSkip s emailId with h | h
      · left; exact h
      · right; right; right; left; exact ⟨emailId, rfl, h⟩
  | clickUndo =>
    left
    simp only [step, commit_currentSkip, handle]
    split
    · rfl
    · exact handleUndoDelete_currentSkip s
  | dismiss =>
    left
    simp only [step, commit_currentSkip, handle]
    split
    · rfl
    · simp
  | clickBadge =>
    left
    simp only [step, commit_currentSkip, handle]
    split <;> rfl
  | clickCompose =>
    left
    simp only [step, commit_currentSkip, handle]
    split <;> rfl
  | cancelCompose =>
    left
    simp only [step, commit_currentSkip, handle]
    split <;> rfl
  | clickSend =>
    left
    simp only [step, commit_currentSkip, handle]
    split <;> rfl
  | timerFires id =>
    left
    simp only [step, commit_currentSkip, handle]
    split
    · rw [timerCallback_currentSkip]
      rfl
    · rfl
  | resolved p value now =>
    simp only [step, commit_currentSkip, handle]
    split
    · rw [resume_currentSkip]
      cases p with
      | fetchEmails showLoading append after =>
        cases append
        · right; right; right; right
          exact ⟨showLoading, after, value, now, rfl, rfl⟩
        · right; left
          exact ⟨_, value, now, rfl, Or.inr ⟨showLoading, after, rfl⟩, rfl⟩
      | loadMoreEmails =>
        right; left
        exact ⟨_, value, now, rfl, Or.inl rfl, rfl⟩
      | _ => left; rfl
    · left; rfl
  | rejected p message =>
    left
    simp only [step, commit_currentSkip, handle]
    split
    · rw [fail_currentSkip]
    · rfl
  | resolvedAll p inbox sent drafts =>
    left
    simp only [step, commit_currentSkip, handle]
    split
    · split <;> rfl
    · rfl

/-! ## Background refresh -/

/-- The guard of `checkForNewEmails`: nothing happens when the folder is not the inbox, a
refresh is in flight, or the search query the callback closed over is not blank. -/
theorem checkForNewEmails_guard (s : AppState)
    (h : s.currentFolder ≠ "inbox" ∨ s.isRefreshingRef = true ∨
      trim s.memoSearchQuery ≠ "") :
    checkForNewEmails s = s := by
  unfold checkForNewEmails
  rcases h with h | h | h <;> simp [h]

/-- C6, the failing run: the inbox `[a]` is loaded and the user has typed `abc`, so a search
query is active and no refresh is in flight; the callback still holds the query of the
render it was memoised in, the empty one, so the next tick sets the in-flight flag and
sends the inbox request, and its response replaces the list and raises the counter. -/
theorem C6_background_refresh_while_searching :
    trim searchingInbox.searchQuery ≠ "" ∧
    searchingInbox.memoSearchQuery = "" ∧
    searchingInbox.isRefreshingRef = false ∧
    (step searchingInbox Event.refreshTick).requests
      = searchingInbox.requests ++ [Request.getFolderEmails "inbox" 50 0] ∧
    (step searchingInbox Event.refreshTick).isRefreshingRef = true ∧
    (run searchingInbox
      [Event.refreshTick,
       Event.resolved Pending.checkForNewEmails (some [mkEmail "b" 2, mkEmail "a" 1]) 9]
      ).emails = [mkEmail "b" 2, mkEmail "a" 1] ∧
    (run searchingInbox
      [Event.refreshTick,
       Event.resolved Pending.checkForNewEmails (some [mkEmail "b" 2, mkEmail "a" 1]) 9]
      ).newEmailCount = searchingInbox.newEmailCount + 1 := by
  decide

/-! ## Optimistic delete -/

/-- In a list with distinct ids that holds the id `x`, one message carries `x`: it is the
one `find` returns, and filtering `x` out removes it and nothing else. -/
theorem split_at_id (l : List Email) (x : String) (hnodup : (ids l).Nodup)
    (hx : x ∈ ids l) :
    ∃ l₁ e l₂, l = l₁ ++ e :: l₂ ∧ e.id = x ∧
      l.find? (fun e => e.id == x) = some e ∧
      l.filter (fun e => e.id != x) = l₁ ++ l₂ := by
  obtain ⟨e, he, hid⟩ := mem_ids.mp hx
  obtain ⟨l₁, l₂, rfl⟩ := List.append_of_mem he
  have hnd : (ids l₁ ++ x :: ids l₂).Nodup := by
    simpa [ids, hid] using hnodup
  have h₁ : x ∉ ids l₁ := fun h =>
    (List.nodup_append.mp hnd).2.2 h (List.mem_cons_self _ _)
  have h₂ : x ∉ ids l₂ := (List.nodup_cons.mp (List.nodup_append.mp hnd).2.1).1
  have hf₁ : ∀ a ∈ l₁, a.id ≠ x := fun a ha h => h₁ (mem_ids.mpr ⟨a, ha, h⟩)
  have hf₂ : ∀ a ∈ l₂, a.id ≠ x := fun a ha h => h₂ (mem_ids.mpr ⟨a, ha, h⟩)
  refine ⟨l₁, e, l₂, rfl, hid, ?_, ?_⟩
  · rw [List.find?_append]
    have : l₁.find? (fun e => e.id == x) = none := by
      rw [List.find?_eq_none]
      intro a ha
      simpa using hf₁ a ha
    simp [this, hid]
  · rw [List.filter_append, List.filter_cons]
    have e₁ : l₁.filter (fun e => e.id != x) = l₁ := by
      rw [List.filter_eq_self]
      intro a ha
      simpa using hf₁ a ha
    have e₂ : l₂.filter (fun e => e.id != x) = l₂ := by
      rw [List.filter_eq_self]
      intro a ha
      simpa using hf₂ a ha
    simp [e₁, e₂, hid]

/-- C7, counterexample: an empty inbox was loaded (cursor 0) and a background refresh then
brought the message `a`, which leaves the cursor at 0; deleting `a` leaves the cursor at 0,
one more than the decrement by one would give. -/
theorem C7_delete_at_cursor_zero :
    (ids arrivedInEmptyInbox.emails).Nodup ∧
    "a" ∈ ids arrivedInEmptyInbox.emails ∧
    (handleDeleteEmail arrivedInEmptyInbox "a").emails = [] ∧
    arrivedInEmptyInbox.currentSkip = 0 ∧
    (handleDeleteEmail arrivedInEmptyInbox "a").currentSkip
      ≠ arrivedInEmptyInbox.currentSkip - 1 := by
  decide

/-- C7, amended: with a token, on a list with distinct ids that holds a message with id
`x`, `handleDeleteEmail x` at once leaves the list without that one message, the others in
their order, with the remote delete sent and not yet answered; the selection is cleared
when the selected message has id `x` and kept otherwise; the cursor goes down by one,
except that a cursor of 0 stays 0. -/
theorem C7_optimistic_delete (s : AppState) (x : String)
    (htoken : truthy s.accessToken = true) (hnodup : (ids s.emails).Nodup)
    (hx : x ∈ ids s.emails) :
    (∃ l₁ e l₂, s.emails = l₁ ++ e :: l₂ ∧ e.id = x ∧
      (handleDeleteEmail s x).emails = l₁ ++ l₂ ∧
      (handleDeleteEmail s x).inflight
        = s.inflight ++ [Pending.deleteEmail x e s.currentFolder]) ∧
    (s.selectedEmail.map (fun e => e.id) = some x →
      (handleDeleteEmail s x).selectedEmail = none) ∧
    (s.selectedEmail.map (fun e => e.id) ≠ some x →
      (handleDeleteEmail s x).selectedEmail = s.selectedEmail) ∧
    (handleDeleteEmail s x).currentSkip = max 0 (s.currentSkip - 1) ∧
    (0 < s.currentSkip → (handleDeleteEmail s x).currentSkip = s.currentSkip - 1) := by
  obtain ⟨l₁, e, l₂, hl, hid, hfind, hfilter⟩ := split_at_id s.emails x hnodup hx
  have hskip : (handleDeleteEmail s x).currentSkip = max 0 (s.currentSkip - 1) := by
    simp [handleDeleteEmail, htoken, hfind]
  refine ⟨⟨l₁, e, l₂, hl, hid, ?_, ?_⟩, ?_, ?_, hskip, ?_⟩
  · simp [handleDeleteEmail, htoken, hfind, hfilter]
  · simp [handleDeleteEmail, htoken, hfind]
  · intro hsel
    simp [handleDeleteEmail, htoken, hfind, hsel]
  · intro hsel
    simp [handleDeleteEmail, htoken, hfind, hsel]
  · intro hpos
    rw [hskip]
    omega

/-- C7, witness: deleting the selected message `a` from the loaded inbox `[a, b]`. -/
theorem C7_optimistic_delete_witness :
    truthy selectedInbox.accessToken = true ∧
    (ids selectedInbox.emails).Nodup ∧
    "a" ∈ ids selectedInbox.emails ∧
    (handleDeleteEmail selectedInbox "a").selectedEmail = none ∧
    (handleDeleteEmail selectedInbox "a").currentSkip = selectedInbox.currentSkip - 1 :=
  ⟨by decide, by decide, by decide,
   (C7_optimistic_delete selectedInbox "a" (by decide) (by decide) (by decide)).2.1
     (by decide),
   (C7_optimistic_delete selectedInbox "a" (by decide) (by decide) (by decide)).2.2.2.2
     (by decide)⟩

/-! ## Failed delete -/

theorem includes_empty (sub : String) (h : includes "" sub = true) : sub = "" := by
  unfold includes at h
  have h' : sub.data <:+: ([] : List Char) := by simpa using h
  have hd : sub.data = [] := List.eq_nil_of_infix_nil h'
  cases sub
  simp_all

theorem deleteFailedMessage_ne (message : String) :
    deleteFailedMessage message ≠ permissionDeniedMessage := by
  intro h
  have hd := congrArg String.data h
  have hh := congrArg List.head? hd
  simp [deleteFailedMessage, permissionDeniedMessage, String.data_append] at hh

theorem isPermissionError_iff (message : String) :
    isPermissionError message = true ↔
      (includes message "403" = true ∨ includes message "Forbidden" = true) := by
  unfold isPermissionError
  constructor
  · intro h
    simp only [Bool.and_eq_true, Bool.or_eq_true] at h
    exact h.2
  · intro h
    have hne : message ≠ "" := by
      rintro rfl
      rcases h with h | h
      · exact absurd (includes_empty _ h) (by decide)
      · exact absurd (includes_empty _ h) (by decide)
    simp only [Bool.and_eq_true, Bool.or_eq_true]
    exact ⟨by simpa using hne, h⟩

theorem find_id (l : List Email) (x : String) (A : Email)
    (hfind : l.find? (fun e => e.id == x) = some A) : A ∈ l ∧ A.id = x := by
  refine ⟨List.mem_of_find?_eq_some hfind, ?_⟩
  simpa using List.find?_some hfind

theorem handleDeleteEmail_emails (s : AppState) (x : String) (A : Email)
    (htoken : truthy s.accessToken = true)
    (hfind : s.emails.find? (fun e => e.id == x) = some A) :
    (handleDeleteEmail s x).emails = s.emails.filter (fun e => e.id != x) := by
  simp [handleDeleteEmail, htoken, hfind]

theorem handleDeleteEmail_alerts (s : AppState) (x : String) (A : Email)
    (htoken : truthy s.accessToken = true)
    (hfind : s.emails.find? (fun e => e.id == x) = some A) :
    (handleDeleteEmail s x).alerts = s.alerts := by
  simp [handleDeleteEmail, htoken, hfind]

/-- The message `graphRequest` builds from the status alone mentions `403` for the status
403 and for no other status below 600, and never mentions `Forbidden`. -/
theorem status_message_mentions_403 :
    ∀ status < 600,
      ((includes ("Graph API error: " ++ toString status) "403" = true ∨
        includes ("Graph API error: " ++ toString status) "Forbidden" = true)
        ↔ status = 403) := by
  decide!

/-- C8, counterexample: the delete of `a` is answered 403 with a body that has a top-level
`message`; `graphRequest` raises that message, which mentions neither `403` nor
`Forbidden`, and the generic alert is shown.  A failure of another class whose message
happens to contain the digits `403` gets the permission text. -/
theorem C8_permission_alert_follows_message_text :
    graphRequest sampleParse sampleMessage 403 "Forbidden" accessDeniedBody
      = Outcome.error "Access is denied." ∧
    (run (loadedInbox [mkEmail "a" 2, mkEmail "b" 1])
      [Event.clickDelete "a",
       Event.rejected (Pending.deleteEmail "a" (mkEmail "a" 2) "inbox")
         "Access is denied."]).alerts
      = ["Failed to delete email: Access is denied.. The email has been restored."] ∧
    (run (loadedInbox [mkEmail "a" 2, mkEmail "b" 1])
      [Event.clickDelete "a",
       Event.rejected (Pending.deleteEmail "a" (mkEmail "a" 2) "inbox")
         "Request 14033 timed out"]).alerts
      = ["Permission denied. Please ensure:\n\n" ++
         "1. Your Azure AD app has \"Mail.ReadWrite\" permission (not just \"Mail.Read\")\n" ++
         "2. Admin consent has been granted\n" ++
         "3. You have logged out and logged back in to refresh your token\n\n" ++
         "See README.md for setup instructions."] := by
  refine ⟨by decide, by rfl, by rfl⟩

/-- C8, amended: when the remote delete of `A`, the message `handleDeleteEmail x` found in
the list, rejects with an error whose message is `message`, the list is `A` followed by
the list before the delete without the messages of id `x`; when the ids were distinct this
is a rearrangement of the list before the delete and its ids are again distinct; and one
alert is shown, the permission text exactly when the message contains `403` or
`Forbidden`, the failure text built from the message otherwise.  For the message that
`graphRequest` builds when the body has no top-level `message`, that is exactly when
the status is 403. -/
theorem C8_failed_delete_restores (s : AppState) (x : String) (A : Email)
    (message : String) (htoken : truthy s.accessToken = true)
    (hfind : s.emails.find? (fun e => e.id == x) = some A) :
    (handleDeleteEmailRejected (handleDeleteEmail s x) x A message).emails
      = A :: s.emails.filter (fun e => e.id != x) ∧
    ((ids s.emails).Nodup →
      List.Perm (handleDeleteEmailRejected (handleDeleteEmail s x) x A message).emails
        s.emails ∧
      (ids (handleDeleteEmailRejected (handleDeleteEmail s x) x A message).emails).Nodup) ∧
    (handleDeleteEmailRejected (handleDeleteEmail s x) x A message).alerts
      = s.alerts ++
        [if includes message "403" = true ∨ includes message "Forbidden" = true then
          "Permission denied. Please ensure:\n\n" ++
          "1. Your Azure AD app has \"Mail.ReadWrite\" permission (not just \"Mail.Read\")\n" ++
          "2. Admin consent has been granted\n" ++
          "3. You have logged out and logged back in to refresh your token\n\n" ++
          "See README.md for setup instructions."
         else
          "Failed to delete email: " ++ (if message = "" then "Unknown error" else message) ++
          ". The email has been restored."] ∧
    (∀ status statusText, status < 600 →
      ((includes (graphRequestErrorMessage status statusText (ErrorBody.json none)) "403"
          = true ∨
        includes (graphRequestErrorMessage status statusText (ErrorBody.json none))
          "Forbidden" = true) ↔ status = 403)) := by
  have hlist : (handleDeleteEmailRejected (handleDeleteEmail s x) x A message).emails
      = A :: s.emails.filter (fun e => e.id != x) := by
    simp [handleDeleteEmailRejected, handleDeleteEmail_emails s x A htoken hfind]
  refine ⟨hlist, ?_, ?_, ?_⟩
  · intro hnodup
    obtain ⟨hmem, hid⟩ := find_id s.emails x A hfind
    obtain ⟨l₁, e, l₂, hl, _, hfind', hfilter⟩ :=
      split_at_id s.emails x hnodup (mem_ids.mpr ⟨A, hmem, hid⟩)
    have he : e = A := by
      rw [hfind] at hfind'
      exact (Option.some.inj hfind').symm
    subst he
    have hperm : List.Perm (handleDeleteEmailRejected (handleDeleteEmail s x) x e message).emails
        s.emails := by
      rw [hlist, hfilter, hl]
      exact List.perm_middle.symm
    refine ⟨hperm, ?_⟩
    exact ((hperm.map (fun e : Email => e.id)).nodup_iff).mpr hnodup
  · have halerts : (handleDeleteEmailRejected (handleDeleteEmail s x) x A message).alerts
        = s.alerts ++ [if isPermissionError message then permissionDeniedMessage
            else deleteFailedMessage message] := by
      simp [handleDeleteEmailRejected, handleDeleteEmail_alerts s x A htoken hfind]
    rw [halerts]
    by_cases hp : isPermissionError message = true
    · rw [if_pos hp, if_pos ((isPermissionError_iff message).mp hp)]
      rfl
    · rw [if_neg hp, if_neg (fun h => hp ((isPermissionError_iff message).mpr h))]
      unfold deleteFailedMessage
      by_cases hm : message = "" <;> simp [hm]
  · intro status statusText hs
    have hmsg : graphRequestErrorMessage status statusText (ErrorBody.json none)
        = "Graph API error: " ++ toString status := by
      simp [graphRequestErrorMessage, orElse, truthy]
    rw [hmsg]
    exact status_message_mentions_403 status hs

/-- C8, witness: deleting `a` from the loaded inbox `[a, b]` fails with a 403. -/
theorem C8_failed_delete_restores_witness :
    truthy (loadedInbox [mkEmail "a" 2, mkEmail "b" 1]).accessToken = true ∧
    (loadedInbox [mkEmail "a" 2, mkEmail "b" 1]).emails.find? (fun e => e.id == "a")
      = some (mkEmail "a" 2) ∧
    (handleDeleteEmailRejected
      (handleDeleteEmail (loadedInbox [mkEmail "a" 2, mkEmail "b" 1]) "a") "a"
      (mkEmail "a" 2) "Graph API error: 403").emails
      = mkEmail "a" 2 ::
        (loadedInbox [mkEmail "a" 2, mkEmail "b" 1]).emails.filter (fun e => e.id != "a") :=
  ⟨by decide, by decide,
   (C8_failed_delete_restores (loadedInbox [mkEmail "a" 2, mkEmail "b" 1]) "a"
      (mkEmail "a" 2) "Graph API error: 403" (by decide) (by decide)).1⟩

/-- A failed delete of `a` with the message `Graph API error: 403` shows the permission
text, one with a network error shows the generic text. -/
theorem failed_delete_alerts :
    (handleDeleteEmailRejected
      (handleDeleteEmail (loadedInbox [mkEmail "a" 2, mkEmail "b" 1]) "a") "a"
      (mkEmail "a" 2) "Graph API error: 403").alerts = [permissionDeniedMessage] ∧
    (handleDeleteEmailRejected
      (handleDeleteEmail (loadedInbox [mkEmail "a" 2, mkEmail "b" 1]) "a") "a"
      (mkEmail "a" 2) "Failed to fetch").alerts
      = ["Failed to delete email: Failed to fetch. The email has been restored."] :=
  ⟨rfl, rfl⟩

/-- C9, the failing run: with `[a, b]` loaded the cursor is 2; `a` is deleted and the remote
delete rejects; the list is back to `[a, b]` and no Undo Record exists, but the cursor is
1, not the 2 it was before the delete. -/
theorem C9_failed_delete_keeps_cursor_lowered :
    (loadedInbox [mkEmail "a" 2, mkEmail "b" 1]).currentSkip = 2 ∧
    (loadedInbox [mkEmail "a" 2, mkEmail "b" 1]).undoInfo = none ∧
    (run (loadedInbox [mkEmail "a" 2, mkEmail "b" 1])
      [Event.clickDelete "a",
       Event.rejected (Pending.deleteEmail "a" (mkEmail "a" 2) "inbox") "Failed to fetch"]
      ).emails = [mkEmail "a" 2, mkEmail "b" 1] ∧
    (run (loadedInbox [mkEmail "a" 2, mkEmail "b" 1])
      [Event.clickDelete "a",
       Event.rejected (Pending.deleteEmail "a" (mkEmail "a" 2) "inbox") "Failed to fetch"]
      ).undoInfo = none ∧
    (run (loadedInbox [mkEmail "a" 2, mkEmail "b" 1])
      [Event.clickDelete "a",
       Event.rejected (Pending.deleteEmail "a" (mkEmail "a" 2) "inbox") "Failed to fetch"]
      ).currentSkip = 1 := by
  decide

/-! ## The undo timer -/

theorem timersKept_refl (s : AppState) : TimersKept s s := ⟨fun _ h => h, rfl, rfl⟩

theorem timersKept_trans {s₁ s₂ s₃ : AppState} (h₁ : TimersKept s₁ s₂)
    (h₂ : TimersKept s₂ s₃) : TimersKept s₁ s₃ :=
  ⟨fun t h => h₁.1 t (h₂.1 t h), h₂.2.1.trans h₁.2.1, h₂.2.2.trans h₁.2.2⟩

theorem undoTimerInv_kept {s s' : AppState} (h : UndoTimerInv s) (hk : TimersKept s s') :
    UndoTimerInv s' := by
  refine ⟨by rw [hk.2.2]; exact h.1, ?_⟩
  intro t ht
  have := h.2 t (hk.1 t ht)
  exact ⟨this.1, fun ha => by rw [hk.2.1]; exact this.2 ha⟩

theorem clearTimeout_kept (s : AppState) (id : Nat) : TimersKept s (clearTimeout s id) :=
  ⟨fun _ h => (List.mem_filter.mp h).1, rfl, rfl⟩

theorem clearTimeoutRef_kept (s : AppState) (ref : Option Nat) :
    TimersKept s (clearTimeoutRef s ref) := by
  unfold clearTimeoutRef
  split
  · split
    · exact clearTimeout_kept s _
    · exact timersKept_refl s
  · exact timersKept_refl s

theorem fetchEmails_kept (s : AppState) (k : Int) (f : String) (showLoading append : Bool)
    (folder : Option String) (after : AfterFetch) :
    TimersKept s (fetchEmails s k f showLoading append folder after) := by
  cases showLoading <;> exact ⟨fun _ h => h, rfl, rfl⟩

theorem fetchEmailsFinally_kept (s : AppState) (showLoading : Bool) :
    TimersKept s (fetchEmailsFinally s showLoading) := by
  cases showLoading <;> exact ⟨fun _ h => h, rfl, rfl⟩

theorem fetchEmailsResolved_kept (s : AppState) (showLoading append : Bool)
    (value : Option (List Email)) (now : Nat) :
    TimersKept s (fetchEmailsResolved s showLoading append value now) := by
  cases showLoading <;> cases append <;> exact ⟨fun _ h => h, rfl, rfl⟩

theorem checkForNewEmails_kept (s : AppState) : TimersKept s (checkForNewEmails s) := by
  unfold checkForNewEmails
  split <;> exact ⟨fun _ h => h, rfl, rfl⟩

theorem loadMoreEmails_kept (s : AppState) : TimersKept s (loadMoreEmails s) := by
  unfold loadMoreEmails
  split <;> exact ⟨fun _ h => h, rfl, rfl⟩

theorem clearUndo_kept (s : AppState) : TimersKept s (clearUndo s) := by
  unfold clearUndo
  refine timersKept_trans ?_ (clearTimeoutRef_kept _ _)
  exact ⟨fun _ h => h, rfl, rfl⟩

theorem afterFetch_kept (s : AppState) (after : AfterFetch) :
    TimersKept s (afterFetch s after) := by
  cases after
  · exact timersKept_refl s
  · exact ⟨fun _ h => h, rfl, rfl⟩
  · exact clearUndo_kept s

theorem handleClearSearch_kept (s : AppState) : TimersKept s (handleClearSearch s) := by
  unfold handleClearSearch
  refine timersKept_trans ?_ (clearTimeoutRef_kept _ _)
  exact ⟨fun _ h => h, rfl, rfl⟩

theorem handleRefresh_kept (s : AppState) : TimersKept s (handleRefresh s) := by
  unfold handleRefresh
  split
  · refine timersKept_trans ?_ (fetchEmails_kept _ _ _ _ _ _ _)
    exact ⟨fun _ h => h, rfl, rfl⟩
  · exact timersKept_refl s

theorem handleFolderChange_kept (s : AppState) (folder : String) :
    TimersKept s (handleFolderChange s folder) := by
  unfold handleFolderChange
  split
  · refine timersKept_trans ?_ (fetchEmails_kept _ _ _ _ _ _ _)
    refine timersKept_trans ?_ (handleClearSearch_kept _)
    exact ⟨fun _ h => h, rfl, rfl⟩
  · exact timersKept_refl s

theorem handleDeleteEmail_kept (s : AppState) (emailId : String) :
    TimersKept s (handleDeleteEmail s emailId) := by
  unfold handleDeleteEmail
  split
  · exact ⟨fun _ h => h, rfl, rfl⟩
  · split <;> exact ⟨fun _ h => h, rfl, rfl⟩

theorem handleUndoDelete_kept (s : AppState) : TimersKept s (handleUndoDelete s) := by
  unfold handleUndoDelete
  split
  · exact timersKept_refl s
  · split <;> exact ⟨fun _ h => h, rfl, rfl⟩

theorem handleUndoDeleteResolved_kept (s : AppState) (undoInfo : UndoInfo)
    (currentFolder : String) (currentSkip : Int) :
    TimersKept s (handleUndoDeleteResolved s undoInfo currentFolder currentSkip) := by
  unfold handleUndoDeleteResolved
  split
  · refine timersKept_trans ?_ (clearUndo_kept _)
    exact ⟨fun _ h => h, rfl, rfl⟩
  · exact fetchEmails_kept _ _ _ _ _ _ _

theorem commit_kept (before after : AppState) : TimersKept after (commit before after) := by
  unfold commit
  split <;> exact ⟨fun _ h => h, rfl, rfl⟩

theorem handleEmailSelect_kept (s : AppState) (email : Email) :
    TimersKept s (handleEmailSelect s email) := by
  unfold handleEmailSelect
  split <;> exact ⟨fun _ h => h, rfl, rfl⟩

theorem performSearch_kept (s : AppState) (accessToken : Option String)
    (currentFolder query : String) (folder : Option String) (searchAll : Bool) :
    TimersKept s (performSearch s accessToken currentFolder query folder searchAll) := by
  unfold performSearch
  split <;> exact ⟨fun _ h => h, rfl, rfl⟩

theorem performSearchRejected_kept (s : AppState) (query : String) (folder : Option String)
    (searchAll : Bool) (currentFolder message : String) :
    TimersKept s (performSearchRejected s query folder searchAll currentFolder message) := by
  unfold performSearchRejected
  split
  · split <;> exact ⟨fun _ h => h, rfl, rfl⟩
  · exact ⟨fun _ h => h, rfl, rfl⟩

theorem timerCallback_kept (s : AppState) (action : TimerAction) :
    TimersKept s (timerCallback s action) := by
  cases action with
  | clearUndo => exact ⟨fun _ h => h, rfl, rfl⟩
  | search query searchAll accessToken currentFolder => exact performSearch_kept s _ _ _ _ _

theorem fail_kept (s : AppState) (p : Pending) (message : String) :
    TimersKept s (fail s p message) := by
  cases p with
  | fetchEmails showLoading append after =>
    exact timersKept_trans (fetchEmailsFinally_kept s showLoading) (afterFetch_kept _ _)
  | searchEmails query folder searchAll currentFolder =>
    exact performSearchRejected_kept s query folder searchAll currentFolder message
  | _ => exact ⟨fun _ h => h, rfl, rfl⟩

theorem setTimeout_search_inv (s : AppState) (query : String) (searchAll : Bool)
    (token : Option String) (folder : String) (delay : Nat) (ref : Option Nat)
    (h : UndoTimerInv s) :
    UndoTimerInv
      { setTimeout s (TimerAction.search query searchAll token folder) delay with
        searchTimeoutRef := ref } := by
  refine ⟨Nat.succ_pos _, ?_⟩
  intro t ht
  have ht' : t ∈ s.timers ++
      [{ id := s.nextTimerId, delay := delay,
         action := TimerAction.search query searchAll token folder }] :=
    ht
  rcases List.mem_append.mp ht' with hold | hnew
  · exact h.2 t hold
  · rw [List.mem_singleton.mp hnew]
    exact ⟨h.1, fun ha => by cases ha⟩

theorem handleSearchChange_inv (s : AppState) (query : String) (searchAll : Bool)
    (h : UndoTimerInv s) : UndoTimerInv (handleSearchChange s query searchAll) := by
  have h1 : UndoTimerInv (clearTimeoutRef
      { s with searchQuery := query, searchAllFolders := searchAll } s.searchTimeoutRef) :=
    undoTimerInv_kept h (timersKept_trans ⟨fun _ h => h, rfl, rfl⟩ (clearTimeoutRef_kept _ _))
  unfold handleSearchChange
  split
  · exact undoTimerInv_kept h1 ⟨fun _ h => h, rfl, rfl⟩
  · exact setTimeout_search_inv _ query searchAll _ _ 500 _ h1

theorem handleSearchAllFoldersChange_inv (s : AppState) (checked : Bool)
    (h : UndoTimerInv s) : UndoTimerInv (handleSearchAllFoldersChange s checked) := by
  unfold handleSearchAllFoldersChange
  split
  · exact handleSearchChange_inv _ _ _ (undoTimerInv_kept h ⟨fun _ h => h, rfl, rfl⟩)
  · exact undoTimerInv_kept h ⟨fun _ h => h, rfl, rfl⟩

/-- Once the timer `undoTimeoutRef` holds is cleared, no pending timer clears the Undo
Record. -/
theorem no_undo_timer_after_clear (s : AppState) (h : UndoTimerInv s) :
    ∀ t ∈ (clearTimeoutRef s s.undoTimeoutRef).timers, t.action ≠ TimerAction.clearUndo := by
  intro t ht ha
  unfold clearTimeoutRef at ht
  split at ht
  · rename_i id href
    split at ht
    · have hmem := List.mem_filter.mp ht
      have hid := (h.2 t hmem.1).2 ha
      rw [href] at hid
      have : t.id = id := (Option.some.inj hid).symm
      simp [this] at hmem
    · rename_i hz
      have hid := (h.2 t ht).2 ha
      rw [href] at hid
      have hpos := (h.2 t ht).1
      have : t.id = id := (Option.some.inj hid).symm
      simp [← this] at hz
      omega
  · rename_i href
    have hid := (h.2 t ht).2 ha
    rw [href] at hid
    cases hid

theorem handleDeleteEmailResolved_timers (s : AppState) (emailId : String)
    (emailToDelete : Email) (currentFolder : String) (now : Nat) :
    (handleDeleteEmailResolved s emailId emailToDelete currentFolder now).timers
      = (clearTimeoutRef s s.undoTimeoutRef).timers ++
        [{ id := s.nextTimerId, delay := 5000, action := TimerAction.clearUndo }] := by
  unfold handleDeleteEmailResolved setTimeout clearTimeoutRef clearTimeout
  cases s.undoTimeoutRef with
  | none => rfl
  | some id => by_cases hz : (id != 0) = true <;> simp [hz]

theorem handleDeleteEmailResolved_ref (s : AppState) (emailId : String)
    (emailToDelete : Email) (currentFolder : String) (now : Nat) :
    (handleDeleteEmailResolved s emailId emailToDelete currentFolder now).undoTimeoutRef
      = some s.nextTimerId ∧
    (handleDeleteEmailResolved s emailId emailToDelete currentFolder now).nextTimerId
      = s.nextTimerId + 1 := by
  unfold handleDeleteEmailResolved setTimeout clearTimeoutRef clearTimeout
  cases s.undoTimeoutRef with
  | none => exact ⟨rfl, rfl⟩
  | some id => by_cases hz : (id != 0) = true <;> simp [hz]

theorem handleDeleteEmailResolved_inv (s : AppState) (emailId : String)
    (emailToDelete : Email) (currentFolder : String) (now : Nat) (h : UndoTimerInv s) :
    UndoTimerInv (handleDeleteEmailResolved s emailId emailToDelete currentFolder now) := by
  obtain ⟨href, hnext⟩ :=
    handleDeleteEmailResolved_ref s emailId emailToDelete currentFolder now
  refine ⟨by rw [hnext]; exact Nat.succ_pos _, ?_⟩
  intro t ht
  rw [handleDeleteEmailResolved_timers] at ht
  rcases List.mem_append.mp ht with hold | hnew
  · refine ⟨((undoTimerInv_kept h (clearTimeoutRef_kept s s.undoTimeoutRef)).2 t hold).1, ?_⟩
    intro ha
    exact absurd ha (no_undo_timer_after_clear s h t hold)
  · rw [List.mem_singleton.mp hnew]
    exact ⟨h.1, fun _ => href⟩

theorem resume_inv (s : AppState) (p : Pending) (value : Option (List Email)) (now : Nat)
    (h : UndoTimerInv s) : UndoTimerInv (resume s p value now) := by
  cases p with
  | fetchEmails showLoading append after =>
    exact undoTimerInv_kept h
      (timersKept_trans (fetchEmailsResolved_kept s showLoading append value now)
        (afterFetch_kept _ _))
  | deleteEmail emailId emailToDelete currentFolder =>
    exact handleDeleteEmailResolved_inv s emailId emailToDelete currentFolder now h
  | restoreEmail undoInfo currentFolder currentSkip =>
    exact undoTimerInv_kept h (handleUndoDeleteResolved_kept s undoInfo currentFolder currentSkip)
  | sendEmail currentFolder currentSkip =>
    refine undoTimerInv_kept h (timersKept_trans ?_ (fetchEmails_kept _ _ _ _ _ _ _))
    exact ⟨fun _ h => h, rfl, rfl⟩
  | _ => exact undoTimerInv_kept h ⟨fun _ h => h, rfl, rfl⟩

theorem handle_inv (s : AppState) (ev : Event) (h : UndoTimerInv s) :
    UndoTimerInv (handle s ev) := by
  cases ev with
  | tokenAcquired token =>
    simp only [handle]
    split
    · split
      · refine undoTimerInv_kept h (timersKept_trans ?_ (fetchEmails_kept _ _ _ _ _ _ _))
        exact ⟨fun _ h => h, rfl, rfl⟩
      · exact undoTimerInv_kept h ⟨fun _ h => h, rfl, rfl⟩
    · exact h
  | refreshTick => exact undoTimerInv_kept h (checkForNewEmails_kept s)
  | clickFolder folder =>
    simp only [handle, handleFolderClick]
    split
    · exact h
    · split
      · split
        · exact h
        · exact undoTimerInv_kept h (handleRefresh_kept s)
      · exact undoTimerInv_kept h (handleFolderChange_kept s folder)
  | scrollToEnd =>
    simp only [handle]
    split
    · exact h
    · exact undoTimerInv_kept h (loadMoreEmails_kept s)
  | typeSearch query =>
    simp only [handle]
    split
    · exact h
    · exact handleSearchChange_inv s query _ h
  | toggleSearchAll checked =>
    simp only [handle]
    split
    · exact h
    · exact handleSearchAllFoldersChange_inv s checked h
  | clearSearch =>
    simp only [handle]
    split
    · exact h
    · exact undoTimerInv_kept h (handleClearSearch_kept s)
  | clickEmail email =>
    simp only [handle]
    split
    · exact h
    · exact undoTimerInv_kept h (handleEmailSelect_kept s email)
  | clickDelete emailId =>
    simp only [handle]
    split
    · exact h
    · exact undoTimerInv_kept h (handleDeleteEmail_kept s emailId)
  | clickUndo =>
    simp only [handle]
    split
    · exact h
    · exact undoTimerInv_kept h (handleUndoDelete_kept s)
  | dismiss =>
    simp only [handle]
    split
    · exact h
    · exact undoTimerInv_kept h (clearUndo_kept s)
  | clickBadge =>
    simp only [handle]
    split
    · exact h
    · exact undoTimerInv_kept h ⟨fun _ h => h, rfl, rfl⟩
  | clickCompose =>
    simp only [handle]
    split
    · exact h
    · exact undoTimerInv_kept h ⟨fun _ h => h, rfl, rfl⟩
  | cancelCompose =>
    simp only [handle]
    split
    · exact h
    · exact undoTimerInv_kept h ⟨fun _ h => h, rfl, rfl⟩
  | clickSend =>
    simp only [handle]
    split
    · exact h
    · exact undoTimerInv_kept h ⟨fun _ h => h, rfl, rfl⟩
  | timerFires id =>
    simp only [handle]
    split
    · exact undoTimerInv_kept h
        (timersKept_trans (clearTimeout_kept s id) (timerCallback_kept _ _))
    · exact h
  | resolved p value now =>
    simp only [handle]
    split
    · exact resume_inv _ p value now (undoTimerInv_kept h ⟨fun _ h => h, rfl, rfl⟩)
    · exact h
  | rejected p message =>
    simp only [handle]
    split
    · refine undoTimerInv_kept h (timersKept_trans ?_ (fail_kept _ p message))
      exact ⟨fun _ h => h, rfl, rfl⟩
    · exact h
  | resolvedAll p inbox sent drafts =>
    simp only [handle]
    split
    · split
      · exact undoTimerInv_kept h ⟨fun _ h => h, rfl, rfl⟩
      · exact h
    · exact h

theorem step_inv (s : AppState) (ev : Event) (h : UndoTimerInv s) :
    UndoTimerInv (step s ev) :=
  undoTimerInv_kept (handle_inv s ev h) (commit_kept s _)

theorem run_inv (evs : List Event) (s : AppState) (h : UndoTimerInv s) :
    UndoTimerInv (run s evs) := by
  induction evs generalizing s with
  | nil => exact h
  | cons ev rest ih => exact ih (step s ev) (step_inv s ev h)

/-- In every reachable state the only pending timer that clears the Undo Record, if any,
is the one `undoTimeoutRef` holds. -/
theorem reachable_inv (s : AppState) (h : Reachable s) : UndoTimerInv s := by
  obtain ⟨evs, rfl⟩ := h
  apply run_inv
  exact ⟨Nat.one_pos, fun t ht => by cases ht⟩

@[simp] theorem commit_undoInfo (before after : AppState) :
    (commit before after).undoInfo = after.undoInfo := by
  unfold commit; split <;> rfl

@[simp] theorem commit_timers (before after : AppState) :
    (commit before after).timers = after.timers := by
  unfold commit; split <;> rfl

@[simp] theorem commit_undoTimeoutRef (before after : AppState) :
    (commit before after).undoTimeoutRef = after.undoTimeoutRef := by
  unfold commit; split <;> rfl

theorem handleDeleteEmailResolved_undoInfo (s : AppState) (emailId : String)
    (emailToDelete : Email) (currentFolder : String) (now : Nat) :
    (handleDeleteEmailResolved s emailId emailToDelete currentFolder now).undoInfo
      = some { emailId := emailId, email := emailToDelete, folder := currentFolder,
               timestamp := now } := by
  unfold handleDeleteEmailResolved setTimeout clearTimeoutRef clearTimeout
  cases s.undoTimeoutRef with
  | none => rfl
  | some id => by_cases hz : (id != 0) = true <;> simp [hz]

theorem handleDeleteEmailResolved_undoTimers (s : AppState) (emailId : String)
    (emailToDelete : Email) (currentFolder : String) (now : Nat) (h : UndoTimerInv s) :
    undoTimers (handleDeleteEmailResolved s emailId emailToDelete currentFolder now)
      = [{ id := s.nextTimerId, delay := 5000, action := TimerAction.clearUndo }] := by
  unfold undoTimers
  rw [handleDeleteEmailResolved_timers, List.filter_append]
  have hnone : (clearTimeoutRef s s.undoTimeoutRef).timers.filter
      (fun t => t.action == TimerAction.clearUndo) = [] := by
    rw [List.filter_eq_nil_iff]
    intro t ht
    simpa using no_undo_timer_after_clear s h t ht
  rw [hnone]
  rfl

/-- C10: let `handleDeleteEmail x` be called in a state where `A` is the message of id `x`
it finds and `currentFolder` is the folder viewed, and let the remote delete resolve in any
reachable state.  Then the Undo Record is exactly the snapshot `A`, its id `x` and that
folder, whatever record was live before; exactly one timer that clears the record is
pending, the new one of 5000 ms; and `undoTimeoutRef` holds it. -/
theorem C10_delete_success_undo_record (s₀ s : AppState) (x : String) (A : Email)
    (value : Option (List Email)) (now : Nat)
    (htoken : truthy s₀.accessToken = true)
    (hfind : s₀.emails.find? (fun e => e.id == x) = some A)
    (hs : Reachable s)
    (hp : Pending.deleteEmail x A s₀.currentFolder ∈ s.inflight) :
    (handleDeleteEmail s₀ x).inflight
      = s₀.inflight ++ [Pending.deleteEmail x A s₀.currentFolder] ∧
    A ∈ s₀.emails ∧ A.id = x ∧
    (step s (Event.resolved (Pending.deleteEmail x A s₀.currentFolder) value now)).undoInfo
      = some { emailId := x, email := A, folder := s₀.currentFolder, timestamp := now } ∧
    undoTimers (step s (Event.resolved (Pending.deleteEmail x A s₀.currentFolder) value now))
      = [{ id := s.nextTimerId, delay := 5000, action := TimerAction.clearUndo }] ∧
    (step s (Event.resolved (Pending.deleteEmail x A s₀.currentFolder) value now)
      ).undoTimeoutRef = some s.nextTimerId := by
  obtain ⟨hmem, hid⟩ := find_id s₀.emails x A hfind
  have hinv : UndoTimerInv { s with
      inflight := s.inflight.erase (Pending.deleteEmail x A s₀.currentFolder) } :=
    undoTimerInv_kept (reachable_inv s hs) ⟨fun _ h => h, rfl, rfl⟩
  have hstep : step s (Event.resolved (Pending.deleteEmail x A s₀.currentFolder) value now)
      = commit s (handleDeleteEmailResolved
          { s with inflight := s.inflight.erase (Pending.deleteEmail x A s₀.currentFolder) }
          x A s₀.currentFolder now) := by
    simp [step, handle, hp, resume, Pending.isAll]
  refine ⟨?_, hmem, hid, ?_, ?_, ?_⟩
  · simp [handleDeleteEmail, htoken, hfind]
  · rw [hstep, commit_undoInfo, handleDeleteEmailResolved_undoInfo]
  · rw [hstep]
    unfold undoTimers
    rw [commit_timers]
    exact handleDeleteEmailResolved_undoTimers _ x A s₀.currentFolder now hinv
  · rw [hstep, commit_undoTimeoutRef]
    exact (handleDeleteEmailResolved_ref _ x A s₀.currentFolder now).1

/-- C10, witness: `b` is deleted while the Undo Record of `a` is live and its timer, of
id 1, is pending; when the delete of `b` resolves the record is that of `b` and the one
pending undo timer is the new one, of id 2. -/
theorem C10_delete_success_undo_record_witness :
    truthy deletedOne.accessToken = true ∧
    deletedOne.emails.find? (fun e => e.id == "b") = some (mkEmail "b" 1) ∧
    Reachable deletingSecond ∧
    Pending.deleteEmail "b" (mkEmail "b" 1) deletedOne.currentFolder
      ∈ deletingSecond.inflight ∧
    deletingSecond.undoInfo
      = some { emailId := "a", email := mkEmail "a" 2, folder := "inbox", timestamp := 5 } ∧
    undoTimers deletingSecond
      = [{ id := 1, delay := 5000, action := TimerAction.clearUndo }] ∧
    (step deletingSecond
      (Event.resolved (Pending.deleteEmail "b" (mkEmail "b" 1) deletedOne.currentFolder)
        none 7)).undoInfo
      = some { emailId := "b", email := mkEmail "b" 1, folder := deletedOne.currentFolder,
               timestamp := 7 } ∧
    undoTimers (step deletingSecond
      (Event.resolved (Pending.deleteEmail "b" (mkEmail "b" 1) deletedOne.currentFolder)
        none 7))
      = [{ id := deletingSecond.nextTimerId, delay := 5000,
           action := TimerAction.clearUndo }] :=
  have hreach : Reachable deletingSecond :=
    ⟨[Event.tokenAcquired "token",
      Event.resolved (Pending.fetchEmails false false AfterFetch.initializeApp)
        (some [mkEmail "a" 2, mkEmail "b" 1]) 0,
      Event.clickDelete "a",
      Event.resolved (Pending.deleteEmail "a" (mkEmail "a" 2) "inbox") none 5,
      Event.clickDelete "b"], rfl⟩
  have hconcl := C10_delete_success_undo_record deletedOne deletingSecond "b"
    (mkEmail "b" 1) none 7 (by decide) (by decide) hreach (by decide)
  ⟨by decide, by decide, hreach, by decide, by decide, by decide,
   hconcl.2.2.2.1, hconcl.2.2.2.2.1⟩

/-! ## The query the background refresh sees -/

theorem quiet_refl (s : AppState) : Quiet s s := ⟨rfl, rfl, rfl, rfl, fun h => h⟩

theorem quiet_trans {s₁ s₂ s₃ : AppState} (h₁ : Quiet s₁ s₂) (h₂ : Quiet s₂ s₃) :
    Quiet s₁ s₃ :=
  ⟨h₂.1.trans h₁.1, h₂.2.1.trans h₁.2.1, h₂.2.2.1.trans h₁.2.2.1,
   h₂.2.2.2.1.trans h₁.2.2.2.1, fun h => h₁.2.2.2.2 (h₂.2.2.2.2 h)⟩

theorem memoInv_quiet {s s' : AppState} (h : MemoInv s) (hq : Quiet s s') :
    MemoInv (commit s s') := by
  unfold commit
  rw [if_pos ⟨hq.1, hq.2.1⟩]
  refine ⟨hq.2.2.1.trans h.1, fun hl => ?_⟩
  rw [hq.2.2.2.1]
  exact h.2 (hq.2.2.2.2 hl)

theorem clearTimeoutRef_quiet (s : AppState) (ref : Option Nat) :
    Quiet s (clearTimeoutRef s ref) := by
  unfold clearTimeoutRef
  split
  · split <;> exact ⟨rfl, rfl, rfl, rfl, fun h => h⟩
  · exact quiet_refl s

theorem fetchEmails_quiet (s : AppState) (k : Int) (f : String) (showLoading append : Bool)
    (folder : Option String) (after : AfterFetch) :
    Quiet s (fetchEmails s k f showLoading append folder after) := by
  cases showLoading <;> exact ⟨rfl, rfl, rfl, rfl, fun h => h⟩

theorem fetchEmailsFinally_quiet (s : AppState) (showLoading : Bool) :
    Quiet s (fetchEmailsFinally s showLoading) := by
  cases showLoading <;> exact ⟨rfl, rfl, rfl, rfl, fun h => h⟩

theorem fetchEmailsResolved_quiet (s : AppState) (showLoading append : Bool)
    (value : Option (List Email)) (now : Nat) :
    Quiet s (fetchEmailsResolved s showLoading append value now) := by
  cases showLoading <;> cases append <;> exact ⟨rfl, rfl, rfl, rfl, fun h => h⟩

theorem checkForNewEmails_quiet (s : AppState) : Quiet s (checkForNewEmails s) := by
  unfold checkForNewEmails
  split <;> exact ⟨rfl, rfl, rfl, rfl, fun h => h⟩

theorem loadMoreEmails_quiet (s : AppState) : Quiet s (loadMoreEmails s) := by
  unfold loadMoreEmails
  split <;> exact ⟨rfl, rfl, rfl, rfl, fun h => h⟩

theorem clearUndo_quiet (s : AppState) : Quiet s (clearUndo s) := by
  unfold clearUndo
  refine quiet_trans ?_ (clearTimeoutRef_quiet _ _)
  exact ⟨rfl, rfl, rfl, rfl, fun h => h⟩

theorem handleRefresh_quiet (s : AppState) : Quiet s (handleRefresh s) := by
  unfold handleRefresh
  split
  · refine quiet_trans ?_ (fetchEmails_quiet _ _ _ _ _ _ _)
    exact ⟨rfl, rfl, rfl, rfl, fun h => h⟩
  · exact quiet_refl s

theorem handleDeleteEmail_quiet (s : AppState) (emailId : String) :
    Quiet s (handleDeleteEmail s emailId) := by
  unfold handleDeleteEmail
  split
  · exact ⟨rfl, rfl, rfl, rfl, fun h => h⟩
  · split <;> exact ⟨rfl, rfl, rfl, rfl, fun h => h⟩

theorem handleDeleteEmailResolved_quiet (s : AppState) (emailId : String)
    (emailToDelete : Email) (currentFolder : String) (now : Nat) :
    Quiet s (handleDeleteEmailResolved s emailId emailToDelete currentFolder now) := by
  unfold handleDeleteEmailResolved setTimeout clearTimeoutRef clearTimeout
  cases s.undoTimeoutRef with
  | none => exact ⟨rfl, rfl, rfl, rfl, fun h => h⟩
  | some id =>
    by_cases hz : (id != 0) = true
    · simp only [hz, if_true]
      exact ⟨rfl, rfl, rfl, rfl, fun h => h⟩
    · simp only [hz]
      exact ⟨rfl, rfl, rfl, rfl, fun h => h⟩

theorem handleUndoDelete_quiet (s : AppState) : Quiet s (handleUndoDelete s) := by
  unfold handleUndoDelete
  split
  · exact quiet_refl s
  · split <;> exact ⟨rfl, rfl, rfl, rfl, fun h => h⟩

theorem handleUndoDeleteResolved_quiet (s : AppState) (undoInfo : UndoInfo)
    (currentFolder : String) (currentSkip : Int) :
    Quiet s (handleUndoDeleteResolved s undoInfo currentFolder currentSkip) := by
  unfold handleUndoDeleteResolved
  split
  · refine quiet_trans ?_ (clearUndo_quiet _)
    exact ⟨rfl, rfl, rfl, rfl, fun h => h⟩
  · exact fetchEmails_quiet _ _ _ _ _ _ _

theorem handleEmailSelect_quiet (s : AppState) (email : Email) :
    Quiet s (handleEmailSelect s email) := by
  unfold handleEmailSelect
  split <;> exact ⟨rfl, rfl, rfl, rfl, fun h => h⟩

theorem performSearch_quiet (s : AppState) (accessToken : Option String)
    (currentFolder query : String) (folder : Option String) (searchAll : Bool) :
    Quiet s (performSearch s accessToken currentFolder query folder searchAll) := by
  unfold performSearch
  split <;> exact ⟨rfl, rfl, rfl, rfl, fun h => h⟩

theorem performSearchRejected_quiet (s : AppState) (query : String) (folder : Option String)
    (searchAll : Bool) (currentFolder message : String) :
    Quiet s (performSearchRejected s query folder searchAll currentFolder message) := by
  unfold performSearchRejected
  split
  · split <;> exact ⟨rfl, rfl, rfl, rfl, fun h => h⟩
  · exact ⟨rfl, rfl, rfl, rfl, fun h => h⟩

theorem timerCallback_quiet (s : AppState) (action : TimerAction) :
    Quiet s (timerCallback s action) := by
  cases action with
  | clearUndo => exact ⟨rfl, rfl, rfl, rfl, fun h => h⟩
  | search query searchAll accessToken currentFolder => exact performSearch_quiet s _ _ _ _ _

theorem afterFetch_quiet (s : AppState) (after : AfterFetch) :
    Quiet s (afterFetch s after) := by
  cases after
  · exact quiet_refl s
  · exact ⟨rfl, rfl, rfl, rfl, fun h => by cases h⟩
  · exact clearUndo_quiet s

theorem resume_quiet (s : AppState) (p : Pending) (value : Option (List Email)) (now : Nat) :
    Quiet s (resume s p value now) := by
  cases p with
  | fetchEmails showLoading append after =>
    exact quiet_trans (fetchEmailsResolved_quiet s showLoading append value now)
      (afterFetch_quiet _ _)
  | deleteEmail emailId emailToDelete currentFolder =>
    exact handleDeleteEmailResolved_quiet s emailId emailToDelete currentFolder now
  | restoreEmail undoInfo currentFolder currentSkip =>
    exact handleUndoDeleteResolved_quiet s undoInfo currentFolder currentSkip
  | sendEmail currentFolder currentSkip =>
    refine quiet_trans ?_ (fetchEmails_quiet _ _ _ _ _ _ _)
    exact ⟨rfl, rfl, rfl, rfl, fun h => h⟩
  | _ => exact ⟨rfl, rfl, rfl, rfl, fun h => h⟩

theorem fail_quiet (s : AppState) (p : Pending) (message : String) :
    Quiet s (fail s p message) := by
  cases p with
  | fetchEmails showLoading append after =>
    exact quiet_trans (fetchEmailsFinally_quiet s showLoading) (afterFetch_quiet _ _)
  | searchEmails query folder searchAll currentFolder =>
    exact performSearchRejected_quiet s query folder searchAll currentFolder message
  | _ => exact ⟨rfl, rfl, rfl, rfl, fun h => h⟩

/-- The render after a handler that left the closure's query empty and either kept the
token and the folder or left the query empty. -/
theorem memoInv_commit {s s' : AppState} (hm : s'.memoSearchQuery = "")
    (hl : s'.loading = true → s'.searchQuery = "")
    (hd : (s'.accessToken = s.accessToken ∧ s'.currentFolder = s.currentFolder) ∨
      s'.searchQuery = "") : MemoInv (commit s s') := by
  unfold commit
  split
  · exact ⟨hm, hl⟩
  · rename_i hne
    rcases hd with hd | hd
    · exact absurd hd hne
    · exact ⟨hd, fun _ => hd⟩

theorem clearTimeoutRef_loading (s : AppState) (ref : Option Nat) :
    (clearTimeoutRef s ref).loading = s.loading := by
  unfold clearTimeoutRef clearTimeout
  split
  · split <;> rfl
  · rfl

theorem fetchEmails_loading (s : AppState) (k : Int) (f : String)
    (showLoading append : Bool) (folder : Option String) (after : AfterFetch) :
    (fetchEmails s k f showLoading append folder after).loading = s.loading := by
  cases showLoading <;> rfl

theorem handleClearSearch_loading (s : AppState) :
    (handleClearSearch s).loading = s.loading := by
  unfold handleClearSearch
  rw [clearTimeoutRef_loading]

theorem handleSearchChange_frame (s : AppState) (query : String) (searchAll : Bool) :
    (handleSearchChange s query searchAll).accessToken = s.accessToken ∧
    (handleSearchChange s query searchAll).currentFolder = s.currentFolder ∧
    (handleSearchChange s query searchAll).memoSearchQuery = s.memoSearchQuery ∧
    (handleSearchChange s query searchAll).loading = s.loading := by
  have h := clearTimeoutRef_quiet
    { s with searchQuery := query, searchAllFolders := searchAll } s.searchTimeoutRef
  have hl : (clearTimeoutRef { s with searchQuery := query, searchAllFolders := searchAll }
      s.searchTimeoutRef).loading = s.loading := by
    rw [clearTimeoutRef_loading]
  unfold handleSearchChange
  split
  · exact ⟨h.1, h.2.1, h.2.2.1, hl⟩
  · exact ⟨h.1, h.2.1, h.2.2.1, hl⟩

theorem handleClearSearch_frame (s : AppState) :
    (handleClearSearch s).accessToken = s.accessToken ∧
    (handleClearSearch s).currentFolder = s.currentFolder ∧
    (handleClearSearch s).memoSearchQuery = s.memoSearchQuery ∧
    (handleClearSearch s).searchQuery = "" := by
  have h := clearTimeoutRef_quiet
    { s with searchQuery := "", searchResults := [], isSearching := false,
             searchAllFolders := false } s.searchTimeoutRef
  exact ⟨h.1, h.2.1, h.2.2.1, h.2.2.2.1⟩

theorem folderSwitch_frame (t : AppState) (k : Int) (f : String) (folder : Option String)
    (after : AfterFetch) :
    (fetchEmails (handleClearSearch t) k f true false folder after).memoSearchQuery
      = t.memoSearchQuery ∧
    (fetchEmails (handleClearSearch t) k f true false folder after).searchQuery = "" ∧
    (fetchEmails (handleClearSearch t) k f true false folder after).loading = t.loading := by
  have h₁ := fetchEmails_quiet (handleClearSearch t) k f true false folder after
  have h₂ := handleClearSearch_frame t
  refine ⟨h₁.2.2.1.trans h₂.2.2.1, h₁.2.2.2.1.trans h₂.2.2.2, ?_⟩
  rw [fetchEmails_loading, handleClearSearch_loading]

theorem handleFolderChange_frame (s : AppState) (folder : String) :
    (handleFolderChange s folder).memoSearchQuery = s.memoSearchQuery ∧
    (handleFolderChange s folder).loading = s.loading ∧
    (((handleFolderChange s folder).accessToken = s.accessToken ∧
      (handleFolderChange s folder).currentFolder = s.currentFolder ∧
      (handleFolderChange s folder).searchQuery = s.searchQuery) ∨
     (handleFolderChange s folder).searchQuery = "") := by
  unfold handleFolderChange
  split
  · exact ⟨(folderSwitch_frame _ _ _ _ _).1, (folderSwitch_frame _ _ _ _ _).2.2,
      Or.inr (folderSwitch_frame _ _ _ _ _).2.1⟩
  · exact ⟨rfl, rfl, Or.inl ⟨rfl, rfl, rfl⟩⟩

theorem step_memo (s : AppState) (ev : Event) (h : MemoInv s) : MemoInv (step s ev) := by
  unfold step
  cases ev with
  | tokenAcquired token =>
    simp only [handle]
    split
    · rename_i hg
      have hload : s.loading = true := by
        simp only [Bool.and_eq_true] at hg
        exact hg.1
      split
      · have hq := fetchEmails_quiet { s with accessToken := some token } s.currentSkip
          s.currentFolder false false (some "inbox") AfterFetch.initializeApp
        exact memoInv_commit (hq.2.2.1.trans h.1) (fun _ => hq.2.2.2.1.trans (h.2 hload))
          (Or.inr (hq.2.2.2.1.trans (h.2 hload)))
      · exact memoInv_quiet h ⟨rfl, rfl, rfl, rfl, fun hl => by cases hl⟩
    · exact memoInv_quiet h (quiet_refl s)
  | refreshTick => exact memoInv_quiet h (checkForNewEmails_quiet s)
  | clickFolder folder =>
    simp only [handle, handleFolderClick]
    split
    · exact memoInv_quiet h (quiet_refl s)
    · rename_i hg
      have hload : s.loading = false := by
        cases hl : s.loading
        · rfl
        · simp [hl] at hg
      split
      · split
        · exact memoInv_quiet h (quiet_refl s)
        · exact memoInv_quiet h (handleRefresh_quiet s)
      · obtain ⟨hm, hl', hd⟩ := handleFolderChange_frame s folder
        refine memoInv_commit (hm.trans h.1) (fun hl => ?_) ?_
        · rw [hl', hload] at hl
          cases hl
        · rcases hd with hd | hd
          · exact Or.inl ⟨hd.1, hd.2.1⟩
          · exact Or.inr hd
  | scrollToEnd =>
    simp only [handle]
    split
    · exact memoInv_quiet h (quiet_refl s)
    · exact memoInv_quiet h (loadMoreEmails_quiet s)
  | typeSearch query =>
    simp only [handle]
    split
    · exact memoInv_quiet h (quiet_refl s)
    · rename_i hg
      obtain ⟨ha, hf, hm, hl⟩ := handleSearchChange_frame s query s.searchAllFolders
      refine memoInv_commit (hm.trans h.1) (fun hl' => ?_) (Or.inl ⟨ha, hf⟩)
      rw [hl] at hl'
      exact absurd hl' hg
  | toggleSearchAll checked =>
    simp only [handle, handleSearchAllFoldersChange]
    split
    · exact memoInv_quiet h (quiet_refl s)
    · rename_i hg
      split
      · obtain ⟨ha, hf, hm, hl⟩ := handleSearchChange_frame
          { s with searchAllFolders := checked } s.searchQuery checked
        refine memoInv_commit (hm.trans h.1) (fun hl' => ?_) (Or.inl ⟨ha, hf⟩)
        rw [hl] at hl'
        exact absurd hl' hg
      · exact memoInv_quiet h ⟨rfl, rfl, rfl, rfl, fun hl => hl⟩
  | clearSearch =>
    simp only [handle]
    split
    · exact memoInv_quiet h (quiet_refl s)
    · obtain ⟨ha, hf, hm, hq⟩ := handleClearSearch_frame s
      exact memoInv_commit (hm.trans h.1) (fun _ => hq) (Or.inr hq)
  | clickEmail email =>
    simp only [handle]
    split
    · exact memoInv_quiet h (quiet_refl s)
    · exact memoInv_quiet h (handleEmailSelect_quiet s email)
  | clickDelete emailId =>
    simp only [handle]
    split
    · exact memoInv_quiet h (quiet_refl s)
    · exact memoInv_quiet h (handleDeleteEmail_quiet s emailId)
  | clickUndo =>
    simp only [handle]
    split
    · exact memoInv_quiet h (quiet_refl s)
    · exact memoInv_quiet h (handleUndoDelete_quiet s)
  | dismiss =>
    simp only [handle]
    split
    · exact memoInv_quiet h (quiet_refl s)
    · exact memoInv_quiet h (clearUndo_quiet s)
  | clickBadge =>
    simp only [handle]
    split
    · exact memoInv_quiet h (quiet_refl s)
    · exact memoInv_quiet h ⟨rfl, rfl, rfl, rfl, fun hl => hl⟩
  | clickCompose =>
    simp only [handle]
    split
    · exact memoInv_quiet h (quiet_refl s)
    · exact memoInv_quiet h ⟨rfl, rfl, rfl, rfl, fun hl => hl⟩
  | cancelCompose =>
    simp only [handle]
    split
    · exact memoInv_quiet h (quiet_refl s)
    · exact memoInv_quiet h ⟨rfl, rfl, rfl, rfl, fun hl => hl⟩
  | clickSend =>
    simp only [handle]
    split
    · exact memoInv_quiet h (quiet_refl s)
    · exact memoInv_quiet h ⟨rfl, rfl, rfl, rfl, fun hl => hl⟩
  | timerFires id =>
    simp only [handle]
    split
    · refine memoInv_quiet h (quiet_trans ?_ (timerCallback_quiet _ _))
      exact ⟨rfl, rfl, rfl, rfl, fun hl => hl⟩
    · exact memoInv_quiet h (quiet_refl s)
  | resolved p value now =>
    simp only [handle]
    split
    · refine memoInv_quiet h (quiet_trans ?_ (resume_quiet _ p value now))
      exact ⟨rfl, rfl, rfl, rfl, fun hl => hl⟩
    · exact memoInv_quiet h (quiet_refl s)
  | rejected p message =>
    simp only [handle]
    split
    · refine memoInv_quiet h (quiet_trans ?_ (fail_quiet _ p message))
      exact ⟨rfl, rfl, rfl, rfl, fun hl => hl⟩
    · exact memoInv_quiet h (quiet_refl s)
  | resolvedAll p inbox sent drafts =>
    simp only [handle]
    split
    · split
      · exact memoInv_quiet h ⟨rfl, rfl, rfl, rfl, fun hl => hl⟩
      · exact memoInv_quiet h (quiet_refl s)
    · exact memoInv_quiet h (quiet_refl s)

theorem run_memo (evs : List Event) (s : AppState) (h : MemoInv s) : MemoInv (run s evs) := by
  induction evs generalizing s with
  | nil => exact h
  | cons ev rest ih => exact ih (step s ev) (step_memo s ev h)

/-- In every reachable state the query the memoised `checkForNewEmails` closed over is the
empty one: the callback is only re-created when the token arrives or the folder changes,
and both happen with an empty search box. -/
theorem reachable_memo (s : AppState) (h : Reachable s) : s.memoSearchQuery = "" := by
  obtain ⟨evs, rfl⟩ := h
  exact (run_memo evs initialState ⟨rfl, fun _ => rfl⟩).1

/-- In every reachable state with a token, the inbox viewed and the in-flight flag down,
`checkForNewEmails` sends the inbox request, whatever the search query is. -/
theorem checkForNewEmails_ignores_searchQuery (s : AppState) (hs : Reachable s)
    (htoken : truthy s.accessToken = true) (href : s.isRefreshingRef = false)
    (hfolder : s.currentFolder = "inbox") :
    (checkForNewEmails s).requests = s.requests ++ [Request.getFolderEmails "inbox" 50 0] ∧
    (checkForNewEmails s).inflight = s.inflight ++ [Pending.checkForNewEmails] ∧
    (checkForNewEmails s).isRefreshingRef = true := by
  have hm := reachable_memo s hs
  have ht : trim "" = "" := by decide
  simp [checkForNewEmails, htoken, href, hfolder, hm, ht]

/-- A background refresh is in flight, two folder loads have meanwhile set and cleared the
shared in-flight flag, and the next tick sends a second background request while the first
is still unanswered. -/
theorem background_refresh_overlap :
    Pending.checkForNewEmails ∈ refreshStillPending.inflight ∧
    refreshStillPending.isRefreshingRef = false ∧
    (step refreshStillPending Event.refreshTick).inflight
      = [Pending.checkForNewEmails, Pending.checkForNewEmails] ∧
    (step refreshStillPending Event.refreshTick).requests
      = refreshStillPending.requests ++ [Request.getFolderEmails "inbox" 50 0] := by
  decide

/-! ## Restore -/

theorem clearTimeoutRef_emails (s : AppState) (ref : Option Nat) :
    (clearTimeoutRef s ref).emails = s.emails := by
  unfold clearTimeoutRef clearTimeout
  split
  · split <;> rfl
  · rfl

theorem clearTimeoutRef_undoInfo (s : AppState) (ref : Option Nat) :
    (clearTimeoutRef s ref).undoInfo = s.undoInfo := by
  unfold clearTimeoutRef clearTimeout
  split
  · split <;> rfl
  · rfl

theorem clearUndo_undoInfo (s : AppState) : (clearUndo s).undoInfo = none := by
  unfold clearUndo
  rw [clearTimeoutRef_undoInfo]

theorem clearUndo_emails (s : AppState) : (clearUndo s).emails = s.emails := by
  unfold clearUndo
  rw [clearTimeoutRef_emails]

theorem any_id_iff (l : List Email) (x : String) :
    l.any (fun e => e.id == x) = true ↔ x ∈ ids l := by
  rw [List.any_eq_true]
  constructor
  · rintro ⟨e, he, hid⟩
    exact mem_ids.mpr ⟨e, he, by simpa using hid⟩
  · intro h
    obtain ⟨e, he, hid⟩ := mem_ids.mp h
    exact ⟨e, he, by simpa using hid⟩

/-- The restore in the folder the record names: the snapshot goes to the head unless its
id is in the list, and the record is cleared. -/
theorem handleUndoDeleteResolved_same_folder (s : AppState) (u : UndoInfo) (k : Int) :
    (u.emailId ∉ ids s.emails →
      (handleUndoDeleteResolved s u u.folder k).emails = u.email :: s.emails) ∧
    (u.emailId ∈ ids s.emails →
      (handleUndoDeleteResolved s u u.folder k).emails = s.emails) ∧
    (handleUndoDeleteResolved s u u.folder k).undoInfo = none := by
  unfold handleUndoDeleteResolved
  rw [if_pos rfl]
  refine ⟨fun h => ?_, fun h => ?_, clearUndo_undoInfo _⟩
  · rw [clearUndo_emails]
    have : s.emails.any (fun e => e.id == u.emailId) = false := by
      rw [Bool.eq_false_iff, Ne, any_id_iff]
      exact h
    simp [this]
  · rw [clearUndo_emails]
    have : s.emails.any (fun e => e.id == u.emailId) = true := (any_id_iff _ _).mpr h
    simp [this]

theorem handleDeleteEmailResolved_emails (s : AppState) (emailId : String)
    (emailToDelete : Email) (currentFolder : String) (now : Nat) :
    (handleDeleteEmailResolved s emailId emailToDelete currentFolder now).emails
      = s.emails := by
  unfold handleDeleteEmailResolved setTimeout clearTimeoutRef clearTimeout
  cases s.undoTimeoutRef with
  | none => rfl
  | some id => by_cases hz : (id != 0) = true <;> simp [hz]

theorem deleteConfirmed_facts (s : AppState) (x : String) (A : Email) (now : Nat)
    (htoken : truthy s.accessToken = true)
    (hfind : s.emails.find? (fun e => e.id == x) = some A) :
    (deleteConfirmed s x A now).emails = s.emails.filter (fun e => e.id != x) ∧
    (deleteConfirmed s x A now).undoInfo
      = some { emailId := x, email := A, folder := s.currentFolder, timestamp := now } ∧
    (deleteConfirmed s x A now).accessToken = s.accessToken ∧
    (deleteConfirmed s x A now).currentFolder = s.currentFolder := by
  unfold deleteConfirmed
  have hq := quiet_trans (handleDeleteEmail_quiet s x)
    (handleDeleteEmailResolved_quiet (handleDeleteEmail s x) x A s.currentFolder now)
  refine ⟨?_, handleDeleteEmailResolved_undoInfo _ _ _ _ _, hq.1, hq.2.1⟩
  rw [handleDeleteEmailResolved_emails, handleDeleteEmail_emails s x A htoken hfind]

/-- C11: let `A` be the message `handleDeleteEmail x` found, deleted successfully at time
`now` in the folder viewed.  Then `handleUndoDelete` sends the move of `x` and waits with
that record and that folder; when the move resolves with nothing in between, the list is
the snapshot `A` followed by the messages left after the delete, and the record is
cleared; and whatever list `s` is held when the move resolves, the snapshot goes to its
head when the id `x` is not in it, the list is left as it is when the id is in it, and the
record is cleared. -/
theorem C11_restore_in_originating_folder (s₀ s : AppState) (x : String) (A : Email)
    (now : Nat) (k : Int) (htoken : truthy s₀.accessToken = true)
    (hfind : s₀.emails.find? (fun e => e.id == x) = some A) :
    (handleUndoDelete (deleteConfirmed s₀ x A now)).inflight
      = (deleteConfirmed s₀ x A now).inflight ++
        [Pending.restoreEmail
          { emailId := x, email := A, folder := s₀.currentFolder, timestamp := now }
          s₀.currentFolder (deleteConfirmed s₀ x A now).currentSkip] ∧
    (handleUndoDeleteResolved (handleUndoDelete (deleteConfirmed s₀ x A now))
        { emailId := x, email := A, folder := s₀.currentFolder, timestamp := now }
        s₀.currentFolder k).emails
      = A :: s₀.emails.filter (fun e => e.id != x) ∧
    (handleUndoDeleteResolved (handleUndoDelete (deleteConfirmed s₀ x A now))
        { emailId := x, email := A, folder := s₀.currentFolder, timestamp := now }
        s₀.currentFolder k).undoInfo = none ∧
    (x ∉ ids s.emails →
      (handleUndoDeleteResolved s
        { emailId := x, email := A, folder := s₀.currentFolder, timestamp := now }
        s₀.currentFolder k).emails = A :: s.emails) ∧
    (x ∈ ids s.emails →
      (handleUndoDeleteResolved s
        { emailId := x, email := A, folder := s₀.currentFolder, timestamp := now }
        s₀.currentFolder k).emails = s.emails) ∧
    (handleUndoDeleteResolved s
        { emailId := x, email := A, folder := s₀.currentFolder, timestamp := now }
        s₀.currentFolder k).undoInfo = none := by
  obtain ⟨hemails, hundo, htok, hfolder⟩ := deleteConfirmed_facts s₀ x A now htoken hfind
  have hstart : handleUndoDelete (deleteConfirmed s₀ x A now)
      = { deleteConfirmed s₀ x A now with
          requests := (deleteConfirmed s₀ x A now).requests ++
            [Request.restoreEmail x (destinationFolderId s₀.currentFolder)]
          inflight := (deleteConfirmed s₀ x A now).inflight ++
            [Pending.restoreEmail
              { emailId := x, email := A, folder := s₀.currentFolder, timestamp := now }
              s₀.currentFolder (deleteConfirmed s₀ x A now).currentSkip] } := by
    unfold handleUndoDelete
    rw [hundo]
    simp [htok, htoken, hfolder, hundo]
  have hgen := fun t : AppState => handleUndoDeleteResolved_same_folder t
    { emailId := x, email := A, folder := s₀.currentFolder, timestamp := now } k
  have hnot : x ∉ ids (handleUndoDelete (deleteConfirmed s₀ x A now)).emails := by
    rw [hstart]
    show x ∉ ids (deleteConfirmed s₀ x A now).emails
    rw [hemails]
    intro hx
    obtain ⟨e, he, hid⟩ := mem_ids.mp hx
    have := (List.mem_filter.mp he).2
    simp [hid] at this
  refine ⟨by rw [hstart], ?_, (hgen _).2.2, (hgen s).1, (hgen s).2.1, (hgen s).2.2⟩
  rw [(hgen _).1 hnot, hstart]
  show A :: (deleteConfirmed s₀ x A now).emails = _
  rw [hemails]

/-- C11, witness: `a` is deleted from the loaded inbox `[a, b]`, the delete resolves at
time 5, and the restore in the inbox resolves. -/
theorem C11_restore_in_originating_folder_witness :
    truthy (loadedInbox [mkEmail "a" 2, mkEmail "b" 1]).accessToken = true ∧
    (loadedInbox [mkEmail "a" 2, mkEmail "b" 1]).emails.find? (fun e => e.id == "a")
      = some (mkEmail "a" 2) ∧
    (handleUndoDeleteResolved
        (handleUndoDelete
          (deleteConfirmed (loadedInbox [mkEmail "a" 2, mkEmail "b" 1]) "a" (mkEmail "a" 2) 5))
        { emailId := "a", email := mkEmail "a" 2,
          folder := (loadedInbox [mkEmail "a" 2, mkEmail "b" 1]).currentFolder,
          timestamp := 5 }
        (loadedInbox [mkEmail "a" 2, mkEmail "b" 1]).currentFolder 1).emails
      = mkEmail "a" 2 ::
        (loadedInbox [mkEmail "a" 2, mkEmail "b" 1]).emails.filter (fun e => e.id != "a") ∧
    restoredOne.emails = [mkEmail "a" 2, mkEmail "b" 1] ∧
    restoredOne.undoInfo = none :=
  ⟨by decide, by decide,
   (C11_restore_in_originating_folder (loadedInbox [mkEmail "a" 2, mkEmail "b" 1])
      (loadedInbox [mkEmail "a" 2, mkEmail "b" 1]) "a" (mkEmail "a" 2) 5 1
      (by decide) (by decide)).2.1,
   by decide, by decide⟩

/-- The restore from another folder: once the move resolved the handler requests the
first page of the folder the record names, and the arrival of that page replaces the list,
the cursor and the has-more flag of the view, the folder viewed staying as it is. -/
theorem restore_other_folder_fetches (s t : AppState) (u : UndoInfo) (f : String) (k : Int)
    (page : List Email) (now : Nat) (hf : f ≠ u.folder) (hu : truthy (some u.folder) = true) :
    (handleUndoDeleteResolved s u f k).requests
      = s.requests ++ [Request.getFolderEmails (folderEndpoint u.folder) 50 0] ∧
    (handleUndoDeleteResolved s u f k).inflight
      = s.inflight ++ [Pending.fetchEmails false false AfterFetch.handleUndoDelete] ∧
    (resume t (Pending.fetchEmails false false AfterFetch.handleUndoDelete) (some page)
      now).emails = page ∧
    (resume t (Pending.fetchEmails false false AfterFetch.handleUndoDelete) (some page)
      now).currentSkip = page.length ∧
    (resume t (Pending.fetchEmails false false AfterFetch.handleUndoDelete) (some page)
      now).currentFolder = t.currentFolder := by
  refine ⟨?_, ?_, ?_, ?_, ?_⟩
  · simp [handleUndoDeleteResolved, hf, fetchEmails, hu]
  · simp [handleUndoDeleteResolved, hf, fetchEmails]
  · simp [resume, afterFetch, clearUndo_emails, fetchEmailsResolved, fetchEmailsFinally,
      replaceEmails]
  · rw [resume_currentSkip]
    rfl
  · exact (resume_quiet t _ _ _).2.1

/-- C12, the failing run: `a` was deleted from the inbox, the user went to the drafts,
whose list is `[d]` with the cursor at 1, and clicked Undo.  The move resolves and then the
inbox page `[a, b]` the handler asked for: the drafts are still the folder viewed, but the
list is `[a, b]` and the cursor is 2. -/
theorem C12_restore_from_other_folder_replaces_view :
    undoFromDrafts.currentFolder = "drafts" ∧
    undoFromDrafts.undoInfo = some undoOfA ∧
    undoFromDrafts.emails = [mkEmail "d" 9] ∧
    undoFromDrafts.currentSkip = 1 ∧
    Pending.restoreEmail undoOfA "drafts" 1 ∈ undoFromDrafts.inflight ∧
    restoredFromDrafts.requests
      = undoFromDrafts.requests ++ [Request.getFolderEmails "inbox" 50 0] ∧
    restoredFromDrafts.currentFolder = "drafts" ∧
    restoredFromDrafts.emails = [mkEmail "a" 2, mkEmail "b" 1] ∧
    restoredFromDrafts.currentSkip = 2 := by
  decide

/-! ## Undo without a record -/

theorem commit_self (s : AppState) : commit s s = s := by
  unfold commit
  rw [if_pos ⟨rfl, rfl⟩]

/-- C13: without a live Undo Record `handleUndoDelete` returns the state as it is, so no
request is sent, nothing changes and no alert is shown, and so does the click on Undo; and
a call with a live record leaves no record: not when the move rejects, not when it
resolves in the folder the record names, and not when it resolves in another folder,
where the handler waits for one page and clears the record whether that page arrives or
not. -/
theorem C13_undo_idempotence (s : AppState) (u : UndoInfo) (f : String) (k : Int)
    (value : Option (List Email)) (now : Nat) (message : String) :
    (s.undoInfo = none → handleUndoDelete s = s ∧ step s Event.clickUndo = s) ∧
    (handleUndoDeleteRejected s).undoInfo = none ∧
    (f = u.folder → (handleUndoDeleteResolved s u f k).undoInfo = none) ∧
    (f ≠ u.folder →
      (handleUndoDeleteResolved s u f k).inflight
        = s.inflight ++ [Pending.fetchEmails false false AfterFetch.handleUndoDelete]) ∧
    (resume s (Pending.fetchEmails false false AfterFetch.handleUndoDelete) value
      now).undoInfo = none ∧
    (fail s (Pending.fetchEmails false false AfterFetch.handleUndoDelete)
      message).undoInfo = none := by
  refine ⟨fun h => ?_, rfl, fun h => ?_, fun h => ?_, ?_, ?_⟩
  · have h1 : handleUndoDelete s = s := by
      unfold handleUndoDelete
      rw [h]
    refine ⟨h1, ?_⟩
    simp only [step, handle, h, Option.isNone_none, Bool.or_true, if_true]
    exact commit_self s
  · subst h
    exact (handleUndoDeleteResolved_same_folder s u k).2.2
  · simp [handleUndoDeleteResolved, h, fetchEmails]
  · simp only [resume, afterFetch]
    exact clearUndo_undoInfo _
  · simp only [fail, afterFetch]
    exact clearUndo_undoInfo _

/-- C13, witness: after the restore of `a` resolved no record is live, and a second click
on Undo leaves the state as it is. -/
theorem C13_undo_idempotence_witness :
    restoredOne.undoInfo = none ∧
    handleUndoDelete restoredOne = restoredOne ∧
    step restoredOne Event.clickUndo = restoredOne ∧
    (handleUndoDeleteResolved deletedOne undoOfA "inbox" 1).undoInfo = none :=
  ⟨by decide,
   ((C13_undo_idempotence restoredOne undoOfA "inbox" 1 none 0 "").1 (by decide)).1,
   ((C13_undo_idempotence restoredOne undoOfA "inbox" 1 none 0 "").1 (by decide)).2,
   (C13_undo_idempotence deletedOne undoOfA "inbox" 1 none 0 "").2.2.1 (by decide)⟩

/-! ## The has-more flag -/

theorem clearTimeoutRef_hasMoreEmails (s : AppState) (ref : Option Nat) :
    (clearTimeoutRef s ref).hasMoreEmails = s.hasMoreEmails := by
  unfold clearTimeoutRef clearTimeout
  split
  · split <;> rfl
  · rfl

theorem afterFetch_hasMoreEmails (s : AppState) (after : AfterFetch) :
    (afterFetch s after).hasMoreEmails = s.hasMoreEmails := by
  cases after
  · rfl
  · rfl
  · simp only [afterFetch, clearUndo]
    rw [clearTimeoutRef_hasMoreEmails]

/-- C20: after a page fetch resolved, in `fetchEmails` with or without `append` and with
whatever follows it in its caller, and in `loadMoreEmails`, `hasMoreEmails` is true
exactly when the fetched page holds 50 messages. -/
theorem C20_has_more_flag (s : AppState) (showLoading append : Bool) (after : AfterFetch)
    (value : Option (List Email)) (now : Nat) :
    ((fetchEmailsResolved s showLoading append value now).hasMoreEmails = true ↔
      (value.getD []).length = 50) ∧
    ((resume s (Pending.fetchEmails showLoading append after) value now).hasMoreEmails
        = true ↔ (value.getD []).length = 50) ∧
    ((loadMoreEmailsResolved s value).hasMoreEmails = true ↔
      (value.getD []).length = 50) ∧
    ((resume s Pending.loadMoreEmails value now).hasMoreEmails = true ↔
      (value.getD []).length = 50) := by
  have h1 : (fetchEmailsResolved s showLoading append value now).hasMoreEmails
      = decide ((value.getD []).length = 50) := by
    cases showLoading <;> cases append <;> rfl
  refine ⟨?_, ?_, ?_, ?_⟩
  · rw [h1]; simp
  · simp only [resume]
    rw [afterFetch_hasMoreEmails, h1]; simp
  · simp [loadMoreEmailsResolved]
  · simp [resume, loadMoreEmailsResolved]

/-! ## Marking a message read -/

/-- The frame of marking read: `handleEmailSelect` on an unread message, with a token,
leaves the list as it is and waits for the remote update with the list `s.emails` of the
click.  When the update resolves, in whatever state, the list has the length of that
list, holds at each place the message that was there when its id is another one, and
that message with `isRead`
true and nothing else changed when its id is the one of the message clicked.  When the
update rejects the state is left as it is: the list is untouched and no alert is shown. -/
theorem mark_read_frame (s s' : AppState) (email : Email) (value : Option (List Email))
    (now : Nat) (message : String) (hunread : email.isRead = false)
    (htoken : truthy s.accessToken = true) :
    (handleEmailSelect s email).emails = s.emails ∧
    (handleEmailSelect s email).inflight
      = s.inflight ++ [Pending.updateEmailReadStatus email s.emails] ∧
    (resume s' (Pending.updateEmailReadStatus email s.emails) value now).emails.length
      = s.emails.length ∧
    (∀ (i : Nat) (e : Email), s.emails[i]? = some e → e.id ≠ email.id →
      (resume s' (Pending.updateEmailReadStatus email s.emails) value now).emails[i]?
        = some e) ∧
    (∀ (i : Nat) (e : Email), s.emails[i]? = some e → e.id = email.id →
      (resume s' (Pending.updateEmailReadStatus email s.emails) value now).emails[i]?
        = some { e with isRead := true }) ∧
    fail s' (Pending.updateEmailReadStatus email s.emails) message = s' := by
  refine ⟨?_, ?_, ?_, ?_, ?_, rfl⟩
  · simp [handleEmailSelect, hunread, htoken]
  · simp [handleEmailSelect, hunread, htoken]
  · simp [resume, handleEmailSelectResolved]
  · intro i e he hid
    simp [resume, handleEmailSelectResolved, List.getElem?_map, he, hid]
  · intro i e he hid
    simp [resume, handleEmailSelectResolved, List.getElem?_map, he, hid]

/-- The unread `a` of the loaded inbox `[a, b]` is clicked and the update resolves with
nothing in between: the list is `[a, b]` with `a` read. -/
theorem mark_read_frame_example :
    (mkEmail "a" 2).isRead = false ∧
    truthy (loadedInbox [mkEmail "a" 2, mkEmail "b" 1]).accessToken = true ∧
    (run (loadedInbox [mkEmail "a" 2, mkEmail "b" 1])
      [Event.clickEmail (mkEmail "a" 2),
       Event.resolved
         (Pending.updateEmailReadStatus (mkEmail "a" 2) [mkEmail "a" 2, mkEmail "b" 1])
         none 3]).emails
      = [{ mkEmail "a" 2 with isRead := true }, mkEmail "b" 1] ∧
    (handleEmailSelect (loadedInbox [mkEmail "a" 2, mkEmail "b" 1]) (mkEmail "a" 2)).emails
      = (loadedInbox [mkEmail "a" 2, mkEmail "b" 1]).emails :=
  ⟨by decide, by decide, by decide,
   (mark_read_frame (loadedInbox [mkEmail "a" 2, mkEmail "b" 1])
      (loadedInbox [mkEmail "a" 2, mkEmail "b" 1]) (mkEmail "a" 2) none 3 ""
      (by decide) (by decide)).1⟩

/-- C19, the failing run: the unread `a` of the inbox `[a, b]` is clicked; while the remote
update is in flight a background refresh brings `c`, so the list is `[c, a, b]`; then the
update resolves, and the list is `[a, b]` with `a` read: `c` is gone, because the
continuation maps over the list of the render of the click, not over the list held. -/
theorem C19_mark_read_drops_interleaved_change :
    refreshedWhileMarking.emails = [mkEmail "c" 3, mkEmail "a" 2, mkEmail "b" 1] ∧
    Pending.updateEmailReadStatus (mkEmail "a" 2) [mkEmail "a" 2, mkEmail "b" 1]
      ∈ refreshedWhileMarking.inflight ∧
    (step refreshedWhileMarking
      (Event.resolved
        (Pending.updateEmailReadStatus (mkEmail "a" 2) [mkEmail "a" 2, mkEmail "b" 1])
        none 5)).emails
      = [{ mkEmail "a" 2 with isRead := true }, mkEmail "b" 1] := by
  decide

/-! ## The counter of new messages -/

/-- C18, the failing run: with the inbox `[a, b]` loaded the user switches to the drafts;
the handler resets the counter to 0, and when the page of three drafts arrives the
replace branch counts them against the inbox list still held: the counter is 3 while the
folder reconciled and viewed is the drafts folder. -/
theorem C18_folder_switch_counts_new :
    (step (loadedInbox [mkEmail "a" 2, mkEmail "b" 1])
      (Event.clickFolder "drafts")).newEmailCount = 0 ∧
    (step (loadedInbox [mkEmail "a" 2, mkEmail "b" 1])
      (Event.clickFolder "drafts")).emails = [mkEmail "a" 2, mkEmail "b" 1] ∧
    (step (loadedInbox [mkEmail "a" 2, mkEmail "b" 1])
      (Event.clickFolder "drafts")).requests
      = (loadedInbox [mkEmail "a" 2, mkEmail "b" 1]).requests ++
        [Request.getFolderEmails "drafts" 50 0] ∧
    switchedToDrafts.currentFolder = "drafts" ∧
    switchedToDrafts.emails = [mkEmail "d1" 9, mkEmail "d2" 8, mkEmail "d3" 7] ∧
    switchedToDrafts.newEmailCount = 3 := by
  decide

/-! ## The map of the background merge -/

theorem mapSet_keys (m : List (String × Email)) (k : String) (v : Email) :
    (mapSet m k v).map Prod.fst
      = if k ∈ m.map Prod.fst then m.map Prod.fst else m.map Prod.fst ++ [k] := by
  induction m with
  | nil => simp [mapSet]
  | cons p rest ih =>
    obtain ⟨k', v'⟩ := p
    unfold mapSet
    by_cases h : k' = k
    · simp [h]
    · have h' : ¬ k = k' := fun e => h e.symm
      by_cases hk : k ∈ rest.map Prod.fst
      · rw [if_neg h, List.map_cons, ih, if_pos hk]
        simp only [List.map_cons, List.mem_cons, h', false_or, hk, if_true]
      · rw [if_neg h, List.map_cons, ih, if_neg hk]
        simp only [List.map_cons, List.mem_cons, h', false_or, hk, if_false, List.cons_append]

theorem mapSet_nodup_keys (m : List (String × Email)) (k : String) (v : Email)
    (h : (m.map Prod.fst).Nodup) : ((mapSet m k v).map Prod.fst).Nodup := by
  rw [mapSet_keys]
  split
  · exact h
  · rename_i hk
    rw [List.nodup_append]
    refine ⟨h, List.nodup_singleton k, ?_⟩
    intro x hx hx'
    rw [List.mem_singleton] at hx'
    exact hk (hx' ▸ hx)

theorem mem_mapSet (m : List (String × Email)) (k : String) (v : Email)
    (h : (m.map Prod.fst).Nodup) (p : String × Email) :
    p ∈ mapSet m k v ↔ p = (k, v) ∨ (p.1 ≠ k ∧ p ∈ m) := by
  induction m with
  | nil => simp [mapSet]
  | cons q rest ih =>
    obtain ⟨k', v'⟩ := q
    have hnd := List.nodup_cons.mp h
    unfold mapSet
    by_cases hk : k' = k
    · subst hk
      rw [if_pos rfl]
      constructor
      · intro hp
        rcases List.mem_cons.mp hp with hp | hp
        · exact Or.inl hp
        · refine Or.inr ⟨fun e => hnd.1 ?_, List.mem_cons_of_mem _ hp⟩
          exact List.mem_map.mpr ⟨p, hp, e⟩
      · rintro (hp | ⟨hne, hp⟩)
        · exact hp ▸ List.mem_cons_self _ _
        · rcases List.mem_cons.mp hp with hp | hp
          · exact absurd (congrArg Prod.fst hp) hne
          · exact List.mem_cons_of_mem _ hp
    · rw [if_neg hk, List.mem_cons, ih hnd.2, List.mem_cons]
      constructor
      · rintro (hp | hp | ⟨hne, hp⟩)
        · exact Or.inr ⟨fun e => hk (by rw [hp] at e; exact e), Or.inl hp⟩
        · exact Or.inl hp
        · exact Or.inr ⟨hne, Or.inr hp⟩
      · rintro (hp | ⟨hne, hp | hp⟩)
        · exact Or.inr (Or.inl hp)
        · exact Or.inl hp
        · exact Or.inr (Or.inr ⟨hne, hp⟩)

theorem mapSetAll_nodup_keys (l : List Email) (m : List (String × Email))
    (h : (m.map Prod.fst).Nodup) : ((mapSetAll m l).map Prod.fst).Nodup := by
  induction l generalizing m with
  | nil => exact h
  | cons e rest ih => exact ih _ (mapSet_nodup_keys m e.id e h)

theorem mapSetAll_keys_subset (l : List Email) (m : List (String × Email)) (k : String)
    (hk : k ∈ (mapSetAll m l).map Prod.fst) : k ∈ m.map Prod.fst ∨ k ∈ ids l := by
  induction l generalizing m with
  | nil => exact Or.inl hk
  | cons e rest ih =>
    rcases ih (mapSet m e.id e) hk with h | h
    · rw [mapSet_keys] at h
      split at h
      · exact Or.inl h
      · rcases List.mem_append.mp h with h | h
        · exact Or.inl h
        · rw [List.mem_singleton] at h
          exact Or.inr (by simp [ids, h])
    · exact Or.inr (by simp only [ids, List.map_cons, List.mem_cons]; exact Or.inr h)

theorem mem_mapSetAll (l : List Email) (m : List (String × Email))
    (hm : (m.map Prod.fst).Nodup) (hl : (ids l).Nodup) (p : String × Email) :
    p ∈ mapSetAll m l ↔ (∃ e ∈ l, p = (e.id, e)) ∨ (p.1 ∉ ids l ∧ p ∈ m) := by
  induction l generalizing m with
  | nil => simp [mapSetAll, ids]
  | cons e rest ih =>
    have hnd : e.id ∉ ids rest ∧ (ids rest).Nodup := List.nodup_cons.mp hl
    show p ∈ mapSetAll (mapSet m e.id e) rest ↔ _
    rw [ih _ (mapSet_nodup_keys m e.id e hm) hnd.2, mem_mapSet m e.id e hm]
    constructor
    · rintro (⟨e', he', hp⟩ | ⟨hnot, hp | ⟨hne, hp⟩⟩)
      · exact Or.inl ⟨e', List.mem_cons_of_mem _ he', hp⟩
      · exact Or.inl ⟨e, List.mem_cons_self _ _, hp⟩
      · refine Or.inr ⟨?_, hp⟩
        simp only [ids, List.map_cons, List.mem_cons, not_or]
        exact ⟨hne, hnot⟩
    · rintro (⟨e', he', hp⟩ | ⟨hnot, hp⟩)
      · rcases List.mem_cons.mp he' with rfl | he'
        · refine Or.inr ⟨?_, Or.inl hp⟩
          rw [hp]
          exact hnd.1
        · exact Or.inl ⟨e', he', hp⟩
      · simp only [ids, List.map_cons, List.mem_cons, not_or] at hnot
        exact Or.inr ⟨hnot.2, Or.inr ⟨hnot.1, hp⟩⟩

instance : IsAntisymm Email strictlyNewestFirst :=
  ⟨fun _ _ hab hba => absurd hab (Int.lt_asymm hba)⟩

/-- With distinct ids in the page, the values of the map of the background merge are the
messages of the page, each once, in some order. -/
theorem refresh_values_perm (prev page : List Email) (hpage : (ids page).Nodup) :
    ((mapSetAll (mapSetAll [] (prev.filter (fun e => (ids page).contains e.id))) page).map
      Prod.snd).Perm page := by
  have hM₀ : ((mapSetAll [] (prev.filter (fun e => (ids page).contains e.id))).map
      Prod.fst).Nodup := mapSetAll_nodup_keys _ [] List.nodup_nil
  have hM := mapSetAll_nodup_keys page _ hM₀
  have hpairs : (page.map (fun e => (e.id, e))).Nodup :=
    (List.Nodup.of_map (fun e : Email => e.id) hpage).map (fun a b h => congrArg Prod.snd h)
  have hmem : ∀ p, p ∈ mapSetAll (mapSetAll [] (prev.filter
      (fun e => (ids page).contains e.id))) page ↔ p ∈ page.map (fun e => (e.id, e)) := by
    intro p
    rw [mem_mapSetAll page _ hM₀ hpage p, List.mem_map]
    constructor
    · rintro (⟨e, he, hp⟩ | ⟨hnot, hp⟩)
      · exact ⟨e, he, hp.symm⟩
      · exfalso
        apply hnot
        rcases mapSetAll_keys_subset _ [] p.1 (List.mem_map_of_mem Prod.fst hp) with h | h
        · cases h
        · obtain ⟨e, he, hid⟩ := mem_ids.mp h
          have := (List.mem_filter.mp he).2
          rw [← hid]
          simpa using this
    · rintro ⟨e, he, hp⟩
      exact Or.inl ⟨e, he, hp.symm⟩
  have hperm := (List.perm_ext_iff_of_nodup (List.Nodup.of_map Prod.fst hM) hpairs).mpr hmem
  have h2 := hperm.map Prod.snd
  simpa [List.map_map, Function.comp_def] using h2

/-- When the page has distinct ids and strictly decreasing timestamps the background merge
returns the page. -/
theorem refreshEmails_eq_page (prev page : List Email) (hids : (ids page).Nodup)
    (hsorted : List.Sorted strictlyNewestFirst page) : refreshEmails prev page = page := by
  unfold refreshEmails
  split
  · rfl
  · have hperm := (List.perm_insertionSort newestFirst _).trans
      (refresh_values_perm prev page hids)
    have hne : List.Pairwise (fun a b => timestamp a ≠ timestamp b) page :=
      hsorted.imp (fun h e => absurd h (by rw [strictlyNewestFirst, e]; exact Int.lt_irrefl _))
    have hne' := (hperm.pairwise_iff (fun h e => h e.symm)).mpr hne
    have hge := List.sorted_insertionSort newestFirst
      ((mapSetAll (mapSetAll [] (prev.filter (fun e => (ids page).contains e.id))) page).map
        Prod.snd)
    have hstrict : List.Sorted strictlyNewestFirst (List.insertionSort newestFirst
        ((mapSetAll (mapSetAll [] (prev.filter (fun e => (ids page).contains e.id)))
          page).map Prod.snd)) :=
      (List.Pairwise.and hge hne').imp
        (fun h => lt_of_le_of_ne h.1 (fun e => h.2 e.symm))
    exact List.eq_of_perm_of_sorted hperm hstrict hsorted

/-- C17, counterexample: `a` is held; the page brings `b`, received in the same second,
ahead of `a`.  The replacement of `fetchEmails` gives `[b, a]`, the background merge
`[a, b]`: it goes through the map, where `a` keeps its place, and the sort is stable. -/
theorem C17_refresh_reorders_ties :
    replaceEmails [mkEmail "a" 5] [mkEmail "b" 5, mkEmail "a" 5]
      = [mkEmail "b" 5, mkEmail "a" 5] ∧
    refreshEmails [mkEmail "a" 5] [mkEmail "b" 5, mkEmail "a" 5]
      = [mkEmail "a" 5, mkEmail "b" 5] := by
  decide

/-- C17, amended: the background merge of `checkForNewEmails` and the replacement of
`fetchEmails` add the same amount to the counter for every previous list and every page;
they leave the same list when the previous list is empty, and when the page has distinct
ids and strictly decreasing timestamps. -/
theorem C17_refresh_as_replace (prev page : List Email) :
    refreshNewCount prev page = replaceNewCount prev page ∧
    (prev = [] → refreshEmails prev page = replaceEmails prev page) ∧
    ((ids page).Nodup → List.Sorted strictlyNewestFirst page →
      refreshEmails prev page = replaceEmails prev page) := by
  refine ⟨?_, ?_, ?_⟩
  · unfold refreshNewCount replaceNewCount
    cases prev with
    | nil => simp
    | cons a prev =>
      cases page with
      | nil => simp [newEmailsList]
      | cons b page => simp
  · intro h
    subst h
    simp [refreshEmails, replaceEmails]
  · intro hids hsorted
    exact refreshEmails_eq_page prev page hids hsorted

/-- C17, witness: the page `[c, a]` reconciled with `[a, b]`. -/
theorem C17_refresh_as_replace_witness :
    (ids [mkEmail "c" 11, mkEmail "a" 10]).Nodup ∧
    List.Sorted strictlyNewestFirst [mkEmail "c" 11, mkEmail "a" 10] ∧
    refreshEmails [mkEmail "a" 10, mkEmail "b" 9] [mkEmail "c" 11, mkEmail "a" 10]
      = replaceEmails [mkEmail "a" 10, mkEmail "b" 9] [mkEmail "c" 11, mkEmail "a" 10] ∧
    refreshEmails [] [mkEmail "c" 11, mkEmail "a" 10]
      = replaceEmails [] [mkEmail "c" 11, mkEmail "a" 10] :=
  ⟨by decide, by decide,
   (C17_refresh_as_replace [mkEmail "a" 10, mkEmail "b" 9]
      [mkEmail "c" 11, mkEmail "a" 10]).2.2 (by decide) (by decide),
   (C17_refresh_as_replace [] [mkEmail "c" 11, mkEmail "a" 10]).2.1 rfl⟩

/-! ## Responses to requests in flight -/

/-- The render keeps the closure of `checkForNewEmails` when the handler left the token and
the folder as they were. -/
theorem commit_quiet (s s' : AppState) (ha : s'.accessToken = s.accessToken)
    (hf : s'.currentFolder = s.currentFolder) : commit s s' = s' := by
  unfold commit
  rw [if_pos ⟨ha, hf⟩]

/-- The handler of a response that a suspended handler waits for is its continuation. -/
theorem handle_resolved (s : AppState) (p : Pending) (value : Option (List Email)) (now : Nat)
    (h : p ∈ s.inflight) (hall : p.isAll = false) :
    handle s (Event.resolved p value now)
      = resume { s with inflight := s.inflight.erase p } p value now := by
  simp only [handle]
  rw [if_pos (by simp [h, hall])]

theorem handle_rejected (s : AppState) (p : Pending) (message : String)
    (h : p ∈ s.inflight) (hall : p.isAll = false) :
    handle s (Event.rejected p message)
      = fail { s with inflight := s.inflight.erase p } p message := by
  simp only [handle]
  rw [if_pos (by simp [h, hall])]

/-- The step of a response: the continuation, and a render that keeps the closures. -/
theorem step_resolved (s : AppState) (p : Pending) (value : Option (List Email)) (now : Nat)
    (h : p ∈ s.inflight) (hall : p.isAll = false) :
    step s (Event.resolved p value now)
      = resume { s with inflight := s.inflight.erase p } p value now := by
  unfold step
  rw [handle_resolved s p value now h hall]
  have hq := resume_quiet { s with inflight := s.inflight.erase p } p value now
  exact commit_quiet _ _ hq.1 hq.2.1

theorem step_rejected (s : AppState) (p : Pending) (message : String)
    (h : p ∈ s.inflight) (hall : p.isAll = false) :
    step s (Event.rejected p message)
      = fail { s with inflight := s.inflight.erase p } p message := by
  unfold step
  rw [handle_rejected s p message h hall]
  have hq := fail_quiet { s with inflight := s.inflight.erase p } p message
  exact commit_quiet _ _ hq.1 hq.2.1

/-! ## The fallback search -/

/-- The lowering of `toLowerCase` on Latin, Greek and Cyrillic letters, with the final sigma
and the dotted capital I. -/
theorem toLowerCase_examples :
    toLowerCase "Hello World" = "hello world" ∧
    toLowerCase "ÉCOLE" = "école" ∧
    toLowerCase "ΟΔΟΣ ΣΟΦΙΑΣ" = "οδος σοφιας" ∧
    toLowerCase "ЖИЗНЬ" = "жизнь" ∧
    (toLowerCase ⟨[Char.ofNat 0x130]⟩).data = [Char.ofNat 0x69, Char.ofNat 0x307] := by
  decide!

/-- The test `includes` on the lowered strings says that the query occurs, case aside. -/
theorem includes_iff (text query : String) :
    includes (toLowerCase text) (toLowerCase (trim query)) = true ↔
      occursIgnoringCase query text := by
  unfold includes occursIgnoringCase
  rw [decide_eq_true_iff]
  constructor
  · rintro ⟨before, after, h⟩
    exact ⟨before, after, h.symm⟩
  · rintro ⟨before, after, h⟩
    exact ⟨before, after, h.symm⟩

/-- The fallback finds `école` and `ÉCOLE` for either spelling of the query. -/
theorem fallback_ignores_case_of_every_letter :
    (searchFallbackResolved searchSent "école"
      [ecoleInSubject, mkEmail "a" 2, ecoleInCapitals]).searchResults
      = [ecoleInSubject, ecoleInCapitals] ∧
    (searchFallbackResolved searchSent " ÉCOLE "
      [ecoleInSubject, mkEmail "a" 2, ecoleInCapitals]).searchResults
      = [ecoleInSubject, ecoleInCapitals] := by
  decide

/-- C14, counterexample: in the corpus `[m1, m2]` exactly one message, `m1`, has the query
`hello` in its subject, case aside; `m2` has it in its preview, and the fallback returns
both. -/
theorem C14_fallback_returns_preview_match :
    includes (toLowerCase (orElse helloInSubject.subject "")) (toLowerCase (trim "hello"))
      = true ∧
    includes (toLowerCase (orElse helloInPreview.subject "")) (toLowerCase (trim "hello"))
      = false ∧
    (run searchSent
      [Event.rejected (Pending.searchEmails "hello" none false "inbox")
         "Graph API error: 400",
       Event.resolved (Pending.searchFallback "hello")
         (some [helloInSubject, helloInPreview]) 3]).searchResults
      = [helloInSubject, helloInPreview] := by
  decide

/-- C14, amended: when the fallback corpus holds a message `e` in whose subject the trimmed
query occurs, case aside, and in no other message of the corpus it occurs in the
subject, in the preview (or, without a preview, the body content), in the sender name or
in the sender address, the fallback leaves exactly `[e]` as the result set. -/
theorem C14_fallback_single_match (s : AppState) (query : String) (l₁ l₂ : List Email)
    (e : Email) (hsubject : occursIgnoringCase query (orElse e.subject ""))
    (hothers : ∀ m ∈ l₁ ++ l₂,
      ¬ occursIgnoringCase query (orElse m.subject "") ∧
      ¬ occursIgnoringCase query (orElse m.bodyPreview (orElse m.bodyContent "")) ∧
      ¬ occursIgnoringCase query (orElse m.fromName "") ∧
      ¬ occursIgnoringCase query (orElse m.fromAddress "")) :
    (searchFallbackResolved s query (l₁ ++ e :: l₂)).searchResults = [e] := by
  have he : matchesSearch (toLowerCase (trim query)) e = true := by
    simp [matchesSearch, (includes_iff _ _).mpr hsubject]
  have hno : ∀ m ∈ l₁ ++ l₂, matchesSearch (toLowerCase (trim query)) m = false := by
    intro m hm
    obtain ⟨h1, h2, h3, h4⟩ := hothers m hm
    rw [← includes_iff, Bool.not_eq_true] at h1 h2 h3 h4
    simp [matchesSearch, h1, h2, h3, h4]
  have h₁ : l₁.filter (matchesSearch (toLowerCase (trim query))) = [] := by
    rw [List.filter_eq_nil_iff]
    intro m hm
    simp [hno m (List.mem_append_left _ hm)]
  have h₂ : l₂.filter (matchesSearch (toLowerCase (trim query))) = [] := by
    rw [List.filter_eq_nil_iff]
    intro m hm
    simp [hno m (List.mem_append_right _ hm)]
  simp [searchFallbackResolved, filterEmails, List.filter_append, List.filter_cons, he, h₁,
    h₂]

/-- C14, witness: the corpus `[a, m1]` with the query `hello`, and the corpus `[a, m3, m2]`
with the query ` ÉCOLE `, which the subject `école` of `m3` matches. -/
theorem C14_fallback_single_match_witness :
    occursIgnoringCase "hello" (orElse helloInSubject.subject "") ∧
    (searchFallbackResolved searchSent "hello"
      ([mkEmail "a" 2] ++ helloInSubject :: [])).searchResults = [helloInSubject] ∧
    occursIgnoringCase " ÉCOLE " (orElse ecoleInSubject.subject "") ∧
    (searchFallbackResolved searchSent " ÉCOLE "
      ([mkEmail "a" 2] ++ ecoleInSubject :: [helloInPreview])).searchResults
      = [ecoleInSubject] :=
  ⟨by decide,
   C14_fallback_single_match searchSent "hello" [mkEmail "a" 2] [] helloInSubject
     (by decide) (by decide),
   by decide,
   C14_fallback_single_match searchSent " ÉCOLE " [mkEmail "a" 2] [helloInPreview]
     ecoleInSubject (by decide) (by decide)⟩

/-- C15, counterexample: the body content of the message is `hello x` once its tags are
stripped, so the match of the specification holds for the query `hello` and fails for the
query `div`; the filter of the fallback reads the content with its tags, drops the
message for `hello` and keeps it for `div`. -/
theorem C15_fallback_does_not_strip_tags :
    stripTags "<b>hel</b>lo <div>x</div>" = "hello x" ∧
    specMatches "hello" taggedBody = true ∧
    (searchFallbackResolved searchSent "hello" [taggedBody]).searchResults = [] ∧
    specMatches "div" taggedBody = false ∧
    (searchFallbackResolved searchSent "div" [taggedBody]).searchResults = [taggedBody] := by
  decide

/-- C15, amended: for every corpus and every query the result set of the fallback is the
corpus, in its order, filtered by: the trimmed query occurs, case aside, in the subject,
or in the preview when the message has one and else in the body content as it is, tags
included, or in the sender name, or in the sender address; and that is the result set
after the step in which the corpus of the fallback arrives. -/
theorem C15_fallback_filter (s : AppState) (query : String) (corpus : List Email) :
    (searchFallbackResolved s query corpus).searchResults
      = corpus.filter (fun e =>
          includes (toLowerCase (orElse e.subject "")) (toLowerCase (trim query)) ||
          includes (toLowerCase (orElse e.bodyPreview (orElse e.bodyContent "")))
            (toLowerCase (trim query)) ||
          includes (toLowerCase (orElse e.fromName "")) (toLowerCase (trim query)) ||
          includes (toLowerCase (orElse e.fromAddress "")) (toLowerCase (trim query))) ∧
    (searchFallbackResolved s query corpus).searchResults.Sublist corpus ∧
    (∀ e, e ∈ (searchFallbackResolved s query corpus).searchResults ↔
      e ∈ corpus ∧
      (occursIgnoringCase query (orElse e.subject "") ∨
       occursIgnoringCase query (orElse e.bodyPreview (orElse e.bodyContent "")) ∨
       occursIgnoringCase query (orElse e.fromName "") ∨
       occursIgnoringCase query (orElse e.fromAddress ""))) ∧
    (∀ now, Pending.searchFallback query ∈ s.inflight →
      (step s (Event.resolved (Pending.searchFallback query) (some corpus) now)).searchResults
        = (searchFallbackResolved s query corpus).searchResults) := by
  have hmatch : ∀ e, matchesSearch (toLowerCase (trim query)) e = true ↔
      (occursIgnoringCase query (orElse e.subject "") ∨
       occursIgnoringCase query (orElse e.bodyPreview (orElse e.bodyContent "")) ∨
       occursIgnoringCase query (orElse e.fromName "") ∨
       occursIgnoringCase query (orElse e.fromAddress "")) := by
    intro e
    simp only [matchesSearch, Bool.or_eq_true, or_assoc, includes_iff]
  refine ⟨rfl, List.filter_sublist _, fun e => ?_, fun now h => ?_⟩
  · simp only [searchFallbackResolved, filterEmails, List.mem_filter, hmatch]
  · rw [step_resolved s _ (some corpus) now h rfl]
    rfl

/-- C15, witness: the corpus `[m1, a, m2]` arrives for the fallback of the search for
`hello`. -/
theorem C15_fallback_filter_witness :
    Pending.searchFallback "hello" ∈ fallbackSent.inflight ∧
    (step fallbackSent (Event.resolved (Pending.searchFallback "hello")
      (some [helloInSubject, mkEmail "a" 2, helloInPreview]) 3)).searchResults
      = [helloInSubject, helloInPreview] :=
  ⟨by decide,
   ((C15_fallback_filter fallbackSent "hello"
      [helloInSubject, mkEmail "a" 2, helloInPreview]).2.2.2 3 (by decide)).trans
     (by decide)⟩

/-! ## When the fallback runs -/

/-- The message `graphRequest` builds from the status alone mentions `400` for the status
400 and for no other status below 600. -/
theorem status_message_mentions_400 :
    ∀ status < 600,
      (includes ("Graph API error: " ++ toString status) "400" = true ↔ status = 400) := by
  decide!

/-- C16, counterexample: the server search fails with status 400 and a body that is not
JSON, so the error `graphRequest` throws carries the status text `Bad Request`; the
fallback does not run: no request is added, the result set is empty and the alert reports
the failure. -/
theorem C16_status_400_without_fallback :
    graphRequestErrorMessage 400 "Bad Request" ErrorBody.notJson = "Bad Request" ∧
    (step searchSent
      (Event.rejected (Pending.searchEmails "hello" none false "inbox")
        (graphRequestErrorMessage 400 "Bad Request" ErrorBody.notJson))).requests
      = searchSent.requests ∧
    (step searchSent
      (Event.rejected (Pending.searchEmails "hello" none false "inbox")
        (graphRequestErrorMessage 400 "Bad Request" ErrorBody.notJson))).inflight = [] ∧
    (step searchSent
      (Event.rejected (Pending.searchEmails "hello" none false "inbox")
        (graphRequestErrorMessage 400 "Bad Request" ErrorBody.notJson))).alerts
      = ["Search failed: Bad Request"] := by
  decide

/-- C16, amended: `performSearch` runs the fallback exactly when the message of the error
is not empty and mentions `400`: it then sends the corpus request or requests, waits for
them and shows no alert; for every other failure it leaves the result set empty, shows
one alert built from the message, sends nothing and waits for nothing.  For an error of
`graphRequest` whose body is JSON without a top-level `message`, or is not JSON and comes
with an empty status text, the message mentions `400` exactly when the status is 400. -/
theorem C16_fallback_trigger (s : AppState) (query : String) (folder : Option String)
    (searchAll : Bool) (currentFolder message : String) :
    ((message ≠ "" ∧ includes message "400" = true) →
      (∃ p, (p = Pending.searchFallback query ∨ p = Pending.searchFallbackAll query) ∧
        (performSearchRejected s query folder searchAll currentFolder message).inflight
          = s.inflight ++ [p]) ∧
      s.requests.length
        < (performSearchRejected s query folder searchAll currentFolder message
          ).requests.length ∧
      (performSearchRejected s query folder searchAll currentFolder message).alerts
        = s.alerts) ∧
    (¬ (message ≠ "" ∧ includes message "400" = true) →
      (performSearchRejected s query folder searchAll currentFolder message).searchResults
        = [] ∧
      (performSearchRejected s query folder searchAll currentFolder message).alerts
        = s.alerts ++ [searchFailedMessage message] ∧
      (performSearchRejected s query folder searchAll currentFolder message).requests
        = s.requests ∧
      (performSearchRejected s query folder searchAll currentFolder message).inflight
        = s.inflight ∧
      (performSearchRejected s query folder searchAll currentFolder message).isSearching
        = false) ∧
    (∀ status < 600,
      (includes (graphRequestErrorMessage status "" ErrorBody.notJson) "400" = true ↔
        status = 400) ∧
      ∀ statusText,
        (includes (graphRequestErrorMessage status statusText (ErrorBody.json none)) "400"
          = true ↔ status = 400)) := by
  refine ⟨fun h => ?_, fun h => ?_, fun status hs => ?_⟩
  · have hc : (message != "" && includes message "400") = true := by
      simp [h.1, h.2]
    unfold performSearchRejected
    rw [if_pos hc]
    split
    · exact ⟨⟨_, Or.inl rfl, rfl⟩, by simp, rfl⟩
    · exact ⟨⟨_, Or.inr rfl, rfl⟩, by simp, rfl⟩
  · have hc : ¬ (message != "" && includes message "400") = true := by
      intro hc
      simp only [Bool.and_eq_true, bne_iff_ne] at hc
      exact h hc
    unfold performSearchRejected
    rw [if_neg hc]
    exact ⟨rfl, rfl, rfl, rfl, rfl⟩
  · have h0 : ∀ body, body = ErrorBody.notJson ∨ body = ErrorBody.json none →
        graphRequestErrorMessage status "" body = "Graph API error: " ++ toString status := by
      rintro body (rfl | rfl) <;> simp [graphRequestErrorMessage, orElse, truthy]
    refine ⟨?_, fun statusText => ?_⟩
    · rw [h0 _ (Or.inl rfl)]
      exact status_message_mentions_400 status hs
    · have : graphRequestErrorMessage status statusText (ErrorBody.json none)
          = "Graph API error: " ++ toString status := by
        simp [graphRequestErrorMessage, orElse, truthy]
      rw [this]
      exact status_message_mentions_400 status hs

/-- C16, witness: the server search fails with status 400 and the JSON error body of the
mail API, which has no top-level `message`: the fallback requests the folder. -/
theorem C16_fallback_trigger_witness :
    (graphRequestErrorMessage 400 "Bad Request" (ErrorBody.json none) ≠ "" ∧
      includes (graphRequestErrorMessage 400 "Bad Request" (ErrorBody.json none)) "400"
        = true) ∧
    (performSearchRejected searchSent "hello" none false "inbox"
      (graphRequestErrorMessage 400 "Bad Request" (ErrorBody.json none))).alerts
      = searchSent.alerts ∧
    ¬ ("Failed to fetch" ≠ "" ∧ includes "Failed to fetch" "400" = true) ∧
    (performSearchRejected searchSent "hello" none false "inbox" "Failed to fetch").requests
      = searchSent.requests :=
  ⟨by decide,
   ((C16_fallback_trigger searchSent "hello" none false "inbox"
      (graphRequestErrorMessage 400 "Bad Request" (ErrorBody.json none))).1
      (by decide)).2.2,
   by decide,
   ((C16_fallback_trigger searchSent "hello" none false "inbox" "Failed to fetch").2.1
      (by decide)).2.2.1⟩

/-! ## The list after a background refresh -/

/-- What an entry of the map is after the page was put in: the entry of a message of the
page under its id, or an earlier entry whose key is no id of the page. -/
theorem mapSetAll_entry (l : List Email) (m : List (String × Email))
    (hm : (m.map Prod.fst).Nodup) (p : String × Email) (hp : p ∈ mapSetAll m l) :
    (∃ e ∈ l, p = (e.id, e)) ∨ (p.1 ∉ ids l ∧ p ∈ m) := by
  induction l generalizing m with
  | nil => exact Or.inr ⟨by simp [ids], hp⟩
  | cons e rest ih =>
    rcases ih (mapSet m e.id e) (mapSet_nodup_keys m e.id e hm) hp with ⟨e', he', h⟩ | ⟨hnot, h⟩
    · exact Or.inl ⟨e', List.mem_cons_of_mem _ he', h⟩
    · rcases (mem_mapSet m e.id e hm p).mp h with h | ⟨hne, h⟩
      · exact Or.inl ⟨e, List.mem_cons_self _ _, h⟩
      · refine Or.inr ⟨?_, h⟩
        simp only [ids, List.map_cons, List.mem_cons, not_or]
        exact ⟨hne, hnot⟩

theorem mapSetAll_keys_kept (l : List Email) (m : List (String × Email)) (k : String)
    (hk : k ∈ m.map Prod.fst) : k ∈ (mapSetAll m l).map Prod.fst := by
  induction l generalizing m with
  | nil => exact hk
  | cons e rest ih =>
    apply ih
    rw [mapSet_keys]
    split
    · exact hk
    · exact List.mem_append_left _ hk

theorem mapSetAll_keys_page (l : List Email) (m : List (String × Email)) (k : String)
    (hk : k ∈ ids l) : k ∈ (mapSetAll m l).map Prod.fst := by
  induction l generalizing m with
  | nil => simp [ids] at hk
  | cons e rest ih =>
    simp only [ids, List.map_cons, List.mem_cons] at hk
    rcases hk with hk | hk
    · refine mapSetAll_keys_kept rest (mapSet m e.id e) k ?_
      rw [mapSet_keys]
      split
      · rename_i h; exact hk ▸ h
      · exact List.mem_append_right _ (by simp [hk])
    · exact ih _ hk

/-- The list the background merge leaves for a non-empty previous list: its ids are the
ids of the page, each once, and each of its messages is a message of the page. -/
theorem refreshEmails_page (prev page : List Email) (hprev : prev ≠ []) :
    (ids (refreshEmails prev page)).Nodup ∧
    (∀ x, x ∈ ids (refreshEmails prev page) ↔ x ∈ ids page) ∧
    (∀ e ∈ refreshEmails prev page, e ∈ page) := by
  have hlen : ¬ prev.length = 0 := fun h => hprev (List.length_eq_zero.mp h)
  have hM₀ : ((mapSetAll [] (prev.filter (fun e => (ids page).contains e.id))).map
      Prod.fst).Nodup := mapSetAll_nodup_keys _ [] List.nodup_nil
  have hM := mapSetAll_nodup_keys page _ hM₀
  have hentry : ∀ p ∈ mapSetAll (mapSetAll [] (prev.filter
      (fun e => (ids page).contains e.id))) page, p.2 ∈ page ∧ p.2.id = p.1 := by
    intro p hp
    rcases mapSetAll_entry page _ hM₀ p hp with ⟨e, he, h⟩ | ⟨hnot, h⟩
    · rw [h]
      exact ⟨he, rfl⟩
    · exfalso
      apply hnot
      rcases mapSetAll_keys_subset _ [] p.1 (List.mem_map_of_mem Prod.fst h) with h' | h'
      · cases h'
      · obtain ⟨e, he, hid⟩ := mem_ids.mp h'
        have := (List.mem_filter.mp he).2
        rw [← hid]
        simpa using this
  have hperm := List.perm_insertionSort newestFirst
    ((mapSetAll (mapSetAll [] (prev.filter (fun e => (ids page).contains e.id))) page).map
      (fun kv => kv.2))
  have hids : ids ((mapSetAll (mapSetAll [] (prev.filter
      (fun e => (ids page).contains e.id))) page).map (fun kv => kv.2))
      = (mapSetAll (mapSetAll [] (prev.filter
      (fun e => (ids page).contains e.id))) page).map Prod.fst := by
    rw [ids, List.map_map]
    exact List.map_congr_left (fun p hp => (hentry p hp).2)
  have hidsperm : (ids (refreshEmails prev page)).Perm
      ((mapSetAll (mapSetAll [] (prev.filter
      (fun e => (ids page).contains e.id))) page).map Prod.fst) := by
    rw [← hids]
    simp only [refreshEmails, hlen, if_false]
    exact hperm.map _
  refine ⟨hidsperm.nodup_iff.mpr hM, fun x => ?_, fun e he => ?_⟩
  · rw [hidsperm.mem_iff]
    constructor
    · intro hx
      obtain ⟨p, hp, hpx⟩ := List.mem_map.mp hx
      rw [← hpx, ← (hentry p hp).2]
      exact mem_ids.mpr ⟨p.2, (hentry p hp).1, rfl⟩
    · exact mapSetAll_keys_page page _ x
  · simp only [refreshEmails, hlen, if_false] at he
    rw [hperm.mem_iff] at he
    obtain ⟨p, hp, hpe⟩ := List.mem_map.mp he
    rw [← hpe]
    exact (hentry p hp).1

/-- The step in which the answer to a background refresh arrives. -/
theorem step_checkForNewEmails_resolved (s : AppState) (value : Option (List Email)) (now : Nat)
    (h : Pending.checkForNewEmails ∈ s.inflight) :
    step s (Event.resolved Pending.checkForNewEmails value now)
      = checkForNewEmailsResolved
          { s with inflight := s.inflight.erase Pending.checkForNewEmails } value now := by
  have hh : handle s (Event.resolved Pending.checkForNewEmails value now)
      = checkForNewEmailsResolved
          { s with inflight := s.inflight.erase Pending.checkForNewEmails } value now := by
    simp only [handle, resume, Pending.isAll]
    rw [if_pos (by simpa using h)]
  unfold step
  rw [hh]
  exact commit_quiet _ _ rfl rfl

/-- C28: when the answer to a background refresh arrives, the cursor and the has-more flag
stay as they are; for a non-empty previous list the new list has exactly the ids of the
fetched page, each once, every entry being a message of the page, so a held message whose
id is not in the page is dropped while the cursor still counts it. -/
theorem C28_background_refresh_frame (s : AppState) (value : Option (List Email)) (now : Nat)
    (h : Pending.checkForNewEmails ∈ s.inflight) :
    (step s (Event.resolved Pending.checkForNewEmails value now)).currentSkip = s.currentSkip ∧
    (step s (Event.resolved Pending.checkForNewEmails value now)).hasMoreEmails
      = s.hasMoreEmails ∧
    (s.emails ≠ [] →
      (ids (step s (Event.resolved Pending.checkForNewEmails value now)).emails).Nodup ∧
      (∀ x, x ∈ ids (step s (Event.resolved Pending.checkForNewEmails value now)).emails
        ↔ x ∈ ids (value.getD [])) ∧
      (∀ e ∈ (step s (Event.resolved Pending.checkForNewEmails value now)).emails,
        e ∈ value.getD []) ∧
      (∀ e ∈ s.emails, e.id ∉ ids (value.getD []) →
        e ∉ (step s (Event.resolved Pending.checkForNewEmails value now)).emails)) := by
  rw [step_checkForNewEmails_resolved s value now h]
  refine ⟨rfl, rfl, fun hne => ?_⟩
  obtain ⟨h₁, h₂, h₃⟩ := refreshEmails_page s.emails (value.getD []) hne
  refine ⟨h₁, h₂, h₃, fun e _ hid he => hid ?_⟩
  exact mem_ids.mpr ⟨e, h₃ e he, rfl⟩

/-- C28, witness: `[a, b]` is held with cursor 2 and the page `[c, a]` arrives: the list
is `[c, a]`, `b` is gone and the cursor is still 2. -/
theorem C28_background_refresh_frame_witness :
    Pending.checkForNewEmails ∈ refreshingInbox.inflight ∧
    refreshingInbox.emails = [mkEmail "a" 2, mkEmail "b" 1] ∧
    refreshingInbox.currentSkip = 2 ∧
    (step refreshingInbox (Event.resolved Pending.checkForNewEmails
      (some [mkEmail "c" 3, mkEmail "a" 2]) 9)).emails = [mkEmail "c" 3, mkEmail "a" 2] ∧
    (step refreshingInbox (Event.resolved Pending.checkForNewEmails
      (some [mkEmail "c" 3, mkEmail "a" 2]) 9)).currentSkip = 2 ∧
    mkEmail "b" 1 ∉ (step refreshingInbox (Event.resolved Pending.checkForNewEmails
      (some [mkEmail "c" 3, mkEmail "a" 2]) 9)).emails :=
  ⟨by decide, by decide, by decide, by decide,
   (C28_background_refresh_frame refreshingInbox (some [mkEmail "c" 3, mkEmail "a" 2]) 9
      (by decide)).1.trans (by decide),
   ((C28_background_refresh_frame refreshingInbox (some [mkEmail "c" 3, mkEmail "a" 2]) 9
      (by decide)).2.2 (by decide)).2.2.2 (mkEmail "b" 1) (by decide) (by decide)⟩

/-! ## Switching the scope of a search -/

/-- C23, counterexample: the search for `abc` in the inbox has been answered and the user
ticks the all-folders box.  The step sets the flag and a 500 ms timer, and sends nothing;
the request with the new scope goes out when that timer fires. -/
theorem C23_scope_switch_waits_for_debounce :
    (step searchedInbox (Event.toggleSearchAll true)).searchAllFolders = true ∧
    (step searchedInbox (Event.toggleSearchAll true)).requests = searchedInbox.requests ∧
    (step searchedInbox (Event.toggleSearchAll true)).inflight = [] ∧
    (step searchedInbox (Event.toggleSearchAll true)).timers
      = [{ id := 2, delay := 500,
           action := TimerAction.search "abc" true (some "token") "inbox" }] ∧
    (run searchedInbox [Event.toggleSearchAll true, Event.timerFires 2]).requests
      = searchedInbox.requests ++ [Request.searchEmails "abc" none 50] := by
  decide

/-- C23, amended: ticking or unticking the all-folders box while the query is not blank sets
the flag, sends no request in that step, drops the pending debounce timer and sets a new
one of 500 ms; when that timer fires, and a token is there, the server search is sent
with the new scope. -/
theorem C23_scope_switch_debounced (s : AppState) (checked : Bool)
    (hpage : s.loading = false) (hquery : trim s.searchQuery ≠ "") :
    (step s (Event.toggleSearchAll checked)).searchAllFolders = checked ∧
    (step s (Event.toggleSearchAll checked)).searchQuery = s.searchQuery ∧
    (step s (Event.toggleSearchAll checked)).requests = s.requests ∧
    (step s (Event.toggleSearchAll checked)).inflight = s.inflight ∧
    (step s (Event.toggleSearchAll checked)).timers
      = (clearTimeoutRef s s.searchTimeoutRef).timers ++
        [{ id := s.nextTimerId, delay := 500,
           action := TimerAction.search s.searchQuery checked s.accessToken s.currentFolder }] ∧
    (step s (Event.toggleSearchAll checked)).searchTimeoutRef = some s.nextTimerId ∧
    (truthy s.accessToken = true → ∀ t : AppState,
      (timerCallback t
        (TimerAction.search s.searchQuery checked s.accessToken s.currentFolder)).requests
        = t.requests ++ [Request.searchEmails (trim s.searchQuery)
            (folderToSearch none checked s.currentFolder) 50]) := by
  have hne : s.searchQuery ≠ "" := by
    intro h
    rw [h] at hquery
    exact hquery (by decide)
  have hstep : step s (Event.toggleSearchAll checked)
      = handleSearchChange { s with searchAllFolders := checked } s.searchQuery checked := by
    have hh : handle s (Event.toggleSearchAll checked)
        = handleSearchChange { s with searchAllFolders := checked } s.searchQuery checked := by
      show (if s.loading = true then s else handleSearchAllFoldersChange s checked) = _
      rw [if_neg (by rw [hpage]; decide)]
      unfold handleSearchAllFoldersChange
      rw [if_pos (by simpa using hne)]
    unfold step
    rw [hh]
    obtain ⟨ha, hf, _, _⟩ := handleSearchChange_frame
      { s with searchAllFolders := checked } s.searchQuery checked
    exact commit_quiet _ _ ha hf
  rw [hstep]
  have hg : (s.searchQuery = "" || trim s.searchQuery = "") = false := by
    simp [hne, hquery]
  have hsc : handleSearchChange { s with searchAllFolders := checked } s.searchQuery checked
      = { setTimeout (clearTimeoutRef { s with searchAllFolders := checked } s.searchTimeoutRef)
            (TimerAction.search s.searchQuery checked s.accessToken s.currentFolder) 500
          with searchTimeoutRef := some s.nextTimerId } := by
    unfold handleSearchChange
    simp only [hg, Bool.false_eq_true, if_false]
    cases href : s.searchTimeoutRef with
    | none => rfl
    | some id =>
      simp only [clearTimeoutRef]
      split <;> rfl
  rw [hsc]
  cases href : s.searchTimeoutRef with
  | none =>
    refine ⟨rfl, rfl, rfl, rfl, rfl, rfl, fun ht t => ?_⟩
    simp [timerCallback, performSearch, ht, hne, hquery]
  | some id =>
    simp only [clearTimeoutRef]
    refine ⟨?_, ?_, ?_, ?_, ?_, ?_, fun ht t => ?_⟩
    · split <;> rfl
    · split <;> rfl
    · split <;> rfl
    · split <;> rfl
    · split <;> rfl
    · trivial
    · simp [timerCallback, performSearch, ht, hne, hquery]

/-- C23, witness: the all-folders box is ticked after the search for `abc`. -/
theorem C23_scope_switch_debounced_witness :
    searchedInbox.loading = false ∧ trim searchedInbox.searchQuery ≠ "" ∧
    (step searchedInbox (Event.toggleSearchAll true)).requests = searchedInbox.requests ∧
    (step searchedInbox (Event.toggleSearchAll true)).searchTimeoutRef = some 2 :=
  ⟨by decide, by decide,
   (C23_scope_switch_debounced searchedInbox true (by decide) (by decide)).2.2.1,
   (C23_scope_switch_debounced searchedInbox true (by decide) (by decide)).2.2.2.2.2.1⟩

/-! ## A search response that arrives late -/

/-- C24, counterexample: the search for `hello` is in flight when the user types `world`;
the result set is empty.  The response for `hello` arrives: its message becomes the result
set and is displayed under the query `world`.  When the search is cleared instead, the
late response fills the result set that the clear had emptied. -/
theorem C24_stale_search_response_is_shown :
    (step searchSent (Event.typeSearch "world")).searchQuery = "world" ∧
    (step searchSent (Event.typeSearch "world")).searchResults = [] ∧
    (step searchSent (Event.typeSearch "world")).inflight
      = [Pending.searchEmails "hello" none false "inbox"] ∧
    (run searchSent [Event.typeSearch "world",
      Event.resolved (Pending.searchEmails "hello" none false "inbox")
        (some [helloInSubject]) 3]).searchQuery = "world" ∧
    (run searchSent [Event.typeSearch "world",
      Event.resolved (Pending.searchEmails "hello" none false "inbox")
        (some [helloInSubject]) 3]).searchResults = [helloInSubject] ∧
    displayed (run searchSent [Event.typeSearch "world",
      Event.resolved (Pending.searchEmails "hello" none false "inbox")
        (some [helloInSubject]) 3]) = [helloInSubject] ∧
    (step searchSent Event.clearSearch).searchResults = [] ∧
    (run searchSent [Event.clearSearch,
      Event.resolved (Pending.searchEmails "hello" none false "inbox")
        (some [helloInSubject]) 3]).searchResults = [helloInSubject] := by
  decide

/-- C24, amended: when the response of a search request arrives, its messages become the
result set and the searching flag is lowered, whatever the query is by then; the query and
the folder list stay, and the list displayed is the folder list when the query is blank
and the messages of the response otherwise. -/
theorem C24_search_response_always_applied (s : AppState) (query : String)
    (folder : Option String) (searchAll : Bool) (currentFolder : String)
    (value : Option (List Email)) (now : Nat)
    (h : Pending.searchEmails query folder searchAll currentFolder ∈ s.inflight) :
    (step s (Event.resolved (Pending.searchEmails query folder searchAll currentFolder)
      value now)).searchResults = value.getD [] ∧
    (step s (Event.resolved (Pending.searchEmails query folder searchAll currentFolder)
      value now)).isSearching = false ∧
    (step s (Event.resolved (Pending.searchEmails query folder searchAll currentFolder)
      value now)).searchQuery = s.searchQuery ∧
    (step s (Event.resolved (Pending.searchEmails query folder searchAll currentFolder)
      value now)).emails = s.emails ∧
    displayed (step s (Event.resolved (Pending.searchEmails query folder searchAll
      currentFolder) value now))
      = if trim s.searchQuery = "" then s.emails else value.getD [] := by
  rw [step_resolved s _ value now h rfl]
  refine ⟨rfl, rfl, rfl, rfl, ?_⟩
  simp only [displayed, resume, performSearchResolved]
  by_cases hq : trim s.searchQuery = "" <;> simp [hq]

/-- C24, witness: the response for `hello` arrives after the query became `world`. -/
theorem C24_search_response_always_applied_witness :
    Pending.searchEmails "hello" none false "inbox"
      ∈ (step searchSent (Event.typeSearch "world")).inflight ∧
    (step (step searchSent (Event.typeSearch "world"))
      (Event.resolved (Pending.searchEmails "hello" none false "inbox")
        (some [helloInSubject]) 3)).searchResults = [helloInSubject] :=
  ⟨by decide,
   (C24_search_response_always_applied (step searchSent (Event.typeSearch "world")) "hello"
      none false "inbox" (some [helloInSubject]) 3 (by decide)).1⟩

/-! ## The outcome of a request -/

theorem trim_empty : trim "" = "" := by decide

theorem default_message_ne (status : Nat) : "Graph API error: " ++ toString status ≠ "" := by
  intro h
  have := congrArg String.length h
  simp only [String.length_append] at this
  have h17 : "Graph API error: ".length = 17 := by decide
  have h0 : "".length = 0 := by decide
  omega

theorem orElse_ne (a : Option String) (b : String) (hb : b ≠ "") : orElse a b ≠ "" := by
  unfold orElse
  split
  · rename_i h
    cases a with
    | none => simp [truthy] at h
    | some t => simpa [truthy] using h
  · exact hb

theorem graphRequestErrorMessage_ne (status : Nat) (statusText : String) (body : ErrorBody) :
    graphRequestErrorMessage status statusText body ≠ "" :=
  orElse_ne _ _ (default_message_ne status)

/-- C26, counterexample: a 404 whose JSON body keeps its message under `error`, as the
mail API sends it, raises `Graph API error: 404`, and a 404 whose body is not JSON raises
the status text; only a body with a top-level `message` gives the message of the error. -/
theorem C26_error_message_not_from_body :
    graphRequest sampleParse sampleMessage 404 "Not Found" notFoundBody
      = Outcome.error "Graph API error: 404" ∧
    graphRequest sampleParse sampleMessage 404 "Not Found" "<html>Not Found</html>"
      = Outcome.error "Not Found" ∧
    graphRequest sampleParse sampleMessage 403 "Forbidden" accessDeniedBody
      = Outcome.error "Access is denied." := by
  decide

/-- C26, amended: for a status from 200 to 299 `graphRequest` raises nothing: it returns
bare success for 202, 204 and a blank body, the parsed value when the body parses and the
raw text when it does not.  For any other status it raises an error with a non-empty
message: the body's `message` when the body parses and has a non-empty one, the status
text when the body does not parse and the status text is non-empty, and
`Graph API error: ` followed by the status otherwise. -/
theorem C26_graphRequest_outcome {J : Type} (parse : String → Option J)
    (message : J → Option String) (status : Nat) (statusText text : String) :
    (200 ≤ status ∧ status ≤ 299 →
      (∀ m, graphRequest parse message status statusText text ≠ Outcome.error m) ∧
      (status = 202 ∨ status = 204 ∨ trim text = "" →
        graphRequest parse message status statusText text = Outcome.success) ∧
      (status ≠ 202 → status ≠ 204 → trim text ≠ "" →
        (∀ value, parse text = some value →
          graphRequest parse message status statusText text = Outcome.parsed value) ∧
        (parse text = none →
          graphRequest parse message status statusText text = Outcome.raw text))) ∧
    (¬ (200 ≤ status ∧ status ≤ 299) →
      ∃ m, graphRequest parse message status statusText text = Outcome.error m ∧ m ≠ "" ∧
        (∀ value b, parse text = some value → message value = some b → b ≠ "" → m = b) ∧
        (∀ value, parse text = some value → (message value = none ∨ message value = some "") →
          m = "Graph API error: " ++ toString status) ∧
        (parse text = none → statusText ≠ "" → m = statusText) ∧
        (parse text = none → statusText = "" → m = "Graph API error: " ++ toString status)) := by
  have hempty : text = "" → trim text = "" := fun h => h ▸ trim_empty
  constructor
  · intro hok
    have hg : (!(decide (200 ≤ status) && decide (status ≤ 299))) = false := by
      simp [hok.1, hok.2]
    refine ⟨fun m => ?_, fun h => ?_, fun h₁ h₂ h₃ => ⟨fun value hv => ?_, fun hv => ?_⟩⟩
    · unfold graphRequest
      rw [hg]
      simp only [Bool.false_eq_true, if_false]
      split
      · simp
      · split
        · simp
        · split <;> simp
    · unfold graphRequest
      rw [hg]
      simp only [Bool.false_eq_true, if_false]
      rcases h with h | h | h
      · simp [h]
      · simp [h]
      · simp [h]
    · have ht : ¬ (text = "" ∨ trim text = "") := fun h => h.elim (fun e => h₃ (hempty e)) h₃
      unfold graphRequest
      rw [hg]
      simp only [Bool.false_eq_true, if_false]
      rw [if_neg (fun h => h.elim h₂ h₁), if_neg ht, hv]
    · have ht : ¬ (text = "" ∨ trim text = "") := fun h => h.elim (fun e => h₃ (hempty e)) h₃
      unfold graphRequest
      rw [hg]
      simp only [Bool.false_eq_true, if_false]
      rw [if_neg (fun h => h.elim h₂ h₁), if_neg ht, hv]
  · intro hnot
    have hg : (!(decide (200 ≤ status) && decide (status ≤ 299))) = true := by
      by_cases h₁ : 200 ≤ status
      · by_cases h₂ : status ≤ 299
        · exact absurd ⟨h₁, h₂⟩ hnot
        · simp [h₁, h₂]
      · simp [h₁]
    refine ⟨graphRequestErrorMessage status statusText (errorBody parse message text), ?_,
      graphRequestErrorMessage_ne _ _ _, ?_, ?_, ?_, ?_⟩
    · unfold graphRequest
      rw [hg]
      simp
    · intro value b hv hb hne
      simp [graphRequestErrorMessage, errorBody, hv, hb, orElse, truthy, hne]
    · intro value hv hb
      rcases hb with hb | hb <;>
        simp [graphRequestErrorMessage, errorBody, hv, hb, orElse, truthy]
    · intro hv hne
      simp [graphRequestErrorMessage, errorBody, hv, orElse, truthy, hne]
    · intro hv he
      simp [graphRequestErrorMessage, errorBody, hv, orElse, truthy, he]

/-- C26, witness: a page of no messages, a 204, a body that is not JSON, and a 403. -/
theorem C26_graphRequest_outcome_witness :
    (200 ≤ 200 ∧ 200 ≤ 299) ∧ trim emptyPageBody ≠ "" ∧
    graphRequest sampleParse sampleMessage 200 "OK" emptyPageBody
      = Outcome.parsed [] ∧
    graphRequest sampleParse sampleMessage 204 "No Content" "" = Outcome.success ∧
    graphRequest sampleParse sampleMessage 200 "OK" "done" = Outcome.raw "done" ∧
    ¬ (200 ≤ 403 ∧ 403 ≤ 299) ∧
    ∃ m, graphRequest sampleParse sampleMessage 403 "Forbidden"
      accessDeniedBody = Outcome.error m ∧ m ≠ "" :=
  ⟨by decide, by decide,
   (((C26_graphRequest_outcome sampleParse sampleMessage 200 "OK" emptyPageBody).1
      (by decide)).2.2 (by decide) (by decide) (by decide)).1 [] (by decide),
   by decide, by decide, by decide,
   (((C26_graphRequest_outcome sampleParse sampleMessage 403 "Forbidden"
      accessDeniedBody).2 (by decide)).imp
      (fun _ h => ⟨h.1, h.2.1⟩))⟩

/-! ## Deleting a message that is gone -/

/-- C25, counterexample: `a` is deleted from the inbox `[a, b]` and the mail API answers
404 with its error body; `graphRequest` raises `Graph API error: 404`, the handler puts
`a` back at the head of the list and shows the failure alert. -/
theorem C25_delete_of_vanished_message_is_reported :
    graphRequest sampleParse sampleMessage 404 "Not Found" notFoundBody
      = Outcome.error "Graph API error: 404" ∧
    (run (loadedInbox [mkEmail "a" 2, mkEmail "b" 1])
      [Event.clickDelete "a",
       Event.rejected (Pending.deleteEmail "a" (mkEmail "a" 2) "inbox")
         "Graph API error: 404"]).emails = [mkEmail "a" 2, mkEmail "b" 1] ∧
    (run (loadedInbox [mkEmail "a" 2, mkEmail "b" 1])
      [Event.clickDelete "a",
       Event.rejected (Pending.deleteEmail "a" (mkEmail "a" 2) "inbox")
         "Graph API error: 404"]).alerts
      = ["Failed to delete email: Graph API error: 404. The email has been restored."] := by
  refine ⟨by decide, by decide, by rfl⟩

/-- C25, amended: when the remote delete of the message `A` of id `x` is answered with the
status 404 or 410, `graphRequest` raises an error and the handler treats it like any other
failure: `A` is put back at the head of the list unless its id is there, so the id is in
the list again, one alert is shown, the permission text or the failure text built from
the message of the error, and the Undo Record stays as it is. -/
theorem C25_delete_of_vanished_message_restores {J : Type} (parse : String → Option J)
    (message : J → Option String) (s : AppState) (x : String) (A : Email) (f : String)
    (status : Nat) (statusText text : String)
    (hstatus : status = 404 ∨ status = 410)
    (h : Pending.deleteEmail x A f ∈ s.inflight) (hid : A.id = x) :
    ∃ m, graphRequest parse message status statusText text = Outcome.error m ∧
      (step s (Event.rejected (Pending.deleteEmail x A f) m)).emails
        = (if x ∈ ids s.emails then s.emails else A :: s.emails) ∧
      x ∈ ids (step s (Event.rejected (Pending.deleteEmail x A f) m)).emails ∧
      (step s (Event.rejected (Pending.deleteEmail x A f) m)).alerts
        = s.alerts ++
          [if isPermissionError m then permissionDeniedMessage else deleteFailedMessage m] ∧
      (step s (Event.rejected (Pending.deleteEmail x A f) m)).undoInfo = s.undoInfo := by
  have hnot : ¬ (200 ≤ status ∧ status ≤ 299) := by omega
  have hg : (!(decide (200 ≤ status) && decide (status ≤ 299))) = true := by
    rcases hstatus with h | h <;> subst h <;> decide
  refine ⟨graphRequestErrorMessage status statusText (errorBody parse message text), ?_, ?_⟩
  · unfold graphRequest
    rw [hg]
    simp
  · rw [step_rejected s _ _ h rfl]
    have hlist : (fail { s with inflight := s.inflight.erase (Pending.deleteEmail x A f) }
        (Pending.deleteEmail x A f)
        (graphRequestErrorMessage status statusText (errorBody parse message text))).emails
        = (if x ∈ ids s.emails then s.emails else A :: s.emails) := by
      simp only [fail, handleDeleteEmailRejected]
      by_cases hx : x ∈ ids s.emails
      · rw [if_pos hx, if_pos ((any_id_iff s.emails x).mpr hx)]
      · rw [if_neg hx, if_neg (fun h => hx ((any_id_iff s.emails x).mp h))]
    refine ⟨hlist, ?_, rfl, rfl⟩
    rw [hlist]
    split
    · assumption
    · simp [ids, hid]

/-- C25, witness: the delete of `a` from `[a, b]` is answered with the 404 of the mail
API. -/
theorem C25_delete_of_vanished_message_restores_witness :
    Pending.deleteEmail "a" (mkEmail "a" 2) "inbox" ∈ deletingFirst.inflight ∧
    ∃ m, graphRequest sampleParse sampleMessage 404 "Not Found" notFoundBody
        = Outcome.error m ∧
      "a" ∈ ids (step deletingFirst
        (Event.rejected (Pending.deleteEmail "a" (mkEmail "a" 2) "inbox") m)).emails :=
  ⟨by decide,
   (C25_delete_of_vanished_message_restores sampleParse sampleMessage deletingFirst "a"
      (mkEmail "a" 2) "inbox" 404 "Not Found" notFoundBody (Or.inl rfl) (by decide) rfl).imp
      (fun _ h => ⟨h.1, h.2.2.1⟩)⟩

/-! ## The snapshots held -/

theorem recordsKept_refl (s : AppState) : RecordsKept s s :=
  ⟨fun _ h => Or.inl h, Or.inl rfl⟩

theorem recordsKept_trans {s₁ s₂ s₃ : AppState} (h₁ : RecordsKept s₁ s₂)
    (h₂ : RecordsKept s₂ s₃) : RecordsKept s₁ s₃ := by
  refine ⟨fun p hp => ?_, ?_⟩
  · rcases h₂.1 p hp with h | h
    · exact h₁.1 p h
    · exact Or.inr h
  · rcases h₂.2 with h | h
    · rcases h₁.2 with h' | h'
      · exact Or.inl (h.trans h')
      · exact Or.inr (h.trans h')
    · exact Or.inr h

theorem recordInv_kept {s s' : AppState} (h : RecordInv s) (hk : RecordsKept s s') :
    RecordInv s' := by
  refine ⟨fun p hp => ?_, fun u hu => ?_⟩
  · rcases hk.1 p hp with h' | h'
    · exact h.1 p h'
    · exact h'
  · rcases hk.2 with h' | h'
    · exact h.2 u (h' ▸ hu)
    · rw [h'] at hu
      cases hu

/-- A handler that suspends itself on a request whose snapshot, if it carries one, has its
id. -/
theorem recordsKept_push (s : AppState) (inflight : List Pending) (undoInfo : Option UndoInfo)
    (p : Pending) (hp : snapshotOk p) (hi : inflight = s.inflight ++ [p])
    (hu : undoInfo = s.undoInfo ∨ undoInfo = none) :
    (∀ q ∈ inflight, q ∈ s.inflight ∨ snapshotOk q) ∧
    (undoInfo = s.undoInfo ∨ undoInfo = none) := by
  refine ⟨fun q hq => ?_, hu⟩
  rw [hi, List.mem_append, List.mem_singleton] at hq
  rcases hq with hq | hq
  · exact Or.inl hq
  · exact Or.inr (hq ▸ hp)

theorem clearTimeoutRef_records (s : AppState) (ref : Option Nat) :
    RecordsKept s (clearTimeoutRef s ref) := by
  unfold clearTimeoutRef clearTimeout
  split
  · split
    · exact ⟨fun _ h => Or.inl h, Or.inl rfl⟩
    · exact recordsKept_refl s
  · exact recordsKept_refl s

theorem fetchEmails_records (s : AppState) (k : Int) (f : String)
    (showLoading append : Bool) (folder : Option String) (after : AfterFetch) :
    RecordsKept s (fetchEmails s k f showLoading append folder after) := by
  cases showLoading <;>
    exact recordsKept_push s _ _ (Pending.fetchEmails _ append after) trivial rfl (Or.inl rfl)

theorem fetchEmailsFinally_records (s : AppState) (showLoading : Bool) :
    RecordsKept s (fetchEmailsFinally s showLoading) := by
  cases showLoading <;> exact ⟨fun _ h => Or.inl h, Or.inl rfl⟩

theorem fetchEmailsResolved_records (s : AppState) (showLoading append : Bool)
    (value : Option (List Email)) (now : Nat) :
    RecordsKept s (fetchEmailsResolved s showLoading append value now) := by
  cases showLoading <;> cases append <;> exact ⟨fun _ h => Or.inl h, Or.inl rfl⟩

theorem checkForNewEmails_records (s : AppState) : RecordsKept s (checkForNewEmails s) := by
  unfold checkForNewEmails
  split
  · exact recordsKept_refl s
  · exact recordsKept_push s _ _ Pending.checkForNewEmails trivial rfl (Or.inl rfl)

theorem loadMoreEmails_records (s : AppState) : RecordsKept s (loadMoreEmails s) := by
  unfold loadMoreEmails
  split
  · exact recordsKept_refl s
  · exact recordsKept_push s _ _ Pending.loadMoreEmails trivial rfl (Or.inl rfl)

theorem clearUndo_records (s : AppState) : RecordsKept s (clearUndo s) := by
  unfold clearUndo
  refine recordsKept_trans ?_ (clearTimeoutRef_records _ _)
  exact ⟨fun _ h => Or.inl h, Or.inr rfl⟩

theorem afterFetch_records (s : AppState) (after : AfterFetch) :
    RecordsKept s (afterFetch s after) := by
  cases after
  · exact recordsKept_refl s
  · exact ⟨fun _ h => Or.inl h, Or.inl rfl⟩
  · exact clearUndo_records s

theorem handleClearSearch_records (s : AppState) : RecordsKept s (handleClearSearch s) := by
  unfold handleClearSearch
  refine recordsKept_trans ?_ (clearTimeoutRef_records _ _)
  exact ⟨fun _ h => Or.inl h, Or.inl rfl⟩

theorem handleSearchChange_records (s : AppState) (query : String) (searchAll : Bool) :
    RecordsKept s (handleSearchChange s query searchAll) := by
  have h : RecordsKept s (clearTimeoutRef
      { s with searchQuery := query, searchAllFolders := searchAll } s.searchTimeoutRef) :=
    recordsKept_trans ⟨fun _ h => Or.inl h, Or.inl rfl⟩ (clearTimeoutRef_records _ _)
  unfold handleSearchChange
  split
  · exact h
  · exact h

theorem handleRefresh_records (s : AppState) : RecordsKept s (handleRefresh s) := by
  unfold handleRefresh
  split
  · refine recordsKept_trans ?_ (fetchEmails_records _ _ _ _ _ _ _)
    exact ⟨fun _ h => Or.inl h, Or.inl rfl⟩
  · exact recordsKept_refl s

theorem handleFolderChange_records (s : AppState) (folder : String) :
    RecordsKept s (handleFolderChange s folder) := by
  unfold handleFolderChange
  split
  · refine recordsKept_trans ?_ (fetchEmails_records _ _ _ _ _ _ _)
    refine recordsKept_trans ?_ (handleClearSearch_records _)
    exact ⟨fun _ h => Or.inl h, Or.inl rfl⟩
  · exact recordsKept_refl s

theorem handleDeleteEmail_records (s : AppState) (x : String) :
    RecordsKept s (handleDeleteEmail s x) := by
  unfold handleDeleteEmail
  split
  · exact ⟨fun _ h => Or.inl h, Or.inl rfl⟩
  · split
    · exact recordsKept_refl s
    · rename_i A hfind
      exact recordsKept_push s _ _ (Pending.deleteEmail x A s.currentFolder)
        (find_id s.emails x A hfind).2 rfl (Or.inl rfl)

theorem handleEmailSelect_records (s : AppState) (email : Email) :
    RecordsKept s (handleEmailSelect s email) := by
  unfold handleEmailSelect
  split
  · exact recordsKept_push s _ _ (Pending.updateEmailReadStatus email s.emails) trivial rfl
      (Or.inl rfl)
  · exact ⟨fun _ h => Or.inl h, Or.inl rfl⟩

theorem performSearch_records (s : AppState) (accessToken : Option String)
    (currentFolder query : String) (folder : Option String) (searchAll : Bool) :
    RecordsKept s (performSearch s accessToken currentFolder query folder searchAll) := by
  unfold performSearch
  split
  · exact ⟨fun _ h => Or.inl h, Or.inl rfl⟩
  · exact recordsKept_push s _ _ (Pending.searchEmails query folder searchAll currentFolder)
      trivial rfl (Or.inl rfl)

theorem performSearchRejected_records (s : AppState) (query : String)
    (folder : Option String) (searchAll : Bool) (currentFolder message : String) :
    RecordsKept s (performSearchRejected s query folder searchAll currentFolder message) := by
  unfold performSearchRejected
  split
  · split
    · exact recordsKept_push s _ _ (Pending.searchFallback query) trivial rfl (Or.inl rfl)
    · exact recordsKept_push s _ _ (Pending.searchFallbackAll query) trivial rfl (Or.inl rfl)
  · exact ⟨fun _ h => Or.inl h, Or.inl rfl⟩

theorem timerCallback_records (s : AppState) (action : TimerAction) :
    RecordsKept s (timerCallback s action) := by
  cases action
  · exact ⟨fun _ h => Or.inl h, Or.inr rfl⟩
  · exact performSearch_records _ _ _ _ _ _

theorem handleUndoDelete_recordInv (s : AppState) (h : RecordInv s) :
    RecordInv (handleUndoDelete s) := by
  unfold handleUndoDelete
  split
  · exact h
  · rename_i u hu
    split
    · exact h
    · exact recordInv_kept h
        (recordsKept_push s _ _ (Pending.restoreEmail u s.currentFolder s.currentSkip)
          (h.2 u hu) rfl (Or.inl rfl))

theorem handleDeleteEmailResolved_inflight (s : AppState) (x : String) (A : Email)
    (f : String) (now : Nat) :
    (handleDeleteEmailResolved s x A f now).inflight = s.inflight := by
  unfold handleDeleteEmailResolved setTimeout clearTimeoutRef clearTimeout
  cases s.undoTimeoutRef with
  | none => rfl
  | some id => by_cases hz : (id != 0) = true <;> simp [hz]

theorem handleDeleteEmailResolved_recordInv (s : AppState) (x : String) (A : Email)
    (f : String) (now : Nat) (h : RecordInv s) (hA : A.id = x) :
    RecordInv (handleDeleteEmailResolved s x A f now) := by
  refine ⟨fun p hp => ?_, fun u hu => ?_⟩
  · rw [handleDeleteEmailResolved_inflight] at hp
    exact h.1 p hp
  · rw [handleDeleteEmailResolved_undoInfo] at hu
    rw [← Option.some.inj hu]
    exact hA

theorem handleUndoDeleteResolved_records (s : AppState) (u : UndoInfo) (f : String)
    (k : Int) : RecordsKept s (handleUndoDeleteResolved s u f k) := by
  unfold handleUndoDeleteResolved
  split
  · refine recordsKept_trans ?_ (clearUndo_records _)
    exact ⟨fun _ h => Or.inl h, Or.inl rfl⟩
  · exact fetchEmails_records _ _ _ _ _ _ _

theorem erase_records (s : AppState) (p : Pending) :
    RecordsKept s { s with inflight := s.inflight.erase p } :=
  ⟨fun _ h => Or.inl (List.mem_of_mem_erase h), Or.inl rfl⟩

theorem resume_recordInv (s : AppState) (p : Pending) (value : Option (List Email))
    (now : Nat) (h : RecordInv s) (hp : snapshotOk p) :
    RecordInv (resume s p value now) := by
  cases p with
  | fetchEmails showLoading append after =>
    exact recordInv_kept h (recordsKept_trans
      (fetchEmailsResolved_records s showLoading append value now) (afterFetch_records _ _))
  | deleteEmail x A f => exact handleDeleteEmailResolved_recordInv s x A f now h hp
  | restoreEmail u f k => exact recordInv_kept h (handleUndoDeleteResolved_records s u f k)
  | sendEmail f k =>
    refine recordInv_kept h (recordsKept_trans ?_ (fetchEmails_records _ _ _ _ _ _ _))
    exact ⟨fun _ h => Or.inl h, Or.inl rfl⟩
  | _ => exact recordInv_kept h ⟨fun _ h => Or.inl h, Or.inl rfl⟩

theorem fail_records (s : AppState) (p : Pending) (message : String) :
    RecordsKept s (fail s p message) := by
  cases p with
  | fetchEmails showLoading append after =>
    exact recordsKept_trans (fetchEmailsFinally_records s showLoading) (afterFetch_records _ _)
  | restoreEmail u f k => exact ⟨fun _ h => Or.inl h, Or.inr rfl⟩
  | searchEmails query folder searchAll currentFolder =>
    exact performSearchRejected_records _ _ _ _ _ _
  | _ => exact ⟨fun _ h => Or.inl h, Or.inl rfl⟩

theorem commit_records (s s' : AppState) : RecordsKept s' (commit s s') := by
  unfold commit
  split
  · exact recordsKept_refl s'
  · exact ⟨fun _ h => Or.inl h, Or.inl rfl⟩

theorem handle_recordInv (s : AppState) (ev : Event) (h : RecordInv s) :
    RecordInv (handle s ev) := by
  cases ev with
  | tokenAcquired token =>
    simp only [handle]
    split
    · split
      · refine recordInv_kept h (recordsKept_trans ?_ (fetchEmails_records _ _ _ _ _ _ _))
        exact ⟨fun _ h => Or.inl h, Or.inl rfl⟩
      · exact recordInv_kept h ⟨fun _ h => Or.inl h, Or.inl rfl⟩
    · exact h
  | refreshTick => exact recordInv_kept h (checkForNewEmails_records s)
  | clickFolder folder =>
    simp only [handle, handleFolderClick]
    split
    · exact h
    · split
      · split
        · exact h
        · exact recordInv_kept h (handleRefresh_records s)
      · exact recordInv_kept h (handleFolderChange_records s folder)
  | scrollToEnd =>
    simp only [handle]
    split
    · exact h
    · exact recordInv_kept h (loadMoreEmails_records s)
  | typeSearch query =>
    simp only [handle]
    split
    · exact h
    · exact recordInv_kept h (handleSearchChange_records _ _ _)
  | toggleSearchAll checked =>
    simp only [handle, handleSearchAllFoldersChange]
    split
    · exact h
    · split
      · refine recordInv_kept h (recordsKept_trans ?_ (handleSearchChange_records _ _ _))
        exact ⟨fun _ h => Or.inl h, Or.inl rfl⟩
      · exact recordInv_kept h ⟨fun _ h => Or.inl h, Or.inl rfl⟩
  | clearSearch =>
    simp only [handle]
    split
    · exact h
    · exact recordInv_kept h (handleClearSearch_records s)
  | clickEmail email =>
    simp only [handle]
    split
    · exact h
    · exact recordInv_kept h (handleEmailSelect_records s email)
  | clickDelete emailId =>
    simp only [handle]
    split
    · exact h
    · exact recordInv_kept h (handleDeleteEmail_records s emailId)
  | clickUndo =>
    simp only [handle]
    split
    · exact h
    · exact handleUndoDelete_recordInv s h
  | dismiss =>
    simp only [handle]
    split
    · exact h
    · exact recordInv_kept h (clearUndo_records s)
  | clickBadge =>
    simp only [handle]
    split
    · exact h
    · exact recordInv_kept h ⟨fun _ h => Or.inl h, Or.inl rfl⟩
  | clickCompose =>
    simp only [handle]
    split
    · exact h
    · exact recordInv_kept h ⟨fun _ h => Or.inl h, Or.inl rfl⟩
  | cancelCompose =>
    simp only [handle]
    split
    · exact h
    · exact recordInv_kept h ⟨fun _ h => Or.inl h, Or.inl rfl⟩
  | clickSend =>
    simp only [handle]
    split
    · exact h
    · exact recordInv_kept h
        (recordsKept_push s _ _ (Pending.sendEmail s.currentFolder s.currentSkip) trivial rfl
          (Or.inl rfl))
  | timerFires id =>
    simp only [handle]
    split
    · refine recordInv_kept h (recordsKept_trans ?_ (timerCallback_records _ _))
      exact ⟨fun _ h => Or.inl h, Or.inl rfl⟩
    · exact h
  | resolved p value now =>
    simp only [handle]
    split
    · rename_i hg
      simp only [Bool.and_eq_true, decide_eq_true_eq] at hg
      exact resume_recordInv _ p value now (recordInv_kept h (erase_records s p))
        (h.1 p hg.1)
    · exact h
  | rejected p message =>
    simp only [handle]
    split
    · exact recordInv_kept h (recordsKept_trans (erase_records s p) (fail_records _ p message))
    · exact h
  | resolvedAll p inbox sent drafts =>
    simp only [handle]
    split
    · split
      · exact recordInv_kept h ⟨fun _ h => Or.inl (List.mem_of_mem_erase h), Or.inl rfl⟩
      · exact h
    · exact h

theorem step_recordInv (s : AppState) (ev : Event) (h : RecordInv s) :
    RecordInv (step s ev) :=
  recordInv_kept (handle_recordInv s ev h) (commit_records _ _)

theorem run_recordInv (evs : List Event) (s : AppState) (h : RecordInv s) :
    RecordInv (run s evs) := by
  induction evs generalizing s with
  | nil => exact h
  | cons ev rest ih => exact ih (step s ev) (step_recordInv s ev h)

/-- In every reachable state a suspended delete or restore, and the Undo Record, hold a
snapshot whose id is the id held with it. -/
theorem reachable_recordInv (s : AppState) (h : Reachable s) : RecordInv s := by
  obtain ⟨evs, rfl⟩ := h
  refine run_recordInv evs initialState ⟨fun p hp => ?_, fun u hu => ?_⟩
  · cases hp
  · cases hu

/-! ## Distinct ids under the local mutations -/

/-- The update of `handleEmailSelect` changes no id. -/
theorem ids_markRead (email : Email) (emails : List Email) :
    ids (emails.map (fun e => if e.id = email.id then { e with isRead := true } else e))
      = ids emails := by
  rw [ids, ids, List.map_map]
  apply List.map_congr_left
  intro e _
  simp only [Function.comp]
  split <;> rfl

/-- C27, the failing run: the first page held `a` twice and `a` was clicked; a background
refresh has since left the list `[a]`, whose ids are distinct.  When the remote update of
the read flag resolves, `handleEmailSelect` writes back the list of the render of the
click instead of updating the held list, and `a` is in the list twice again. -/
theorem C27_mark_read_restores_duplicates :
    (ids twiceInPage.emails).Nodup ∧
    twiceInPage.inflight
      = [Pending.updateEmailReadStatus (mkEmail "a" 2) [mkEmail "a" 2, mkEmail "a" 2]] ∧
    ids (step twiceInPage (Event.resolved
      (Pending.updateEmailReadStatus (mkEmail "a" 2) [mkEmail "a" 2, mkEmail "a" 2])
      none 5)).emails = ["a", "a"] ∧
    ¬ (ids (step twiceInPage (Event.resolved
      (Pending.updateEmailReadStatus (mkEmail "a" 2) [mkEmail "a" 2, mkEmail "a" 2])
      none 5)).emails).Nodup := by
  decide

/-- What holds of the local mutations: when the held list has distinct ids, so has the list
after the optimistic delete, after the re-insertion of a failed delete and after the
re-insertion of a restore, for every id, every snapshot carrying that id and every list
the re-insertion finds; the update of `handleEmailSelect` returns the list it maps over
with the ids it had, so the ids stay distinct when that list, the list of the render of
the click, had distinct ids, as it has when it is the held list.  In a reachable state
every suspended delete and restore carries a snapshot of the id it carries. -/
theorem local_mutations_keep_ids_distinct (s : AppState) (x : String) (A : Email)
    (message : String) (u : UndoInfo) (f : String) (k : Int) (email : Email)
    (emails : List Email) (hnodup : (ids s.emails).Nodup) :
    (ids (handleDeleteEmail s x).emails).Nodup ∧
    (A.id = x → (ids (handleDeleteEmailRejected s x A message).emails).Nodup) ∧
    (u.email.id = u.emailId → (ids (handleUndoDeleteResolved s u f k).emails).Nodup) ∧
    ids (handleEmailSelectResolved s email emails).emails = ids emails ∧
    ((ids emails).Nodup → (ids (handleEmailSelectResolved s email emails).emails).Nodup) ∧
    (ids (handleEmailSelectResolved s email s.emails).emails).Nodup ∧
    (Reachable s →
      (∀ y B g, Pending.deleteEmail y B g ∈ s.inflight → B.id = y) ∧
      (∀ v g j, Pending.restoreEmail v g j ∈ s.inflight → v.email.id = v.emailId)) := by
  have hmark : ∀ l : List Email, ids (handleEmailSelectResolved s email l).emails = ids l :=
    fun l => ids_markRead email l
  refine ⟨?_, fun hA => ?_, fun hu => ?_, hmark emails, fun h => (hmark emails) ▸ h,
    (hmark s.emails) ▸ hnodup, fun hs => ⟨fun y B g hp => (reachable_recordInv s hs).1 _ hp,
      fun v g j hp => (reachable_recordInv s hs).1 _ hp⟩⟩
  · unfold handleDeleteEmail
    split
    · exact hnodup
    · split
      · exact hnodup
      · exact hnodup.sublist (ids_filter_sublist _ _)
  · simp only [handleDeleteEmailRejected]
    split
    · exact hnodup
    · rename_i hx
      rw [any_id_iff] at hx
      simp only [ids, List.map_cons, List.nodup_cons]
      exact ⟨hA ▸ hx, hnodup⟩
  · unfold handleUndoDeleteResolved
    split
    · rw [clearUndo_emails]
      simp only
      split
      · exact hnodup
      · rename_i hx
        rw [any_id_iff] at hx
        simp only [ids, List.map_cons, List.nodup_cons]
        exact ⟨hu ▸ hx, hnodup⟩
    · simp only [fetchEmails]
      exact hnodup

/-- The four mutations on the loaded inbox `[a, b]`, the re-insertions made with a message
`c` that the list does not hold. -/
theorem local_mutations_example :
    (ids (loadedInbox [mkEmail "a" 2, mkEmail "b" 1]).emails).Nodup ∧
    (ids (handleDeleteEmail (loadedInbox [mkEmail "a" 2, mkEmail "b" 1]) "a").emails).Nodup ∧
    (ids (handleDeleteEmailRejected (loadedInbox [mkEmail "a" 2, mkEmail "b" 1]) "c"
      (mkEmail "c" 3) "Failed to fetch").emails).Nodup ∧
    (ids (handleEmailSelectResolved (loadedInbox [mkEmail "a" 2, mkEmail "b" 1])
      (mkEmail "a" 2) (loadedInbox [mkEmail "a" 2, mkEmail "b" 1]).emails).emails).Nodup :=
  ⟨by decide,
   (local_mutations_keep_ids_distinct (loadedInbox [mkEmail "a" 2, mkEmail "b" 1]) "a"
      (mkEmail "a" 2) "" undoOfA "inbox" 0 (mkEmail "a" 2) [] (by decide)).1,
   (local_mutations_keep_ids_distinct (loadedInbox [mkEmail "a" 2, mkEmail "b" 1]) "c"
      (mkEmail "c" 3) "Failed to fetch" undoOfA "inbox" 0 (mkEmail "a" 2) []
      (by decide)).2.1 rfl,
   (local_mutations_keep_ids_distinct (loadedInbox [mkEmail "a" 2, mkEmail "b" 1]) "a"
      (mkEmail "a" 2) "" undoOfA "inbox" 0 (mkEmail "a" 2) [] (by decide)).2.2.2.2.2.1⟩

/-! ## Loading more -/

theorem clearTimeoutRef_loadingMore (s : AppState) (ref : Option Nat) :
    loadingMore (clearTimeoutRef s ref) = loadingMore s := by
  unfold clearTimeoutRef clearTimeout
  split
  · split <;> rfl
  · rfl

theorem fetchEmails_loadingMore (s : AppState) (k : Int) (f : String)
    (showLoading append : Bool) (folder : Option String) (after : AfterFetch) :
    loadingMore (fetchEmails s k f showLoading append folder after) = loadingMore s := by
  cases showLoading <;> simp [fetchEmails, loadingMore, List.count_append]

theorem fetchEmailsFinally_loadingMore (s : AppState) (showLoading : Bool) :
    loadingMore (fetchEmailsFinally s showLoading) = loadingMore s := by
  cases showLoading <;> rfl

theorem fetchEmailsResolved_loadingMore (s : AppState) (showLoading append : Bool)
    (value : Option (List Email)) (now : Nat) :
    loadingMore (fetchEmailsResolved s showLoading append value now) = loadingMore s := by
  cases showLoading <;> cases append <;> rfl

theorem checkForNewEmails_loadingMore (s : AppState) :
    loadingMore (checkForNewEmails s) = loadingMore s := by
  unfold checkForNewEmails
  split
  · rfl
  · simp [loadingMore, List.count_append]

theorem clearUndo_loadingMore (s : AppState) : loadingMore (clearUndo s) = loadingMore s := by
  unfold clearUndo
  rw [clearTimeoutRef_loadingMore]
  rfl

theorem afterFetch_loadingMore (s : AppState) (after : AfterFetch) :
    loadingMore (afterFetch s after) = loadingMore s := by
  cases after
  · rfl
  · rfl
  · exact clearUndo_loadingMore s

theorem handleClearSearch_loadingMore (s : AppState) :
    loadingMore (handleClearSearch s) = loadingMore s := by
  unfold handleClearSearch
  rw [clearTimeoutRef_loadingMore]
  rfl

theorem handleSearchChange_loadingMore (s : AppState) (query : String) (searchAll : Bool) :
    loadingMore (handleSearchChange s query searchAll) = loadingMore s := by
  have h := clearTimeoutRef_loadingMore
    { s with searchQuery := query, searchAllFolders := searchAll } s.searchTimeoutRef
  unfold handleSearchChange
  split
  · exact h
  · exact h

theorem handleRefresh_loadingMore (s : AppState) :
    loadingMore (handleRefresh s) = loadingMore s := by
  unfold handleRefresh
  split
  · rw [fetchEmails_loadingMore]
    rfl
  · rfl

theorem handleFolderChange_loadingMore (s : AppState) (folder : String) :
    loadingMore (handleFolderChange s folder) = loadingMore s := by
  unfold handleFolderChange
  split
  · rw [fetchEmails_loadingMore, handleClearSearch_loadingMore]
    rfl
  · rfl

theorem handleDeleteEmail_loadingMore (s : AppState) (x : String) :
    loadingMore (handleDeleteEmail s x) = loadingMore s := by
  unfold handleDeleteEmail
  split
  · rfl
  · split
    · rfl
    · simp [loadingMore, List.count_append]

theorem handleDeleteEmailResolved_loadingMore (s : AppState) (x : String) (A : Email)
    (f : String) (now : Nat) :
    loadingMore (handleDeleteEmailResolved s x A f now) = loadingMore s := by
  have h := clearTimeoutRef_loadingMore
    { s with undoInfo := some { emailId := x, email := A, folder := f, timestamp := now } }
    s.undoTimeoutRef
  exact h

theorem handleUndoDelete_loadingMore (s : AppState) :
    loadingMore (handleUndoDelete s) = loadingMore s := by
  unfold handleUndoDelete
  split
  · rfl
  · split
    · rfl
    · simp [loadingMore, List.count_append]

theorem handleUndoDeleteResolved_loadingMore (s : AppState) (u : UndoInfo) (f : String)
    (k : Int) : loadingMore (handleUndoDeleteResolved s u f k) = loadingMore s := by
  unfold handleUndoDeleteResolved
  split
  · rw [clearUndo_loadingMore]
    rfl
  · rw [fetchEmails_loadingMore]

theorem handleEmailSelect_loadingMore (s : AppState) (email : Email) :
    loadingMore (handleEmailSelect s email) = loadingMore s := by
  unfold handleEmailSelect
  split
  · simp [loadingMore, List.count_append]
  · rfl

theorem performSearch_loadingMore (s : AppState) (accessToken : Option String)
    (currentFolder query : String) (folder : Option String) (searchAll : Bool) :
    loadingMore (performSearch s accessToken currentFolder query folder searchAll)
      = loadingMore s := by
  unfold performSearch
  split
  · rfl
  · simp [loadingMore, List.count_append]

theorem performSearchRejected_loadingMore (s : AppState) (query : String)
    (folder : Option String) (searchAll : Bool) (currentFolder message : String) :
    loadingMore (performSearchRejected s query folder searchAll currentFolder message)
      = loadingMore s := by
  unfold performSearchRejected
  split
  · split <;> simp [loadingMore, List.count_append]
  · rfl

theorem timerCallback_loadingMore (s : AppState) (action : TimerAction) :
    loadingMore (timerCallback s action) = loadingMore s := by
  cases action
  · rfl
  · exact performSearch_loadingMore _ _ _ _ _ _

theorem resume_loadingMore (s : AppState) (p : Pending) (value : Option (List Email))
    (now : Nat) (hp : p ≠ Pending.loadMoreEmails) :
    loadingMore (resume s p value now) = loadingMore s := by
  cases p with
  | fetchEmails showLoading append after =>
    exact (afterFetch_loadingMore _ _).trans (fetchEmailsResolved_loadingMore _ _ _ _ _)
  | loadMoreEmails => exact absurd rfl hp
  | deleteEmail x A f => exact handleDeleteEmailResolved_loadingMore s x A f now
  | restoreEmail u f k => exact handleUndoDeleteResolved_loadingMore s u f k
  | sendEmail f k =>
    exact (fetchEmails_loadingMore _ _ _ _ _ _ _).trans rfl
  | _ => rfl

theorem fail_loadingMore (s : AppState) (p : Pending) (message : String)
    (hp : p ≠ Pending.loadMoreEmails) :
    loadingMore (fail s p message) = loadingMore s := by
  cases p with
  | fetchEmails showLoading append after =>
    exact (afterFetch_loadingMore _ _).trans (fetchEmailsFinally_loadingMore _ _)
  | loadMoreEmails => exact absurd rfl hp
  | searchEmails query folder searchAll currentFolder =>
    exact performSearchRejected_loadingMore _ _ _ _ _ _
  | _ => rfl

theorem loadMoreInv_of_eq {s s' : AppState} (h : LoadMoreInv s)
    (he : loadingMore s' = loadingMore s) : LoadMoreInv s' := by
  have h₁ : s'.isLoadingMore = s.isLoadingMore := congrArg Prod.fst he
  have h₂ : s'.inflight.count Pending.loadMoreEmails
      = s.inflight.count Pending.loadMoreEmails := congrArg Prod.snd he
  unfold LoadMoreInv
  rw [h₁, h₂]
  exact h

theorem commit_loadingMore (s s' : AppState) : loadingMore (commit s s') = loadingMore s' := by
  unfold commit
  split <;> rfl

theorem erase_loadingMore (s : AppState) (p : Pending) (hp : p ≠ Pending.loadMoreEmails) :
    loadingMore { s with inflight := s.inflight.erase p } = loadingMore s := by
  simp only [loadingMore]
  rw [List.count_erase_of_ne (Ne.symm hp)]

theorem loadMoreInv_erase (s : AppState) (h : LoadMoreInv s)
    (hp : Pending.loadMoreEmails ∈ s.inflight) :
    (s.inflight.erase Pending.loadMoreEmails).count Pending.loadMoreEmails = 0 := by
  have hpos := List.count_pos_iff.mpr hp
  unfold LoadMoreInv at h
  rw [List.count_erase_self]
  split at h <;> omega

theorem handle_loadMoreInv (s : AppState) (ev : Event) (h : LoadMoreInv s) :
    LoadMoreInv (handle s ev) := by
  cases ev with
  | tokenAcquired token =>
    simp only [handle]
    split
    · split
      · exact loadMoreInv_of_eq h ((fetchEmails_loadingMore _ _ _ _ _ _ _).trans rfl)
      · exact h
    · exact h
  | refreshTick => exact loadMoreInv_of_eq h (checkForNewEmails_loadingMore s)
  | clickFolder folder =>
    simp only [handle, handleFolderClick]
    split
    · exact h
    · split
      · split
        · exact h
        · exact loadMoreInv_of_eq h (handleRefresh_loadingMore s)
      · exact loadMoreInv_of_eq h (handleFolderChange_loadingMore s folder)
  | scrollToEnd =>
    simp only [handle]
    split
    · exact h
    · unfold loadMoreEmails
      split
      · exact h
      · rename_i hg
        simp only [Bool.or_eq_true, not_or, Bool.not_eq_true] at hg
        unfold LoadMoreInv at h ⊢
        rw [hg.1.2] at h
        simp [List.count_append, h]
  | typeSearch query =>
    simp only [handle]
    split
    · exact h
    · exact loadMoreInv_of_eq h (handleSearchChange_loadingMore _ _ _)
  | toggleSearchAll checked =>
    simp only [handle, handleSearchAllFoldersChange]
    split
    · exact h
    · split
      · exact loadMoreInv_of_eq h ((handleSearchChange_loadingMore _ _ _).trans rfl)
      · exact h
  | clearSearch =>
    simp only [handle]
    split
    · exact h
    · exact loadMoreInv_of_eq h (handleClearSearch_loadingMore s)
  | clickEmail email =>
    simp only [handle]
    split
    · exact h
    · exact loadMoreInv_of_eq h (handleEmailSelect_loadingMore s email)
  | clickDelete emailId =>
    simp only [handle]
    split
    · exact h
    · exact loadMoreInv_of_eq h (handleDeleteEmail_loadingMore s emailId)
  | clickUndo =>
    simp only [handle]
    split
    · exact h
    · exact loadMoreInv_of_eq h (handleUndoDelete_loadingMore s)
  | dismiss =>
    simp only [handle]
    split
    · exact h
    · exact loadMoreInv_of_eq h (clearUndo_loadingMore s)
  | clickBadge =>
    simp only [handle]
    split <;> exact h
  | clickCompose =>
    simp only [handle]
    split <;> exact h
  | cancelCompose =>
    simp only [handle]
    split <;> exact h
  | clickSend =>
    simp only [handle]
    split
    · exact h
    · unfold handleSendEmail LoadMoreInv
      unfold LoadMoreInv at h
      simp [List.count_append, h]
  | timerFires id =>
    simp only [handle]
    split
    · exact loadMoreInv_of_eq h ((timerCallback_loadingMore _ _).trans rfl)
    · exact h
  | resolved p value now =>
    simp only [handle]
    split
    · rename_i hg
      simp only [Bool.and_eq_true, decide_eq_true_eq] at hg
      by_cases hp : p = Pending.loadMoreEmails
      · subst hp
        have h0 := loadMoreInv_erase s h hg.1
        simp only [resume, loadMoreEmailsResolved, LoadMoreInv]
        simpa using h0
      · exact loadMoreInv_of_eq h
          ((resume_loadingMore _ p value now hp).trans (erase_loadingMore s p hp))
    · exact h
  | rejected p message =>
    simp only [handle]
    split
    · rename_i hg
      simp only [Bool.and_eq_true, decide_eq_true_eq] at hg
      by_cases hp : p = Pending.loadMoreEmails
      · subst hp
        have h0 := loadMoreInv_erase s h hg.1
        simp only [fail, loadMoreEmailsRejected, LoadMoreInv]
        simpa using h0
      · exact loadMoreInv_of_eq h
          ((fail_loadingMore _ p message hp).trans (erase_loadingMore s p hp))
    · exact h
  | resolvedAll p inbox sent drafts =>
    simp only [handle]
    split
    · split
      · rename_i query
        exact loadMoreInv_of_eq h (erase_loadingMore s _ (by simp))
      · exact h
    · exact h

theorem step_loadMoreInv (s : AppState) (ev : Event) (h : LoadMoreInv s) :
    LoadMoreInv (step s ev) :=
  loadMoreInv_of_eq (handle_loadMoreInv s ev h) (commit_loadingMore _ _)

theorem run_loadMoreInv (evs : List Event) (s : AppState) (h : LoadMoreInv s) :
    LoadMoreInv (run s evs) := by
  induction evs generalizing s with
  | nil => exact h
  | cons ev rest ih => exact ih (step s ev) (step_loadMoreInv s ev h)

/-- In every reachable state `isLoadingMore` is up exactly while a `loadMoreEmails` waits for
its page, and at most one does. -/
theorem reachable_loadMoreInv (s : AppState) (h : Reachable s) : LoadMoreInv s := by
  obtain ⟨evs, rfl⟩ := h
  exact run_loadMoreInv evs initialState rfl

/-- C21, counterexample: the inbox `[a, b]` is loaded and the user forces a refresh, which
raises the has-more flag and resets the cursor; while that load is in flight the end of
the list is reached and `loadMoreEmails` sends a request of its own, at cursor 0.  Both
pages arrive: the list is `[a, b]` and the cursor is 4. -/
theorem C21_load_more_during_forced_refresh :
    refreshingManually.inflight = [Pending.fetchEmails true false AfterFetch.nothing] ∧
    (step refreshingManually Event.scrollToEnd).inflight
      = [Pending.fetchEmails true false AfterFetch.nothing, Pending.loadMoreEmails] ∧
    (step refreshingManually Event.scrollToEnd).requests
      = refreshingManually.requests ++ [Request.getFolderEmails "inbox" 50 0] ∧
    (run refreshingManually
      [Event.scrollToEnd,
       Event.resolved (Pending.fetchEmails true false AfterFetch.nothing)
         (some [mkEmail "a" 2, mkEmail "b" 1]) 3,
       Event.resolved Pending.loadMoreEmails (some [mkEmail "a" 2, mkEmail "b" 1]) 4]).emails
      = [mkEmail "a" 2, mkEmail "b" 1] ∧
    (run refreshingManually
      [Event.scrollToEnd,
       Event.resolved (Pending.fetchEmails true false AfterFetch.nothing)
         (some [mkEmail "a" 2, mkEmail "b" 1]) 3,
       Event.resolved Pending.loadMoreEmails (some [mkEmail "a" 2, mkEmail "b" 1])
         4]).currentSkip = 4 := by
  decide

/-- C21, amended: in a reachable state `loadMoreEmails` changes nothing when there is no
token, the has-more flag is down or an earlier `loadMoreEmails` waits for its page;
otherwise, whatever else is in flight, it leaves the list and the cursor as they are and
requests the page of the viewed folder at the cursor, the request of the append mode of
`fetchEmails`, and the arrival of the page changes the list, the cursor and the has-more
flag as the append mode of `fetchEmails` does. -/
theorem C21_load_more (s : AppState) (hs : Reachable s) :
    (truthy s.accessToken = false ∨ s.hasMoreEmails = false ∨
      Pending.loadMoreEmails ∈ s.inflight → loadMoreEmails s = s) ∧
    (truthy s.accessToken = true → s.hasMoreEmails = true →
      Pending.loadMoreEmails ∉ s.inflight →
      (loadMoreEmails s).requests = s.requests ++
        [Request.getFolderEmails (folderEndpoint s.currentFolder) 50 s.currentSkip] ∧
      (loadMoreEmails s).requests
        = (fetchEmails s s.currentSkip s.currentFolder false true none
            AfterFetch.nothing).requests ∧
      (loadMoreEmails s).inflight = s.inflight ++ [Pending.loadMoreEmails] ∧
      (loadMoreEmails s).emails = s.emails ∧
      (loadMoreEmails s).currentSkip = s.currentSkip) ∧
    (∀ (t : AppState) (value : Option (List Email)) (now : Nat) (showLoading : Bool),
      (loadMoreEmailsResolved t value).emails
        = (fetchEmailsResolved t showLoading true value now).emails ∧
      (loadMoreEmailsResolved t value).currentSkip
        = (fetchEmailsResolved t showLoading true value now).currentSkip ∧
      (loadMoreEmailsResolved t value).hasMoreEmails
        = (fetchEmailsResolved t showLoading true value now).hasMoreEmails) := by
  have hinv := reachable_loadMoreInv s hs
  unfold LoadMoreInv at hinv
  refine ⟨fun h => ?_, fun htoken hmore hnot => ?_, fun t value now showLoading => ?_⟩
  · unfold loadMoreEmails
    rcases h with h | h | h
    · simp [h]
    · simp [h]
    · have hpos := List.count_pos_iff.mpr h
      have hflag : s.isLoadingMore = true := by
        cases hl : s.isLoadingMore
        · rw [hl] at hinv
          simp at hinv
          omega
        · rfl
      simp [hflag]
  · have hflag : s.isLoadingMore = false := by
      cases hl : s.isLoadingMore
      · rfl
      · rw [hl] at hinv
        have := List.count_pos_iff.mp (by rw [hinv]; decide : 0 < s.inflight.count _)
        exact absurd this hnot
    unfold loadMoreEmails
    rw [if_neg (by simp [htoken, hmore, hflag])]
    refine ⟨rfl, ?_, rfl, rfl, rfl⟩
    simp [fetchEmails, truthy]
  · cases showLoading <;> exact ⟨rfl, rfl, rfl⟩

/-- C21, witness: in the loaded inbox `[a, b]` the has-more flag is down and nothing
happens; while the forced refresh is in flight the flag is up and the page at cursor 0 is
requested. -/
theorem C21_load_more_witness :
    (loadedInbox [mkEmail "a" 2, mkEmail "b" 1]).hasMoreEmails = false ∧
    loadMoreEmails (loadedInbox [mkEmail "a" 2, mkEmail "b" 1])
      = loadedInbox [mkEmail "a" 2, mkEmail "b" 1] ∧
    (truthy refreshingManually.accessToken = true ∧ refreshingManually.hasMoreEmails = true ∧
      Pending.loadMoreEmails ∉ refreshingManually.inflight) ∧
    (loadMoreEmails refreshingManually).requests
      = refreshingManually.requests ++ [Request.getFolderEmails "inbox" 50 0] :=
  ⟨by decide,
   (C21_load_more (loadedInbox [mkEmail "a" 2, mkEmail "b" 1]) ⟨_, rfl⟩).1
     (Or.inr (Or.inl (by decide))),
   by decide,
   ((C21_load_more refreshingManually
      ⟨[Event.tokenAcquired "token",
        Event.resolved (Pending.fetchEmails false false AfterFetch.initializeApp)
          (some [mkEmail "a" 2, mkEmail "b" 1]) 0,
        Event.clickFolder "inbox"], rfl⟩).2.1 (by decide) (by decide) (by decide)).1⟩

/-! ## Refreshes in flight -/

/-- C22: a background refresh of the inbox is in flight and two folder loads have since
set and lowered `isRefreshingRef`; the inbox button is enabled again, the user clicks it,
and `handleRefresh` sends the first page of the inbox a second time: the background
refresh and the manual refresh of the inbox are in flight together. -/
theorem C22_manual_refresh_during_background_refresh :
    refreshStillPending.currentFolder = "inbox" ∧
    refreshStillPending.inflight = [Pending.checkForNewEmails] ∧
    refreshStillPending.isRefreshingRef = false ∧
    (step refreshStillPending (Event.clickFolder "inbox")).inflight
      = [Pending.checkForNewEmails, Pending.fetchEmails true false AfterFetch.nothing] ∧
    (step refreshStillPending (Event.clickFolder "inbox")).requests
      = refreshStillPending.requests ++ [Request.getFolderEmails "inbox" 50 0] := by
  decide

end EmailApp
